import Mathlib

/-!
# Frame compositing core of the render manager

A shallow embedding of `src/output/render-manager.cpp`: the per-output damage
tracker (`output_damage_t`), the effect hook registry, the postprocessing
chain, the workspace stream renderer and the `paint` sequence, and of the layer
focus requests of `src/core/core.cpp`, followed by theorems about them.

Modelling conventions.

* C++ `int` values are `Int`. The products of grid and output sizes are taken
  modulo `2^32` (`int32_wrap`), as the 32-bit `int` of the source holds them;
  the reference counters are shown to stay inside the 32-bit range for every
  call sequence shorter than `2^31`.
* Pointers to hooks, surfaces and views are `Nat` identities.
* Calls into collaborators (the wlroots backend, OpenGL, signals, the log) do
  not return anything the code branches on, except `make_current`; each such
  call is recorded as an `event` in the `trace` of the state, in call order.
* The result of `wlr_output_damage_make_current` is an input of `paint`.
* `uint32_t` layers are `Nat`, request ids are `Int`; `last_request_uid` stays
  below `2^31` for every call sequence shorter than `2^31`.
-/

namespace wf

/-! ## Geometry and regions -/

/-- Plain box of the backend: position of the top-left corner and size. -/
structure wlr_box where
  x : Int
  y : Int
  width : Int
  height : Int
deriving DecidableEq, Repr

/-- Offset added to a region (`wf_point` of the source). -/
structure wf_point where
  x : Int
  y : Int
deriving DecidableEq, Repr

/-- Modelled from the spec: `wf_region` wraps a pixman region, whose code is
not part of the sources at hand. A region denotes a finite set of pixels;
two pixman regions are equal exactly when they cover the same pixels. -/
abbrev wf_region := Finset (Int × Int)

/-- Test whether pixel `p` lies inside the box. A box of non-positive width or
height contains no pixel. -/
def wlr_box.contains (b : wlr_box) (p : Int × Int) : Bool :=
  decide (b.x ≤ p.1) && decide (p.1 < b.x + b.width) &&
    decide (b.y ≤ p.2) && decide (p.2 < b.y + b.height)

/-- Pixels covered by a box. -/
def wlr_box.pixels (b : wlr_box) : wf_region :=
  Finset.Icc b.x (b.x + b.width - 1) ×ˢ Finset.Icc b.y (b.y + b.height - 1)

/-- Modelled from the spec: `region |= box`, union with a box. -/
def wf_region.or_box (r : wf_region) (b : wlr_box) : wf_region := r ∪ b.pixels

/-- Modelled from the spec: `region |= other`, union of regions. -/
def wf_region.or_region (r o : wf_region) : wf_region := r ∪ o

/-- Modelled from the spec: `region & box`, intersection with a box. -/
def wf_region.and_box (r : wf_region) (b : wlr_box) : wf_region :=
  r.filter (fun p => b.contains p = true)

/-- Modelled from the spec: `region + point`, translation of a region. -/
def wf_region.translate (r : wf_region) (d : wf_point) : wf_region :=
  r.image (fun p => (p.1 + d.x, p.2 + d.y))

/-- Modelled from the spec: `region.empty()`. -/
def wf_region.empty (r : wf_region) : Bool := decide (r = ∅)

/-- The value that a 32-bit `int` holds when the exact result of the arithmetic
is `n`: the two's complement representative of `n` modulo `2^32`, which is `n`
itself when `n` fits. -/
def int32_wrap (n : Int) : Int := (n + 2147483648) % 4294967296 - 2147483648

/-! ## Events recorded in the trace -/

/-- Identity of a framebuffer that a postprocessing hook reads or writes:
the static `default_framebuffer` (fb 0, tex 0, the screen) or one of the three
`post_buffers`. -/
inductive fb_target where
  | default_framebuffer
  | post_buffers (idx : Nat)
deriving DecidableEq, Repr

/-- The three phases of effect hooks (`output_effect_type_t`). -/
inductive output_effect_type_t where
  | OUTPUT_EFFECT_PRE
  | OUTPUT_EFFECT_OVERLAY
  | OUTPUT_EFFECT_POST
deriving DecidableEq, Repr

/-- Calls that leave the render manager, and entries into the functions whose
invocations are counted, in the order in which they happen. -/
inductive event where
  /-- `wlr_output_damage_add_box(damage_manager, &box)` -/
  | wlr_output_damage_add_box (box : wlr_box)
  /-- `wlr_output_damage_add(damage_manager, region)` -/
  | wlr_output_damage_add (region : wf_region)
  /-- `wlr_output_schedule_frame(output)` -/
  | wlr_output_schedule_frame
  /-- `wlr_output_damage_make_current(...)`, with whether it succeeded -/
  | wlr_output_damage_make_current (ok : Bool)
  /-- `wlr_output_damage_swap_buffers(damage_manager, when, region)`; the
  region is the one handed to `swap_buffers` by `paint` -/
  | wlr_output_damage_swap_buffers (swap_damage : wf_region)
  /-- entry into `output_damage_t::damage_whole` -/
  | damage_whole
  /-- entry into `output_damage_t::damage_whole_idle` -/
  | damage_whole_idle
  /-- `output->emit_signal(name, ...)` -/
  | emit_signal (name : String)
  /-- `log_error(message)` -/
  | log_error (message : String)
  /-- invocation of an effect hook by `run_effects` -/
  | effect_hook (phase : output_effect_type_t) (hook : Nat)
  /-- invocation `(*post)(source, destination)` of a postprocessing hook -/
  | post_hook (hook : Nat) (source : fb_target) (destination : fb_target)
  /-- `buffer.allocate(width, height)` on a postprocessing buffer -/
  | allocate (buffer : fb_target) (width height : Int)
  /-- `stream.buffer.allocate(width, height)` on a workspace stream -/
  | allocate_stream (ws : Int × Int) (width height : Int)
  /-- `OpenGL::bind_output(output)` -/
  | bind_output
  /-- `OpenGL::unbind_output(output)` -/
  | unbind_output
  /-- `renderer(get_target_framebuffer())`, the custom renderer -/
  | custom_renderer (hook : Nat)
  /-- `OpenGL::clear(color)` over the whole output, named by its purpose -/
  | clear_output (what : String)
  /-- the `OpenGL::clear(color)` calls of `clear_empty_areas`, one for each
  rectangle of the remaining workspace damage; the event carries their union -/
  | clear_area (area : wf_region)
  /-- `wlr_output_render_software_cursors(output, swap_damage)` -/
  | render_software_cursors (swap_damage : wf_region)
  /-- `ds->surface->render_fb(ds->damage, fb)` with `fb.geometry` at (x, y) -/
  | render_fb (surface : Nat) (x y : Int) (damage : wf_region)
  /-- `surface->send_frame_done(repaint_ended)` -/
  | send_frame_done (surface : Nat)
  /-- `drag_icon->set_output(output or nullptr)` -/
  | drag_icon_set_output (attached : Bool)
deriving DecidableEq

/-! ## Collaborators of the render manager -/

/-- Answers of one surface (`wayfire_surface_t`) to the calls the renderer
makes on it. -/
structure wayfire_surface_t where
  /-- address of the surface -/
  id : Nat
  /-- `is_mapped()` -/
  is_mapped : Bool
  /-- `get_output_geometry()` -/
  output_geometry : wlr_box
  /-- `alpha`, counted in thousandths: the source holds a float and only
  compares it with `0.999f` -/
  alpha : Int
  /-- Modelled from the spec: the area that `subtract_opaque(region, x, y)`
  removes from `region` when the surface is placed at `(x, y)`; the bodies of
  the overrides are not part of the sources at hand, the base class removes
  nothing. -/
  opaque_area : Int → Int → wf_region

/-- Modelled from the spec: `surface->subtract_opaque(region, x, y)`, whose
overriding bodies are missing: the surface takes its opaque area away from the
region. -/
def subtract_opaque (surface : wayfire_surface_t) (region : wf_region)
    (x y : Int) : wf_region :=
  region \ surface.opaque_area x y

/-- Answers of one view (`wayfire_view_t`) to the calls the renderer makes. -/
structure wayfire_view_t where
  /-- address of the view -/
  id : Nat
  /-- `is_visible()` -/
  is_visible : Bool
  /-- `is_mapped()` -/
  is_mapped : Bool
  /-- `role == WF_VIEW_ROLE_SHELL_VIEW` -/
  role_shell_view : Bool
  /-- `has_transformer()` -/
  has_transformer : Bool
  /-- `get_bounding_box()` -/
  bounding_box : wlr_box
  /-- the surfaces `for_each_surface` visits, in its order, each with the
  position it passes to the callback -/
  for_each_surface : List (wayfire_surface_t × Int × Int)

/-- The layer masks the render manager queries with. -/
inductive layer_mask where
  | WF_VISIBLE_LAYERS
  | WF_MIDDLE_LAYERS
  | WF_BELOW_ABOVE_LAYERS
deriving DecidableEq, Repr

/-- The output, its workspace manager, the input manager and the runtime
configuration, as far as the render manager reads them. -/
structure wayfire_output where
  /-- `wlr_output_transformed_resolution(output, &w, &h)` -/
  transformed_width : Int
  transformed_height : Int
  /-- `output->handle->width`, `output->handle->height` -/
  handle_width : Int
  handle_height : Int
  /-- `output->get_relative_geometry()` -/
  relative_geometry : wlr_box
  /-- `workspace->get_current_workspace()` -/
  current_workspace : Int × Int
  /-- `workspace->get_workspace_grid_size()` -/
  workspace_grid_size : Int × Int
  /-- `workspace->get_views_on_workspace(ws, layers, false)`, front to back -/
  get_views_on_workspace : Int × Int → layer_mask → List wayfire_view_t
  /-- the views `workspace->for_each_view(callback, layers)` visits -/
  for_each_view : layer_mask → List wayfire_view_t
  /-- `core->input->drag_icon`, when there is one: `is_mapped()` and the
  surfaces its `for_each_surface` visits -/
  drag_icon : Option (Bool × List (wayfire_surface_t × Int × Int))
  /-- `wf_framebuffer::damage_box_from_geometry_box` of the target
  framebuffer, which applies the output scale -/
  damage_box_from_geometry_box : wlr_box → wlr_box
  /-- `runtime_config.no_damage_track` -/
  no_damage_track : Bool
  /-- `runtime_config.damage_debug` -/
  damage_debug : Bool

/-! ## State of the render manager -/

/-- Fields of `output_damage_t` that change: the accumulated damage, whether
`damage_manager` is non-null, and whether the two idle calls are connected. -/
structure output_damage_t where
  frame_damage : wf_region
  damage_manager : Bool
  idle_redraw : Bool
  idle_damage : Bool

/-- Offscreen buffer ids of a `wf_framebuffer_base`. -/
structure wf_framebuffer_base where
  fb : Nat
  tex : Nat
deriving DecidableEq, Repr

/-- One `workspace_stream_t`. The scale factors are floats in the source and
only ever hold the value 1. -/
structure workspace_stream_t where
  ws : Int × Int
  buffer : wf_framebuffer_base
  running : Bool
  scale_x : Int
  scale_y : Int
deriving DecidableEq, Repr

/-- State of `render_manager::impl` together with the trace of the calls it
has made. -/
structure impl where
  output : wayfire_output
  output_damage : output_damage_t
  /-- `effects->effects[type]` -/
  effects : output_effect_type_t → List Nat
  /-- `postprocessing->post_effects` -/
  post_effects : List Nat
  /-- `postprocessing->post_buffers[default_out_buffer]` ids -/
  post_buffer0 : wf_framebuffer_base
  /-- `postprocessing->output_width`, `output_height` -/
  output_width : Int
  output_height : Int
  /-- `default_streams[i][j]` -/
  default_streams : Int × Int → workspace_stream_t
  /-- `current_ws_stream`: the grid cell of the stream pointed to -/
  current_ws_stream : Option (Int × Int)
  /-- `renderer`: the custom render hook, when one is set -/
  renderer : Option Nat
  constant_redraw_counter : Int
  output_inhibit_counter : Int
  trace : List event

/-- Append one event to the trace. -/
def impl.log (st : impl) (e : event) : impl :=
  { st with trace := st.trace ++ [e] }

/-! ## output_damage_t -/

/-- `output_damage_t::schedule_repaint` -/
def output_damage_t.schedule_repaint (st : impl) : impl :=
  let st := st.log event.wlr_output_schedule_frame
  if !st.output_damage.idle_redraw then
    { st with output_damage := { st.output_damage with idle_redraw := true } }
  else st

/-- The callback of `idle_redraw`, run by the event loop when it is idle:
the idle call disconnects and schedules a frame. -/
def output_damage_t.run_idle_redraw (st : impl) : impl :=
  if st.output_damage.idle_redraw then
    impl.log { st with output_damage := { st.output_damage with idle_redraw := false } }
      event.wlr_output_schedule_frame
  else st

/-- `output_damage_t::damage(const wlr_box&)` -/
def output_damage_t.damage (st : impl) (box : wlr_box) : impl :=
  let st := { st with output_damage :=
    { st.output_damage with frame_damage := st.output_damage.frame_damage.or_box box } }
  let st := if st.output_damage.damage_manager then
    st.log (event.wlr_output_damage_add_box box) else st
  output_damage_t.schedule_repaint st

/-- `output_damage_t::damage(const wf_region&)` -/
def output_damage_t.damage_region (st : impl) (region : wf_region) : impl :=
  let st := { st with output_damage :=
    { st.output_damage with frame_damage := st.output_damage.frame_damage.or_region region } }
  let st := if st.output_damage.damage_manager then
    st.log (event.wlr_output_damage_add region) else st
  output_damage_t.schedule_repaint st

/-- `output_damage_t::get_damage_box` -/
def output_damage_t.get_damage_box (st : impl) : wlr_box :=
  { x := 0, y := 0, width := st.output.transformed_width,
    height := st.output.transformed_height }

/-- `output_damage_t::make_current`. The argument is what
`wlr_output_damage_make_current` answers when it is called: nothing when it
fails, otherwise `need_swap` and the damage it reports. The result is the
return value, `need_swap`, and the new state. -/
def output_damage_t.make_current (st : impl) (backend : Option (Bool × wf_region)) :
    Bool × Bool × impl :=
  if !st.output_damage.damage_manager then (false, false, st)
  else
    match backend with
    | none => (false, false, st.log (event.wlr_output_damage_make_current false))
    | some (need_swap, tmp_region) =>
      let st := st.log (event.wlr_output_damage_make_current true)
      let st := { st with output_damage :=
        { st.output_damage with
          frame_damage := st.output_damage.frame_damage.or_region tmp_region } }
      let st := if st.output.no_damage_track then
        { st with output_damage :=
          { st.output_damage with
            frame_damage :=
              st.output_damage.frame_damage.or_box (output_damage_t.get_damage_box st) } }
        else st
      (true, need_swap, st)

/-- `output_damage_t::get_scheduled_damage` -/
def output_damage_t.get_scheduled_damage (st : impl) : wf_region :=
  st.output_damage.frame_damage

/-- `output_damage_t::swap_buffers`. The event keeps the region as `paint`
handed it over, before `wlr_region_transform` turns it into buffer
coordinates. -/
def output_damage_t.swap_buffers (st : impl) (swap_damage : wf_region) : impl :=
  if !st.output_damage.damage_manager then st
  else
    let st := st.log (event.wlr_output_damage_swap_buffers swap_damage)
    { st with output_damage := { st.output_damage with frame_damage := ∅ } }

/-- `output_damage_t::get_ws_box` -/
def output_damage_t.get_ws_box (st : impl) (ws : Int × Int) : wlr_box :=
  let box := output_damage_t.get_damage_box st
  { box with
    x := int32_wrap ((ws.1 - st.output.current_workspace.1) * box.width),
    y := int32_wrap ((ws.2 - st.output.current_workspace.2) * box.height) }

/-- `output_damage_t::get_ws_damage` -/
def output_damage_t.get_ws_damage (st : impl) (ws : Int × Int) : wf_region :=
  let ws_box := output_damage_t.get_ws_box st ws
  (st.output_damage.frame_damage.and_box ws_box).translate
    { x := -ws_box.x, y := -ws_box.y }

/-- `output_damage_t::damage_whole` -/
def output_damage_t.damage_whole (st : impl) : impl :=
  let st := st.log event.damage_whole
  let (vw, vh) := st.output.workspace_grid_size
  let (vx, vy) := st.output.current_workspace
  let sw := st.output.transformed_width
  let sh := st.output.transformed_height
  output_damage_t.damage st
    { x := int32_wrap (-vx * sw), y := int32_wrap (-vy * sh),
      width := int32_wrap (vw * sw), height := int32_wrap (vh * sh) }

/-- `output_damage_t::damage_whole_idle` -/
def output_damage_t.damage_whole_idle (st : impl) : impl :=
  let st := st.log event.damage_whole_idle
  let st := output_damage_t.damage_whole st
  if !st.output_damage.idle_damage then
    { st with output_damage := { st.output_damage with idle_damage := true } }
  else st

/-- The callback of `idle_damage`, run by the event loop when it is idle:
the idle call disconnects and `damage_whole()` runs. -/
def output_damage_t.run_idle_damage (st : impl) : impl :=
  if st.output_damage.idle_damage then
    output_damage_t.damage_whole
      { st with output_damage := { st.output_damage with idle_damage := false } }
  else st

/-! ## effect_hook_manager_t

Modelled from the spec: `wf::safe_list_t` is not part of the sources at hand.
It is an ordered list: `push_back` appends, `remove_all` drops every entry
equal to its argument, `for_each` visits the entries in order. -/

/-- `effect_hook_manager_t::add_effect` -/
def effect_hook_manager_t.add_effect (st : impl) (hook : Nat)
    (type : output_effect_type_t) : impl :=
  { st with effects := fun t => if t = type then st.effects t ++ [hook] else st.effects t }

/-- `effect_hook_manager_t::rem_effect` -/
def effect_hook_manager_t.rem_effect (st : impl) (hook : Nat) : impl :=
  { st with effects := fun t => (st.effects t).filter (fun h => h ≠ hook) }

/-- `effect_hook_manager_t::run_effects` -/
def effect_hook_manager_t.run_effects (st : impl) (type : output_effect_type_t) : impl :=
  (st.effects type).foldl (fun s hook => s.log (event.effect_hook type hook)) st

/-! ## postprocessing_manager_t -/

/-- `postprocessing_manager_t::allocate` -/
def postprocessing_manager_t.allocate (st : impl) (width height : Int) : impl :=
  if st.post_effects.length = 0 then st
  else
    let st := { st with output_width := width, output_height := height }
    st.log (event.allocate (fb_target.post_buffers 0) width height)

/-- `postprocessing_manager_t::add_post` -/
def postprocessing_manager_t.add_post (st : impl) (hook : Nat) : impl :=
  let st := { st with post_effects := st.post_effects ++ [hook] }
  output_damage_t.damage_whole_idle st

/-- `postprocessing_manager_t::rem_post` -/
def postprocessing_manager_t.rem_post (st : impl) (hook : Nat) : impl :=
  let st := { st with post_effects := st.post_effects.filter (fun h => h ≠ hook) }
  output_damage_t.damage_whole_idle st

/-- Body of the loop of `run_post_effects` for one entry `post` of the chain:
the state of the loop is the trace state and the two buffer indices. -/
def postprocessing_manager_t.run_post_effects_step
    (acc : impl × Nat × Nat) (post : Nat) : impl × Nat × Nat :=
  let (st, last_buffer_idx, next_buffer_idx) := acc
  let next_buffer : fb_target :=
    if some post = st.post_effects.getLast? then fb_target.default_framebuffer
    else fb_target.post_buffers next_buffer_idx
  let st := st.log (event.allocate next_buffer st.output_width st.output_height)
  let st := st.log
    (event.post_hook post (fb_target.post_buffers last_buffer_idx) next_buffer)
  (st, next_buffer_idx, next_buffer_idx ^^^ 3)

/-- `postprocessing_manager_t::run_post_effects` -/
def postprocessing_manager_t.run_post_effects (st : impl) : impl :=
  (st.post_effects.foldl postprocessing_manager_t.run_post_effects_step (st, 0, 1)).1

/-- `postprocessing_manager_t::get_default_target` -/
def postprocessing_manager_t.get_default_target (st : impl) : wf_framebuffer_base :=
  if st.post_effects.length ≠ 0 then st.post_buffer0 else { fb := 0, tex := 0 }

/-! ## render_manager::impl: renderer and counters -/

/-- `impl::set_renderer` -/
def impl.set_renderer (st : impl) (rh : Option Nat) : impl :=
  output_damage_t.damage_whole_idle { st with renderer := rh }

/-- `impl::set_redraw_always` -/
def impl.set_redraw_always (st : impl) (always : Bool) : impl :=
  let st := { st with
    constant_redraw_counter := st.constant_redraw_counter + (if always then 1 else -1) }
  if st.constant_redraw_counter > 1 then st
  else if st.constant_redraw_counter < 0 then
    let st := st.log (event.log_error "constant_redraw_counter got below 0!")
    { st with constant_redraw_counter := 0 }
  else output_damage_t.schedule_repaint st

/-- `impl::add_inhibit` -/
def impl.add_inhibit (st : impl) (add : Bool) : impl :=
  let st := { st with
    output_inhibit_counter := st.output_inhibit_counter + (if add then 1 else -1) }
  if st.output_inhibit_counter = 0 then
    let st := output_damage_t.damage_whole_idle st
    st.log (event.emit_signal "start-rendering")
  else st

/-- Target framebuffer of a repaint: buffer ids, `geometry`, and the
conversion `damage_box_from_geometry_box`. -/
structure wf_framebuffer where
  fb : Nat
  tex : Nat
  geometry : wlr_box
  damage_box_from_geometry_box : wlr_box → wlr_box

/-- `impl::get_target_framebuffer` -/
def impl.get_target_framebuffer (st : impl) : wf_framebuffer :=
  let target := postprocessing_manager_t.get_default_target st
  { fb := target.fb, tex := target.tex,
    geometry := st.output.relative_geometry,
    damage_box_from_geometry_box := st.output.damage_box_from_geometry_box }

/-- `impl::bind_output` -/
def impl.bind_output (st : impl) : impl :=
  let st := st.log event.bind_output
  postprocessing_manager_t.allocate st st.output.handle_width st.output.handle_height

/-! ## Workspace streams -/

/-- `damaged_surface_t`: a surface (or a view drawn from its snapshot)
together with its damage for the current frame. -/
structure damaged_surface_t where
  surface : Nat
  x : Int
  y : Int
  damage : wf_region
deriving DecidableEq

/-- `workspace_stream_repaint_t` -/
structure workspace_stream_repaint_t where
  to_render : List damaged_surface_t
  ws_damage : wf_region
  fb : wf_framebuffer
  ws_dx : Int
  ws_dy : Int

/-- The threshold of `schedule_surface`, `0.999f`, in thousandths. -/
def opaque_alpha_threshold : Int := 999

/-- `impl::schedule_snapshotted_view` -/
def impl.schedule_snapshotted_view (repaint : workspace_stream_repaint_t)
    (view : wayfire_view_t) (view_dx view_dy : Int) : workspace_stream_repaint_t :=
  let bbox : wlr_box :=
    { view.bounding_box with
      x := view.bounding_box.x + -view_dx, y := view.bounding_box.y + -view_dy }
  let bbox := repaint.fb.damage_box_from_geometry_box bbox
  let damage := repaint.ws_damage.and_box bbox
  if !damage.empty then
    { repaint with
      to_render := repaint.to_render ++
        [{ surface := view.id, x := view_dx, y := view_dy, damage := damage }] }
  else repaint

/-- `impl::schedule_surface` -/
def impl.schedule_surface (repaint : workspace_stream_repaint_t)
    (surface : wayfire_surface_t) (x y view_dx view_dy : Int) :
    workspace_stream_repaint_t :=
  if !surface.is_mapped then repaint
  else if repaint.ws_damage.empty then repaint
  else
    let x := x - view_dx
    let y := y - view_dy
    let obox : wlr_box := { surface.output_geometry with x := x, y := y }
    let obox := repaint.fb.damage_box_from_geometry_box obox
    let damage := repaint.ws_damage.and_box obox
    if !damage.empty then
      let repaint :=
        if surface.alpha ≥ opaque_alpha_threshold then
          { repaint with ws_damage := subtract_opaque surface repaint.ws_damage x y }
        else repaint
      { repaint with
        to_render := repaint.to_render ++
          [{ surface := surface.id, x := view_dx, y := view_dy, damage := damage }] }
    else repaint

/-- The callback that `for_each_surface` runs over the surfaces of a view or
of the drag icon: `schedule_surface` on each of them in turn. -/
def impl.schedule_surfaces (repaint : workspace_stream_repaint_t)
    (surfaces : List (wayfire_surface_t × Int × Int)) (view_dx view_dy : Int) :
    workspace_stream_repaint_t :=
  surfaces.foldl
    (fun r s => impl.schedule_surface r s.1 s.2.1 s.2.2 view_dx view_dy) repaint

/-- `impl::schedule_drag_icon` -/
def impl.schedule_drag_icon (st : impl) (repaint : workspace_stream_repaint_t) :
    impl × workspace_stream_repaint_t :=
  match st.renderer, st.output.drag_icon with
  | some _, _ => (st, repaint)
  | none, none => (st, repaint)
  | none, some (is_mapped, surfaces) =>
    if !is_mapped then (st, repaint)
    else
      (st.log (event.drag_icon_set_output true),
        impl.schedule_surfaces repaint surfaces 0 0)

/-- `impl::unschedule_drag_icon` -/
def impl.unschedule_drag_icon (st : impl) : impl :=
  match st.output.drag_icon with
  | some (true, _) => st.log (event.drag_icon_set_output false)
  | _ => st

/-- Body of the loop of `check_schedule_surfaces` for one view that the loop
reaches with damage left. -/
def impl.check_schedule_view (repaint : workspace_stream_repaint_t)
    (view : wayfire_view_t) : workspace_stream_repaint_t :=
  if !view.is_visible then repaint
  else
    let view_dx := if !view.role_shell_view then repaint.ws_dx else 0
    let view_dy := if !view.role_shell_view then repaint.ws_dy else 0
    if view.has_transformer || !view.is_mapped then
      impl.schedule_snapshotted_view repaint view view_dx view_dy
    else
      impl.schedule_surfaces repaint view.for_each_surface view_dx view_dy

/-- The loop of `check_schedule_surfaces`:
`while (it != views.end() && !repaint.ws_damage.empty())`. -/
def impl.check_schedule_views (repaint : workspace_stream_repaint_t) :
    List wayfire_view_t → workspace_stream_repaint_t
  | [] => repaint
  | view :: rest =>
    if repaint.ws_damage.empty then repaint
    else impl.check_schedule_views (impl.check_schedule_view repaint view) rest

/-- `impl::check_schedule_surfaces` -/
def impl.check_schedule_surfaces (st : impl) (repaint : workspace_stream_repaint_t)
    (stream : workspace_stream_t) : impl × workspace_stream_repaint_t :=
  let views := st.output.get_views_on_workspace stream.ws layer_mask.WF_VISIBLE_LAYERS
  let (st, repaint) := impl.schedule_drag_icon st repaint
  (st, impl.check_schedule_views repaint views)

/-- `impl::calculate_repaint_for_stream`. The scale arguments only guard an
empty block of the source. The stream buffer ids are what the stream holds:
`allocate` is recorded, the ids it may assign come from OpenGL. -/
def impl.calculate_repaint_for_stream (st : impl) (stream : workspace_stream_t) :
    impl × workspace_stream_repaint_t :=
  let ws_damage := output_damage_t.get_ws_damage st stream.ws
  let target := impl.get_target_framebuffer st
  if ws_damage.empty then
    (st, { to_render := [], ws_damage := ws_damage, fb := target, ws_dx := 0, ws_dy := 0 })
  else
    let st := st.log
      (event.allocate_stream stream.ws st.output.handle_width st.output.handle_height)
    let fb : wf_framebuffer :=
      if stream.buffer.fb ≠ 0 ∧ stream.buffer.tex ≠ 0 then
        { target with fb := stream.buffer.fb, tex := stream.buffer.tex }
      else target
    let g := st.output.relative_geometry
    let (x, y) := stream.ws
    let (cx, cy) := st.output.current_workspace
    (st, { to_render := [], ws_damage := ws_damage, fb := fb,
           ws_dx := int32_wrap (g.x + (x - cx) * g.width),
           ws_dy := int32_wrap (g.y + (y - cy) * g.height) })

/-- `impl::clear_empty_areas`: every rectangle of the remaining workspace
damage is cleared to the background colour; the event carries their union. -/
def impl.clear_empty_areas (st : impl) (repaint : workspace_stream_repaint_t) : impl :=
  st.log (event.clear_area repaint.ws_damage)

/-- `impl::render_views` -/
def impl.render_views (st : impl) (repaint : workspace_stream_repaint_t) : impl :=
  repaint.to_render.reverse.foldl
    (fun s ds => s.log (event.render_fb ds.surface ds.x ds.y ds.damage)) st

/-- `impl::workspace_stream_update` -/
def impl.workspace_stream_update (st : impl) (stream : workspace_stream_t) : impl :=
  let (st, repaint) := impl.calculate_repaint_for_stream st stream
  if repaint.ws_damage.empty then st
  else
    let st := st.log (event.emit_signal "workspace-stream-pre")
    let (st, repaint) := impl.check_schedule_surfaces st repaint stream
    let st := impl.clear_empty_areas st repaint
    let st := impl.render_views st repaint
    let st := impl.unschedule_drag_icon st
    st.log (event.emit_signal "workspace-stream-post")

/-- The render list that `workspace_stream_update` builds for a stream: the
repaint state after `check_schedule_surfaces`. -/
def impl.scheduled_repaint (st : impl) (stream : workspace_stream_t) :
    workspace_stream_repaint_t :=
  let (st, repaint) := impl.calculate_repaint_for_stream st stream
  (impl.check_schedule_surfaces st repaint stream).2

/-- `impl::workspace_stream_start`, on the default stream of grid cell `ws`. -/
def impl.workspace_stream_start (st : impl) (ws : Int × Int) : impl :=
  let stream := { st.default_streams ws with running := true, scale_x := 1, scale_y := 1 }
  let st := { st with
    default_streams := fun c => if c = ws then stream else st.default_streams c }
  let st := output_damage_t.damage st (output_damage_t.get_ws_box st stream.ws)
  impl.workspace_stream_update st stream

/-- `impl::workspace_stream_stop`, on the default stream of grid cell `ws`. -/
def impl.workspace_stream_stop (st : impl) (ws : Int × Int) : impl :=
  { st with
    default_streams := fun c =>
      if c = ws then { st.default_streams ws with running := false }
      else st.default_streams c }

/-- `impl::default_renderer` -/
def impl.default_renderer (st : impl) (swap_damage : wf_region) : impl × wf_region :=
  let (st, swap_damage) :=
    if st.output.damage_debug then
      (st.log (event.clear_output "damage_debug"),
        swap_damage.or_box (output_damage_t.get_damage_box st))
    else (st, swap_damage)
  let target_stream := st.output.current_workspace
  if st.current_ws_stream ≠ some target_stream then
    let st := match st.current_ws_stream with
      | some current => impl.workspace_stream_stop st current
      | none => st
    let st := { st with current_ws_stream := some target_stream }
    (impl.workspace_stream_start st target_stream, swap_damage)
  else
    (impl.workspace_stream_update st (st.default_streams target_stream), swap_damage)

/-- `impl::render_output` -/
def impl.render_output (st : impl) (swap_damage : wf_region) : impl × wf_region :=
  match st.renderer with
  | some hook =>
    let st := st.log (event.custom_renderer hook)
    (st, swap_damage.or_box (output_damage_t.get_damage_box st))
  | none =>
    let swap_damage := output_damage_t.get_scheduled_damage st
    let swap_damage := swap_damage.and_box (output_damage_t.get_damage_box st)
    impl.default_renderer st swap_damage

/-- The callback `view_send_frame_done` of `post_paint`. -/
def impl.view_send_frame_done (st : impl) (v : wayfire_view_t) : impl :=
  if !v.is_mapped then st
  else v.for_each_surface.foldl (fun s surface => s.log (event.send_frame_done surface.1.id)) st

/-- `impl::post_paint` -/
def impl.post_paint (st : impl) : impl :=
  let st := effect_hook_manager_t.run_effects st output_effect_type_t.OUTPUT_EFFECT_POST
  let st := if st.constant_redraw_counter ≠ 0 then output_damage_t.schedule_repaint st else st
  match st.renderer with
  | some _ =>
    (st.output.for_each_view layer_mask.WF_VISIBLE_LAYERS).foldl impl.view_send_frame_done st
  | none =>
    let views := st.output.get_views_on_workspace st.output.current_workspace
      layer_mask.WF_MIDDLE_LAYERS
    let st := views.foldl impl.view_send_frame_done st
    (st.output.for_each_view layer_mask.WF_BELOW_ABOVE_LAYERS).foldl
      impl.view_send_frame_done st

/-- `impl::paint`. The argument is the answer of the backend to
`wlr_output_damage_make_current` in this frame. -/
def impl.paint (st : impl) (backend : Option (Bool × wf_region)) : impl :=
  let swap_damage : wf_region := ∅
  let st := effect_hook_manager_t.run_effects st output_effect_type_t.OUTPUT_EFFECT_PRE
  let (ok, needs_swap, st) := output_damage_t.make_current st backend
  if !ok then st
  else if !needs_swap && st.constant_redraw_counter = 0 then impl.post_paint st
  else
    let st := impl.bind_output st
    let (st, swap_damage) := impl.render_output st swap_damage
    let st := effect_hook_manager_t.run_effects st output_effect_type_t.OUTPUT_EFFECT_OVERLAY
    let swap_damage :=
      if st.post_effects.length ≠ 0 then
        swap_damage.or_box (output_damage_t.get_damage_box st)
      else swap_damage
    let st := st.log (event.render_software_cursors swap_damage)
    let st := postprocessing_manager_t.run_post_effects st
    let st := if st.output_inhibit_counter ≠ 0 then
      st.log (event.clear_output "inhibit") else st
    let st := st.log event.unbind_output
    let st := output_damage_t.swap_buffers st swap_damage
    impl.post_paint st

/-! ## Vocabulary of the theorems -/

/-- One request for damage through the façade: `damage(box)` or
`damage(region)`. -/
inductive damage_call where
  | box (b : wlr_box)
  | region (r : wf_region)

/-- Pixels a damage request asks to repaint. -/
def damage_call.pixels : damage_call → wf_region
  | damage_call.box b => b.pixels
  | damage_call.region r => r

/-- Perform one damage request. -/
def damage_call.apply (st : impl) : damage_call → impl
  | damage_call.box b => output_damage_t.damage st b
  | damage_call.region r => output_damage_t.damage_region st r

/-- The regions handed to `wlr_output_damage_swap_buffers`, in call order. -/
def swap_regions (t : List event) : List wf_region :=
  t.filterMap (fun e =>
    match e with
    | event.wlr_output_damage_swap_buffers r => some r
    | _ => none)

/-- The postprocessing hook invocations of a trace, in call order:
hook, source buffer, destination buffer. -/
def post_hook_calls (t : List event) : List (Nat × fb_target × fb_target) :=
  t.filterMap (fun e =>
    match e with
    | event.post_hook h s d => some (h, s, d)
    | _ => none)

/-- Relation between a state and a later state of the same frame in which no
buffer swap has happened in between: the collaborators, the renderer, the
hooks, the counters and the backend handle are the same, the accumulated damage
has only grown, and the trace has grown by events other than buffer swaps. -/
structure impl.frame_step (st st' : impl) : Prop where
  output : st'.output = st.output
  renderer : st'.renderer = st.renderer
  effects : st'.effects = st.effects
  post_effects : st'.post_effects = st.post_effects
  constant_redraw_counter : st'.constant_redraw_counter = st.constant_redraw_counter
  output_inhibit_counter : st'.output_inhibit_counter = st.output_inhibit_counter
  damage_manager : st'.output_damage.damage_manager = st.output_damage.damage_manager
  frame_damage : st.output_damage.frame_damage ⊆ st'.output_damage.frame_damage
  trace : ∃ evs, st'.trace = st.trace ++ evs ∧ swap_regions evs = []

/-- The `render_fb` calls of a trace, in call order, as render list entries. -/
def render_fb_calls (t : List event) : List damaged_surface_t :=
  t.filterMap (fun e =>
    match e with
    | event.render_fb surface x y damage => some ⟨surface, x, y, damage⟩
    | _ => none)

/-- Every prefix of the call sequence holds at least as many acquires (`true`)
as releases (`false`). -/
def balanced (calls : List Bool) : Prop :=
  ∀ n, n ≤ calls.length → (calls.take n).count false ≤ (calls.take n).count true

instance (calls : List Bool) : Decidable (balanced calls) :=
  inferInstanceAs (Decidable (∀ n, n ≤ calls.length →
    (calls.take n).count false ≤ (calls.take n).count true))

/-- The hook invocations that the comment of `run_post_effects` describes for
the entries `chain` still to run, when the loop holds the given buffer indices
and `back` is `post_effects.back()`: each entry reads the buffer written last
and writes the free buffer, the entry equal to `back` writes the screen. -/
def post_chain_calls (back : Option Nat) :
    List Nat → Nat → Nat → List (Nat × fb_target × fb_target)
  | [], _, _ => []
  | post :: rest, last_buffer_idx, next_buffer_idx =>
    (post, fb_target.post_buffers last_buffer_idx,
      if some post = back then fb_target.default_framebuffer
      else fb_target.post_buffers next_buffer_idx) ::
      post_chain_calls back rest next_buffer_idx (next_buffer_idx ^^^ 3)

/-! ## Scenarios used to evaluate the definitions -/

/-- An output of the given size at scale 1 and without transform, showing
workspace (0, 0) of a 1x1 grid, with the given views on every workspace and no
drag icon. -/
def scenario_output (width height : Int) (views : List wayfire_view_t) : wayfire_output :=
  { transformed_width := width, transformed_height := height,
    handle_width := width, handle_height := height,
    relative_geometry := { x := 0, y := 0, width := width, height := height },
    current_workspace := (0, 0), workspace_grid_size := (1, 1),
    get_views_on_workspace := fun _ _ => views,
    for_each_view := fun _ => [],
    drag_icon := none,
    damage_box_from_geometry_box := fun b => b,
    no_damage_track := false, damage_debug := false }

/-- A render manager on `scenario_output` right after a present: nothing
damaged, no hooks, no custom renderer, counters at 0, streams as
`init_default_streams` leaves them, workspace (0, 0) being streamed. -/
def scenario_impl (width height : Int) (views : List wayfire_view_t) : impl :=
  { output := scenario_output width height views,
    output_damage :=
      { frame_damage := ∅, damage_manager := true, idle_redraw := false,
        idle_damage := false },
    effects := fun _ => [],
    post_effects := [],
    post_buffer0 := { fb := 1, tex := 1 },
    output_width := width, output_height := height,
    default_streams := fun ws =>
      { ws := ws, buffer := { fb := 0, tex := 0 }, running := false,
        scale_x := 1, scale_y := 1 },
    current_ws_stream := some (0, 0),
    renderer := none,
    constant_redraw_counter := 0,
    output_inhibit_counter := 0,
    trace := [] }

/-- A mapped, untransformed, visible view with a single surface that covers
`box`, has the given alpha, and whose opaque area is its whole box when
`opaque_box` is set and nothing otherwise. -/
def scenario_view (id : Nat) (box : wlr_box) (alpha : Int) (opaque_box : Bool) :
    wayfire_view_t :=
  { id := id, is_visible := true, is_mapped := true, role_shell_view := false,
    has_transformer := false, bounding_box := box,
    for_each_surface :=
      [({ id := id, is_mapped := true, output_geometry := box, alpha := alpha,
          opaque_area := fun x y =>
            if opaque_box then (wlr_box.pixels { box with x := x, y := y }) else ∅ },
        box.x, box.y)] }

/-- `scenario_impl` with one PRE hook, two OVERLAY hooks, one POST hook and one
postprocessing hook registered. -/
def scenario_impl_with_hooks (width height : Int) (views : List wayfire_view_t) : impl :=
  { scenario_impl width height views with
    effects := fun type =>
      match type with
      | output_effect_type_t.OUTPUT_EFFECT_PRE => [1]
      | output_effect_type_t.OUTPUT_EFFECT_OVERLAY => [2, 3]
      | output_effect_type_t.OUTPUT_EFFECT_POST => [4],
    post_effects := [9] }

/-- `scenario_impl` after the backend damage primitive has been destroyed
(`damage_manager` is null), with pixel (0, 0) accumulated. -/
def scenario_impl_destroyed (width height : Int) (views : List wayfire_view_t) : impl :=
  { scenario_impl width height views with
    output_damage :=
      { frame_damage := {(0, 0)}, damage_manager := false, idle_redraw := false,
        idle_damage := false } }

/-! ## Effect hooks that request damage, and the stages of `paint` -/

/-- `run_effects` for hooks that call `render_manager::damage` when they are
invoked: `requests hook` lists the damage requests that the hook makes, in
order. With no requests this is `run_effects`. -/
def effect_hook_manager_t.run_effects_requesting (st : impl) (type : output_effect_type_t)
    (requests : Nat → List damage_call) : impl :=
  (st.effects type).foldl
    (fun s hook => (requests hook).foldl damage_call.apply (s.log (event.effect_hook type hook)))
    st

/-- The rest of `paint` once the OVERLAY hooks have run: from the test of
`post_effects.size()` to `post_paint()`. -/
def impl.paint_finalize (st : impl) (swap_damage : wf_region) : impl :=
  let swap_damage :=
    if st.post_effects.length ≠ 0 then
      swap_damage.or_box (output_damage_t.get_damage_box st)
    else swap_damage
  let st := st.log (event.render_software_cursors swap_damage)
  let st := postprocessing_manager_t.run_post_effects st
  let st := if st.output_inhibit_counter ≠ 0 then
    st.log (event.clear_output "inhibit") else st
  let st := st.log event.unbind_output
  let st := output_damage_t.swap_buffers st swap_damage
  impl.post_paint st

/-- `impl::paint` in a frame whose OVERLAY hooks request damage: the body of
`paint` with the OVERLAY hooks run by `run_effects_requesting`. -/
def impl.paint_with_overlay_damage (st : impl) (backend : Option (Bool × wf_region))
    (requests : Nat → List damage_call) : impl :=
  let swap_damage : wf_region := ∅
  let st := effect_hook_manager_t.run_effects st output_effect_type_t.OUTPUT_EFFECT_PRE
  let (ok, needs_swap, st) := output_damage_t.make_current st backend
  if !ok then st
  else if !needs_swap && st.constant_redraw_counter = 0 then impl.post_paint st
  else
    let st := impl.bind_output st
    let (st, swap_damage) := impl.render_output st swap_damage
    let st := effect_hook_manager_t.run_effects_requesting st
      output_effect_type_t.OUTPUT_EFFECT_OVERLAY requests
    impl.paint_finalize st swap_damage

/-- The phases of a frame that the trace shows. -/
inductive frame_phase where
  | PRE_HOOKS
  | MAKE_CURRENT
  | BIND
  | RENDER
  | OVERLAY_HOOKS
  | POSTPROCESSING
  | SWAP
  | POST_HOOKS
deriving DecidableEq, Repr

/-- The phase in which the hooks of an effect type run. -/
def output_effect_type_t.phase : output_effect_type_t → frame_phase
  | output_effect_type_t.OUTPUT_EFFECT_PRE => frame_phase.PRE_HOOKS
  | output_effect_type_t.OUTPUT_EFFECT_OVERLAY => frame_phase.OVERLAY_HOOKS
  | output_effect_type_t.OUTPUT_EFFECT_POST => frame_phase.POST_HOOKS

/-- The phase an event belongs to: the hook invocations by their phase, the
backend calls `make_current` and `swap_buffers`, `bind_output`, the calls that
draw the scene (custom renderer, stream buffer allocation, stream signals,
background clear, surface rendering) and the postprocessing hook invocations.
The other events belong to no phase of their own. -/
def event.phase : event → Option frame_phase
  | event.effect_hook type _ => some type.phase
  | event.wlr_output_damage_make_current _ => some frame_phase.MAKE_CURRENT
  | event.bind_output => some frame_phase.BIND
  | event.custom_renderer _ => some frame_phase.RENDER
  | event.allocate_stream _ _ _ => some frame_phase.RENDER
  | event.clear_area _ => some frame_phase.RENDER
  | event.render_fb _ _ _ _ => some frame_phase.RENDER
  | event.post_hook _ _ _ => some frame_phase.POSTPROCESSING
  | event.wlr_output_damage_swap_buffers _ => some frame_phase.SWAP
  | _ => none

/-- The phases of the events of a trace, in order. -/
def phases (t : List event) : List frame_phase := t.filterMap event.phase

/-- The views whose surfaces `post_paint` notifies, in its order. -/
def impl.frame_done_views (st : impl) : List wayfire_view_t :=
  match st.renderer with
  | some _ => st.output.for_each_view layer_mask.WF_VISIBLE_LAYERS
  | none =>
    st.output.get_views_on_workspace st.output.current_workspace layer_mask.WF_MIDDLE_LAYERS ++
      st.output.for_each_view layer_mask.WF_BELOW_ABOVE_LAYERS

/-- The `send_frame_done` calls for a list of views: one for each surface of
each mapped view. -/
def frame_done_events : List wayfire_view_t → List event
  | [] => []
  | v :: rest =>
    (if v.is_mapped then v.for_each_surface.map (fun s => event.send_frame_done s.1.id)
      else []) ++ frame_done_events rest

/-- Relation between a state and a later state that differs from it in the
trace only. -/
def impl.log_only (st st' : impl) : Prop := st' = { st with trace := st'.trace }

/-- Relation between a state and a later state whose trace has grown by
events of the RENDER phase and events of no phase. -/
def impl.render_step (st st' : impl) : Prop :=
  ∃ n, phases st'.trace = phases st.trace ++ List.replicate n frame_phase.RENDER

/-! ## Steps of the default streams, and the areas the scan takes out -/

/-- One step in the life of the default streams: the collaborators change
their answers (among them the current workspace) between two frames, or a frame
runs `default_renderer`. -/
inductive stream_step where
  | environment (output : wayfire_output)
  | default_renderer (swap_damage : wf_region)

/-- Perform one step on the state. -/
def stream_step.apply (st : impl) : stream_step → impl
  | stream_step.environment output => { st with output := output }
  | stream_step.default_renderer swap_damage => (impl.default_renderer st swap_damage).1

/-- The regions cleared by `clear_empty_areas`, in call order. -/
def clear_area_calls (t : List event) : List wf_region :=
  t.filterMap (fun e =>
    match e with
    | event.clear_area area => some area
    | _ => none)

/-- The area that one call of `schedule_surface` takes out of the remaining
workspace damage: the opaque area of the surface when the surface is scheduled
(it is mapped, damage is left, its box meets the damage) with alpha at or above
the threshold, and nothing otherwise. -/
def impl.schedule_surface_subtracted (repaint : workspace_stream_repaint_t)
    (surface : wayfire_surface_t) (x y view_dx view_dy : Int) : wf_region :=
  if !surface.is_mapped then ∅
  else if repaint.ws_damage.empty then ∅
  else
    let x := x - view_dx
    let y := y - view_dy
    let obox : wlr_box := { surface.output_geometry with x := x, y := y }
    let obox := repaint.fb.damage_box_from_geometry_box obox
    let damage := repaint.ws_damage.and_box obox
    if !damage.empty then
      if surface.alpha ≥ opaque_alpha_threshold then surface.opaque_area x y else ∅
    else ∅

/-- The areas taken out of the remaining damage while `for_each_surface` runs
`schedule_surface` over the surfaces of a view or of the drag icon. -/
def impl.schedule_surfaces_subtracted (repaint : workspace_stream_repaint_t) :
    List (wayfire_surface_t × Int × Int) → Int → Int → wf_region
  | [], _, _ => ∅
  | s :: rest, view_dx, view_dy =>
    impl.schedule_surface_subtracted repaint s.1 s.2.1 s.2.2 view_dx view_dy ∪
      impl.schedule_surfaces_subtracted
        (impl.schedule_surface repaint s.1 s.2.1 s.2.2 view_dx view_dy) rest view_dx view_dy

/-- The areas taken out of the remaining damage by the body of the loop of
`check_schedule_surfaces` for one view. A snapshotted view takes out nothing. -/
def impl.check_schedule_view_subtracted (repaint : workspace_stream_repaint_t)
    (view : wayfire_view_t) : wf_region :=
  if !view.is_visible then ∅
  else
    let view_dx := if !view.role_shell_view then repaint.ws_dx else 0
    let view_dy := if !view.role_shell_view then repaint.ws_dy else 0
    if view.has_transformer || !view.is_mapped then ∅
    else impl.schedule_surfaces_subtracted repaint view.for_each_surface view_dx view_dy

/-- The areas taken out of the remaining damage by the loop of
`check_schedule_surfaces`. -/
def impl.check_schedule_views_subtracted (repaint : workspace_stream_repaint_t) :
    List wayfire_view_t → wf_region
  | [] => ∅
  | view :: rest =>
    if repaint.ws_damage.empty then ∅
    else
      impl.check_schedule_view_subtracted repaint view ∪
        impl.check_schedule_views_subtracted (impl.check_schedule_view repaint view) rest

/-- The areas taken out of the workspace damage by `check_schedule_surfaces`:
by the surfaces of the drag icon, then by the views. -/
def impl.check_schedule_surfaces_subtracted (st : impl) (repaint : workspace_stream_repaint_t)
    (stream : workspace_stream_t) : wf_region :=
  let views := st.output.get_views_on_workspace stream.ws layer_mask.WF_VISIBLE_LAYERS
  let icon : wf_region :=
    match st.renderer, st.output.drag_icon with
    | some _, _ => ∅
    | none, none => ∅
    | none, some (is_mapped, surfaces) =>
      if !is_mapped then ∅ else impl.schedule_surfaces_subtracted repaint surfaces 0 0
  icon ∪ impl.check_schedule_views_subtracted (impl.schedule_drag_icon st repaint).2 views

/-- The areas that the scan of `workspace_stream_update` takes out of the
workspace damage of a stream. -/
def impl.scan_subtracted (st : impl) (stream : workspace_stream_t) : wf_region :=
  let (st, repaint) := impl.calculate_repaint_for_stream st stream
  impl.check_schedule_surfaces_subtracted st repaint stream

/-- A render manager on a 2x1 grid whose current workspace has just become
(1, 0) while the stream of workspace (0, 0) is the running one. -/
def scenario_impl_switched (width height : Int) (views : List wayfire_view_t) : impl :=
  { scenario_impl width height views with
    output :=
      { scenario_output width height views with
        current_workspace := (1, 0), workspace_grid_size := (2, 1) },
    default_streams := fun ws =>
      { ws := ws, buffer := { fb := 3, tex := 4 }, running := decide (ws = (0, 0)),
        scale_x := 1, scale_y := 1 } }

/-! ## Layer focus requests of the core (`src/core/core.cpp`) -/

/-- Calls that leave `focus_layer` and `unfocus_layer`, in call order. -/
inductive core_event where
  /-- `log_debug("focusing layer %d", get_focused_layer())` -/
  | log_debug_focusing_layer (layer : Nat)
  /-- `active_output->refocus()` -/
  | refocus
deriving DecidableEq, Repr

/-- The order of `std::pair<uint32_t, int>`, which `std::set` sorts by:
lexicographic, the layer first. -/
def focus_request_lt (a b : Nat × Int) : Prop :=
  a.1 < b.1 ∨ (a.1 = b.1 ∧ a.2 < b.2)

instance (a b : Nat × Int) : Decidable (focus_request_lt a b) :=
  inferInstanceAs (Decidable (a.1 < b.1 ∨ (a.1 = b.1 ∧ a.2 < b.2)))

/-- `std::set::insert` on the elements of the set in iteration (ascending)
order: an element already present is not inserted again. -/
def focus_requests_insert (a : Nat × Int) : List (Nat × Int) → List (Nat × Int)
  | [] => [a]
  | b :: rest =>
    if a = b then b :: rest
    else if focus_request_lt a b then a :: b :: rest
    else b :: focus_requests_insert a rest

/-- The part of `compositor_core_impl_t` that the layer focus requests use:
`layer_focus_requests`, a `std::set<std::pair<uint32_t, int>>` held as the list
of its elements in iteration order, the function-local static
`last_request_uid` of `focus_layer`, and the trace of the calls made. -/
structure compositor_core_impl_t where
  layer_focus_requests : List (Nat × Int)
  last_request_uid : Int
  trace : List core_event
deriving DecidableEq, Repr

/-- The value of `(uint32_t)-1`. -/
def UINT32_MAX : Nat := 4294967295

/-- `compositor_core_impl_t::get_focused_layer` -/
def compositor_core_impl_t.get_focused_layer (core : compositor_core_impl_t) : Nat :=
  match core.layer_focus_requests.getLast? with
  | none => 0
  | some req => req.1

/-- `compositor_core_impl_t::focus_layer`; the result is the return value and
the new state. -/
def compositor_core_impl_t.focus_layer (core : compositor_core_impl_t) (layer : Nat)
    (request_uid_hint : Int) : Int × compositor_core_impl_t :=
  let old_layer : Nat :=
    core.layer_focus_requests.foldl
      (fun old_layer req => if req.2 = request_uid_hint then req.1 else old_layer) UINT32_MAX
  if request_uid_hint ≥ 0 ∧ old_layer = UINT32_MAX then (-1, core)
  else
    let requests :=
      if request_uid_hint ≥ 0 then
        core.layer_focus_requests.erase (old_layer, request_uid_hint)
      else core.layer_focus_requests
    let last_request_uid :=
      if request_uid_hint < 0 then core.last_request_uid + 1 else core.last_request_uid
    let request_uid := if request_uid_hint < 0 then last_request_uid else request_uid_hint
    let core : compositor_core_impl_t :=
      { core with
        layer_focus_requests := focus_requests_insert (layer, request_uid) requests,
        last_request_uid := last_request_uid }
    let core := { core with
      trace := core.trace ++
        [core_event.log_debug_focusing_layer core.get_focused_layer, core_event.refocus] }
    (request_uid, core)

/-- `compositor_core_impl_t::unfocus_layer` -/
def compositor_core_impl_t.unfocus_layer (core : compositor_core_impl_t) (request : Int) :
    compositor_core_impl_t :=
  match core.layer_focus_requests.find? (fun freq => freq.2 = request) with
  | none => core
  | some freq =>
    let core := { core with layer_focus_requests := core.layer_focus_requests.erase freq }
    { core with
      trace := core.trace ++
        [core_event.log_debug_focusing_layer core.get_focused_layer, core_event.refocus] }

/-- One call on the layer focus requests. -/
inductive focus_call where
  | focus_layer (layer : Nat) (request_uid_hint : Int)
  | unfocus_layer (request : Int)
deriving DecidableEq, Repr

/-- Perform one call, dropping the return value. -/
def focus_call.apply (core : compositor_core_impl_t) : focus_call → compositor_core_impl_t
  | focus_call.focus_layer layer request_uid_hint =>
    (core.focus_layer layer request_uid_hint).2
  | focus_call.unfocus_layer request => core.unfocus_layer request

/-- The core when it starts: no focus request, `last_request_uid` is -1. -/
def compositor_core_impl_t.initial : compositor_core_impl_t :=
  { layer_focus_requests := [], last_request_uid := -1, trace := [] }

/-! ## Invariants and further scenarios -/

/-- What holds of the layer focus requests between calls: the set is in
ascending order, no two requests carry the same id, the ids are the ones handed
out so far, and no request is for the layer `(uint32_t)-1`. -/
structure focus_requests_ok (core : compositor_core_impl_t) : Prop where
  sorted : core.layer_focus_requests.Pairwise focus_request_lt
  uids : (core.layer_focus_requests.map Prod.snd).Nodup
  range : ∀ req ∈ core.layer_focus_requests, 0 ≤ req.2 ∧ req.2 ≤ core.last_request_uid
  layers : ∀ req ∈ core.layer_focus_requests, req.1 < UINT32_MAX
  last : -1 ≤ core.last_request_uid

/-- A render manager right after `init_default_streams`: every default stream
stopped and no current stream. -/
def scenario_impl_unstarted (width height : Int) (views : List wayfire_view_t) : impl :=
  { scenario_impl width height views with current_ws_stream := none }

/-- A render manager whose grid of 65536 x 1 workspaces of 65536 x 1 pixels is
`2^32` pixels wide: the products of `damage_whole` and `get_ws_box` do not fit
a 32-bit `int`. -/
def scenario_impl_wide_grid : impl :=
  { scenario_impl 65536 1 [] with
    output := { scenario_output 65536 1 [] with workspace_grid_size := (65536, 1) } }

/-! ## Lemmas on the damage tracker -/

theorem log_trace (st : impl) (e : event) : (st.log e).trace = st.trace ++ [e] := rfl

theorem mem_pixels (b : wlr_box) (p : Int × Int) :
    p ∈ b.pixels ↔ b.contains p = true := by
  simp only [wlr_box.pixels, wlr_box.contains, Finset.mem_product, Finset.mem_Icc,
    Bool.and_eq_true, decide_eq_true_eq]
  omega

theorem mem_and_box (r : wf_region) (b : wlr_box) (p : Int × Int) :
    p ∈ r.and_box b ↔ p ∈ r ∧ p ∈ b.pixels := by
  simp [wf_region.and_box, mem_pixels]

theorem empty_iff (r : wf_region) : r.empty = true ↔ r = ∅ := by
  simp [wf_region.empty]

theorem damage_frame_damage (st : impl) (b : wlr_box) :
    (output_damage_t.damage st b).output_damage.frame_damage =
      st.output_damage.frame_damage ∪ b.pixels := by
  unfold output_damage_t.damage output_damage_t.schedule_repaint impl.log wf_region.or_box
  dsimp only
  split <;> split <;> rfl

theorem damage_region_frame_damage (st : impl) (r : wf_region) :
    (output_damage_t.damage_region st r).output_damage.frame_damage =
      st.output_damage.frame_damage ∪ r := by
  unfold output_damage_t.damage_region output_damage_t.schedule_repaint impl.log
    wf_region.or_region
  dsimp only
  split <;> split <;> rfl

theorem damage_whole_idle_count_damage_whole (st : impl) :
    (output_damage_t.damage_whole_idle st).trace.count event.damage_whole =
      st.trace.count event.damage_whole + 1 := by
  unfold output_damage_t.damage_whole_idle output_damage_t.damage_whole
    output_damage_t.damage output_damage_t.schedule_repaint impl.log
  dsimp only
  split <;> split <;> split <;> simp [List.count_append]

theorem damage_whole_idle_connected (st : impl) :
    (output_damage_t.damage_whole_idle st).output_damage.idle_damage = true := by
  unfold output_damage_t.damage_whole_idle output_damage_t.damage_whole
    output_damage_t.damage output_damage_t.schedule_repaint impl.log
  dsimp only
  split <;> split <;> split <;> simp_all

theorem run_idle_damage_connected (st : impl)
    (h : st.output_damage.idle_damage = true) :
    (output_damage_t.run_idle_damage st).trace.count event.damage_whole =
        st.trace.count event.damage_whole + 1 ∧
      (output_damage_t.run_idle_damage st).output_damage.idle_damage = false := by
  unfold output_damage_t.run_idle_damage output_damage_t.damage_whole
    output_damage_t.damage output_damage_t.schedule_repaint impl.log
  rw [if_pos h]
  dsimp only
  split <;> split <;> simp [List.count_append]

theorem run_idle_damage_disconnected (st : impl)
    (h : st.output_damage.idle_damage = false) :
    output_damage_t.run_idle_damage st = st := by
  unfold output_damage_t.run_idle_damage
  simp [h]

theorem damage_whole_idle_events (st : impl) :
    (output_damage_t.damage_whole_idle st).trace.count event.damage_whole_idle =
        st.trace.count event.damage_whole_idle + 1 ∧
      (output_damage_t.damage_whole_idle st).trace.count
          (event.emit_signal "start-rendering") =
        st.trace.count (event.emit_signal "start-rendering") ∧
      (output_damage_t.damage_whole_idle st).output_inhibit_counter =
        st.output_inhibit_counter := by
  unfold output_damage_t.damage_whole_idle output_damage_t.damage_whole
    output_damage_t.damage output_damage_t.schedule_repaint impl.log
  dsimp only
  split <;> split <;> split <;> simp [List.count_append]

/-! ## Lemmas on the reference counters -/

theorem set_redraw_always_counter (st : impl) (always : Bool) :
    (impl.set_redraw_always st always).constant_redraw_counter =
      max (st.constant_redraw_counter + (if always then 1 else -1)) 0 := by
  unfold impl.set_redraw_always output_damage_t.schedule_repaint impl.log
  cases always <;> dsimp only <;> (repeat' split) <;> simp_all <;> omega

theorem add_inhibit_counter (st : impl) (add : Bool) :
    (impl.add_inhibit st add).output_inhibit_counter =
      st.output_inhibit_counter + (if add then 1 else -1) := by
  unfold impl.add_inhibit
  dsimp only
  by_cases h : st.output_inhibit_counter + (if add then 1 else -1) = 0
  · rw [if_pos h]
    simp only [impl.log]
    rw [(damage_whole_idle_events _).2.2]
  · rw [if_neg h]

theorem balanced_append_left (pre post : List Bool) (h : balanced (pre ++ post)) :
    balanced pre := by
  intro n hn
  have := h n (by simp; omega)
  rwa [List.take_append_of_le_length hn] at this

theorem balanced_total (calls : List Bool) (h : balanced calls) :
    calls.count false ≤ calls.count true := by
  have := h calls.length le_rfl
  rwa [List.take_length] at this

theorem foldl_set_redraw_always_counter (st : impl) (calls : List Bool)
    (h0 : 0 ≤ st.constant_redraw_counter) :
    0 ≤ (calls.foldl impl.set_redraw_always st).constant_redraw_counter ∧
      (calls.foldl impl.set_redraw_always st).constant_redraw_counter ≤
        st.constant_redraw_counter + calls.length := by
  induction calls using List.reverseRecOn with
  | nil => simp [h0]
  | append_singleton pre b ih =>
    rw [List.foldl_append, List.foldl_cons, List.foldl_nil, set_redraw_always_counter]
    constructor
    · exact le_max_right _ _
    · rw [List.length_append, List.length_singleton]
      cases b <;> simp <;> omega

theorem foldl_set_redraw_always_balanced (st : impl) (calls : List Bool)
    (h0 : st.constant_redraw_counter = 0) (h : balanced calls) :
    (calls.foldl impl.set_redraw_always st).constant_redraw_counter =
      (calls.count true : Int) - calls.count false := by
  induction calls using List.reverseRecOn with
  | nil => simp [h0]
  | append_singleton pre b ih =>
    have hpre := ih (balanced_append_left pre [b] h)
    have htot := balanced_total _ h
    rw [List.foldl_append, List.foldl_cons, List.foldl_nil, set_redraw_always_counter, hpre]
    rw [List.count_append, List.count_append] at htot ⊢
    cases b <;> simp at htot ⊢ <;> omega

theorem foldl_add_inhibit_balanced (st : impl) (calls : List Bool)
    (h0 : st.output_inhibit_counter = 0) :
    (calls.foldl impl.add_inhibit st).output_inhibit_counter =
      (calls.count true : Int) - calls.count false := by
  induction calls using List.reverseRecOn with
  | nil => simp [h0]
  | append_singleton pre b ih =>
    rw [List.foldl_append, List.foldl_cons, List.foldl_nil, add_inhibit_counter, ih]
    rw [List.count_append, List.count_append]
    cases b <;> simp <;> omega

/-- The 32-bit `int` counters of the source cannot overflow in a call sequence
shorter than `2^31`: the unbounded counters of this model stay in range. -/
theorem counters_in_int_range (st : impl) (calls : List Bool)
    (h0 : st.constant_redraw_counter = 0) (h1 : st.output_inhibit_counter = 0)
    (hlen : calls.length < 2 ^ 31) :
    -(2 ^ 31 : Int) ≤ (calls.foldl impl.set_redraw_always st).constant_redraw_counter ∧
      (calls.foldl impl.set_redraw_always st).constant_redraw_counter < 2 ^ 31 ∧
      -(2 ^ 31 : Int) ≤ (calls.foldl impl.add_inhibit st).output_inhibit_counter ∧
      (calls.foldl impl.add_inhibit st).output_inhibit_counter < 2 ^ 31 := by
  have h := foldl_set_redraw_always_counter st calls (le_of_eq h0.symm)
  have h2 := foldl_add_inhibit_balanced st calls h1
  have hc1 : calls.count true ≤ calls.length := List.count_le_length _ _
  have hc2 : calls.count false ≤ calls.length := List.count_le_length _ _
  have hl : (calls.length : Int) < 2 ^ 31 := by exact_mod_cast hlen
  rw [h0] at h
  refine ⟨by omega, by omega, by omega, by omega⟩

theorem add_inhibit_events (st : impl) (add : Bool) :
    (impl.add_inhibit st add).trace.count event.damage_whole_idle =
        st.trace.count event.damage_whole_idle +
          (if st.output_inhibit_counter + (if add then 1 else -1) = 0 then 1 else 0) ∧
      (impl.add_inhibit st add).trace.count (event.emit_signal "start-rendering") =
        st.trace.count (event.emit_signal "start-rendering") +
          (if st.output_inhibit_counter + (if add then 1 else -1) = 0 then 1 else 0) := by
  unfold impl.add_inhibit
  dsimp only
  by_cases h : st.output_inhibit_counter + (if add then 1 else -1) = 0
  · rw [if_pos h, if_pos h]
    simp only [log_trace, List.count_append]
    rw [(damage_whole_idle_events _).1, (damage_whole_idle_events _).2.1]
    simp
  · rw [if_neg h, if_neg h]
    simp

/-! ## Postprocessing chain -/

theorem post_hook_calls_append (t u : List event) :
    post_hook_calls (t ++ u) = post_hook_calls t ++ post_hook_calls u := by
  simp [post_hook_calls, List.filterMap_append]

theorem run_post_effects_step_fold (chain : List Nat) (st : impl) (last next : Nat) :
    ((chain.foldl postprocessing_manager_t.run_post_effects_step (st, last, next)).1).post_effects
        = st.post_effects ∧
    post_hook_calls
        (chain.foldl postprocessing_manager_t.run_post_effects_step (st, last, next)).1.trace =
      post_hook_calls st.trace ++ post_chain_calls st.post_effects.getLast? chain last next := by
  induction chain generalizing st last next with
  | nil => simp [post_chain_calls]
  | cons post rest ih =>
    rw [List.foldl_cons]
    have hstep : postprocessing_manager_t.run_post_effects_step (st, last, next) post =
        (((st.log (event.allocate (if some post = st.post_effects.getLast? then
              fb_target.default_framebuffer else fb_target.post_buffers next)
              st.output_width st.output_height)).log
            (event.post_hook post (fb_target.post_buffers last)
              (if some post = st.post_effects.getLast? then
              fb_target.default_framebuffer else fb_target.post_buffers next))), next, next ^^^ 3) := rfl
    rw [hstep]
    obtain ⟨h1, h2⟩ := ih ((st.log (event.allocate (if some post = st.post_effects.getLast? then
              fb_target.default_framebuffer else fb_target.post_buffers next)
              st.output_width st.output_height)).log
            (event.post_hook post (fb_target.post_buffers last)
              (if some post = st.post_effects.getLast? then
              fb_target.default_framebuffer else fb_target.post_buffers next))) next (next ^^^ 3)
    refine ⟨h1, ?_⟩
    rw [h2]
    simp [impl.log, post_hook_calls_append, post_chain_calls, post_hook_calls]

theorem post_chain_calls_map_fst (back : Option Nat) (chain : List Nat) (last next : Nat) :
    (post_chain_calls back chain last next).map Prod.fst = chain := by
  induction chain generalizing last next with
  | nil => rfl
  | cons post rest ih => simp [post_chain_calls, ih]

theorem post_chain_calls_destination (back : Option Nat) (chain : List Nat) (last next : Nat)
    (c : Nat × fb_target × fb_target) (hc : c ∈ post_chain_calls back chain last next) :
    c.2.2 = fb_target.default_framebuffer ↔ some c.1 = back := by
  induction chain generalizing last next with
  | nil => simp [post_chain_calls] at hc
  | cons post rest ih =>
    simp only [post_chain_calls, List.mem_cons] at hc
    rcases hc with rfl | hc
    · by_cases h : some post = back <;> simp [h]
    · exact ih _ _ hc

theorem nodup_get_eq_getLast (chain : List Nat) (hnd : chain.Nodup) (i : Nat)
    (hi : i < chain.length) :
    some (chain.get ⟨i, hi⟩) = chain.getLast? ↔ i + 1 = chain.length := by
  have hne : chain ≠ [] := by
    intro h
    rw [h] at hi
    exact absurd hi (by simp)
  rw [List.getLast?_eq_getLast _ hne, List.getLast_eq_getElem]
  simp only [Option.some.injEq, List.get_eq_getElem]
  rw [List.Nodup.getElem_inj_iff hnd]
  omega


/-- For a chain without repeated hooks, `run_post_effects` invokes every entry
once, in chain order, and exactly the last invocation writes the screen. -/
theorem run_post_effects_distinct_hooks (st : impl) (hnd : st.post_effects.Nodup) :
    ∃ calls : List (Nat × fb_target × fb_target),
      post_hook_calls (postprocessing_manager_t.run_post_effects st).trace =
          post_hook_calls st.trace ++ calls ∧
        calls.map Prod.fst = st.post_effects ∧
        ∀ (i : Nat) (hi : i < calls.length),
          ((calls.get ⟨i, hi⟩).2.2 = fb_target.default_framebuffer ↔ i + 1 = calls.length) := by
  refine ⟨post_chain_calls st.post_effects.getLast? st.post_effects 0 1,
    (run_post_effects_step_fold st.post_effects st 0 1).2,
    post_chain_calls_map_fst _ _ _ _, ?_⟩
  intro i hi
  have hlen : (post_chain_calls st.post_effects.getLast? st.post_effects 0 1).length =
      st.post_effects.length := by
    rw [← List.length_map _ Prod.fst, post_chain_calls_map_fst]
  have hi2 : i < st.post_effects.length := hlen ▸ hi
  have hfst : ((post_chain_calls st.post_effects.getLast? st.post_effects 0 1).get ⟨i, hi⟩).1 =
      st.post_effects.get ⟨i, hi2⟩ := by
    have := List.getElem_map Prod.fst
      (l := post_chain_calls st.post_effects.getLast? st.post_effects 0 1) (n := i)
      (h := by simpa using hi)
    simp only [post_chain_calls_map_fst] at this
    simp only [List.get_eq_getElem]
    exact this.symm
  rw [post_chain_calls_destination _ _ _ _ _ (List.get_mem _ _ _), hfst,
    nodup_get_eq_getLast _ hnd, hlen]


/-! ## Lemmas on the scan of `check_schedule_surfaces` -/

theorem schedule_surfaces_of_empty (surfaces : List (wayfire_surface_t × Int × Int))
    (r : workspace_stream_repaint_t) (dx dy : Int) (h : r.ws_damage.empty = true) :
    impl.schedule_surfaces r surfaces dx dy = r := by
  induction surfaces with
  | nil => rfl
  | cons s rest ih =>
    unfold impl.schedule_surfaces at ih ⊢
    rw [List.foldl_cons]
    have : impl.schedule_surface r s.1 s.2.1 s.2.2 dx dy = r := by
      unfold impl.schedule_surface
      simp [h]
    rw [this]
    exact ih

theorem check_schedule_views_of_empty (views : List wayfire_view_t)
    (r : workspace_stream_repaint_t) (h : r.ws_damage.empty = true) :
    impl.check_schedule_views r views = r := by
  cases views with
  | nil => rfl
  | cons v rest =>
    unfold impl.check_schedule_views
    rw [if_pos h]

theorem schedule_surface_damaged (r : workspace_stream_repaint_t) (s : wayfire_surface_t)
    (x y dx dy : Int) (hm : s.is_mapped = true) (hne : r.ws_damage.empty = false)
    (hd : (r.ws_damage.and_box (r.fb.damage_box_from_geometry_box
      ⟨x - dx, y - dy, s.output_geometry.width, s.output_geometry.height⟩)).empty = false) :
    impl.schedule_surface r s x y dx dy =
      ⟨r.to_render ++ [⟨s.id, dx, dy, r.ws_damage.and_box (r.fb.damage_box_from_geometry_box
            ⟨x - dx, y - dy, s.output_geometry.width, s.output_geometry.height⟩)⟩],
        if s.alpha ≥ opaque_alpha_threshold then
            subtract_opaque s r.ws_damage (x - dx) (y - dy)
          else r.ws_damage,
        r.fb, r.ws_dx, r.ws_dy⟩ := by
  unfold impl.schedule_surface
  simp only [hm, hne, hd, Bool.not_true, Bool.not_false, Bool.false_eq_true, if_false, if_true]
  split <;> rfl

theorem scenario_ws_damage (views : List wayfire_view_t) :
    output_damage_t.get_ws_damage
        (output_damage_t.damage (scenario_impl 100 100 views) ⟨10, 10, 5, 5⟩) (0, 0) =
      (wlr_box.mk 10 10 5 5).pixels := by
  have h : output_damage_t.get_ws_damage
        (output_damage_t.damage (scenario_impl 100 100 views) ⟨10, 10, 5, 5⟩) (0, 0) =
      output_damage_t.get_ws_damage
        (output_damage_t.damage (scenario_impl 100 100 []) ⟨10, 10, 5, 5⟩) (0, 0) := rfl
  rw [h]
  decide

theorem scenario_scheduled_repaint (views : List wayfire_view_t) :
    impl.scheduled_repaint
        (output_damage_t.damage (scenario_impl 100 100 views) ⟨10, 10, 5, 5⟩)
        ⟨(0, 0), ⟨0, 0⟩, true, 1, 1⟩ =
      impl.check_schedule_views
        ⟨[], (wlr_box.mk 10 10 5 5).pixels, ⟨0, 0, ⟨0, 0, 100, 100⟩, fun b => b⟩, 0, 0⟩ views := by
  unfold impl.scheduled_repaint impl.calculate_repaint_for_stream
  simp only [scenario_ws_damage]
  have hne : (wlr_box.mk 10 10 5 5).pixels.empty = false := by decide
  simp only [hne, Bool.false_eq_true, if_false]
  rfl

theorem scenario_check_view (to_render : List damaged_surface_t) (D : wf_region)
    (geometry box : wlr_box) (id : Nat) (alpha : Int) (opaque_box : Bool)
    (hne : D.empty = false) (hin : D.and_box box = D) :
    impl.check_schedule_view
        ⟨to_render, D, ⟨0, 0, geometry, fun b => b⟩, 0, 0⟩
        (scenario_view id box alpha opaque_box) =
      ⟨to_render ++ [⟨id, 0, 0, D⟩],
        if alpha ≥ opaque_alpha_threshold then
          D \ (if opaque_box then box.pixels else ∅)
        else D,
        ⟨0, 0, geometry, fun b => b⟩, 0, 0⟩ := by
  have hbox : (⟨box.x - 0, box.y - 0, box.width, box.height⟩ : wlr_box) = box := by
    cases box
    simp
  unfold impl.check_schedule_view impl.schedule_surfaces impl.schedule_surface scenario_view
  simp only [Bool.not_true, Bool.not_false, Bool.false_eq_true, if_false, if_true,
    Bool.or_self, List.foldl_cons, List.foldl_nil, hne, hbox, hin, subtract_opaque]
  split <;> rfl

theorem check_schedule_view_of_empty (r : workspace_stream_repaint_t) (view : wayfire_view_t)
    (h : r.ws_damage.empty = true) : impl.check_schedule_view r view = r := by
  unfold impl.check_schedule_view
  dsimp only
  split
  · rfl
  · split
    · unfold impl.schedule_snapshotted_view
      have h0 : r.ws_damage = ∅ := (empty_iff _).mp h
      simp [h0, wf_region.and_box, wf_region.empty]
    · exact schedule_surfaces_of_empty _ _ _ _ h

theorem check_schedule_views_eq_foldl (views : List wayfire_view_t)
    (r : workspace_stream_repaint_t) :
    impl.check_schedule_views r views = views.foldl impl.check_schedule_view r := by
  induction views generalizing r with
  | nil => rfl
  | cons view rest ih =>
    unfold impl.check_schedule_views
    rw [List.foldl_cons]
    split
    · rename_i h
      have hfold : ∀ l : List wayfire_view_t, l.foldl impl.check_schedule_view r = r := by
        intro l
        induction l with
        | nil => rfl
        | cons v t iht => rw [List.foldl_cons, check_schedule_view_of_empty r v h, iht]
      rw [check_schedule_view_of_empty r view h, hfold]
    · exact ih _

theorem check_schedule_views_append (above below : List wayfire_view_t)
    (r : workspace_stream_repaint_t) :
    impl.check_schedule_views r (above ++ below) =
      impl.check_schedule_views (impl.check_schedule_views r above) below := by
  simp only [check_schedule_views_eq_foldl, List.foldl_append]

theorem render_fb_calls_append (t u : List event) :
    render_fb_calls (t ++ u) = render_fb_calls t ++ render_fb_calls u := by
  simp [render_fb_calls, List.filterMap_append]

theorem foldl_log_trace {α : Type} (f : α → event) (l : List α) (st : impl) :
    (l.foldl (fun s a => s.log (f a)) st).trace = st.trace ++ l.map f := by
  induction l generalizing st with
  | nil => simp
  | cons a rest ih =>
    rw [List.foldl_cons, ih]
    simp [impl.log]

theorem render_views_render_fb_calls (st : impl) (repaint : workspace_stream_repaint_t) :
    render_fb_calls (impl.render_views st repaint).trace =
      render_fb_calls st.trace ++ repaint.to_render.reverse := by
  unfold impl.render_views
  rw [foldl_log_trace (fun ds : damaged_surface_t =>
    event.render_fb ds.surface ds.x ds.y ds.damage), render_fb_calls_append]
  congr 1
  induction repaint.to_render.reverse with
  | nil => rfl
  | cons ds rest ih =>
    simp only [List.map_cons, render_fb_calls, List.filterMap_cons] at ih ⊢
    rw [ih]

theorem schedule_drag_icon_log (st : impl) (e : event) (repaint : workspace_stream_repaint_t) :
    (impl.schedule_drag_icon (st.log e) repaint).2 = (impl.schedule_drag_icon st repaint).2 := by
  unfold impl.schedule_drag_icon
  simp only [impl.log]
  split <;> try rfl
  split <;> rfl

theorem schedule_drag_icon_trace (st : impl) (repaint : workspace_stream_repaint_t) :
    render_fb_calls (impl.schedule_drag_icon st repaint).1.trace = render_fb_calls st.trace := by
  unfold impl.schedule_drag_icon
  split
  · rfl
  · rfl
  · split
    · rfl
    · simp [impl.log, render_fb_calls_append, render_fb_calls]

theorem unschedule_drag_icon_trace (st : impl) :
    render_fb_calls (impl.unschedule_drag_icon st).trace = render_fb_calls st.trace := by
  unfold impl.unschedule_drag_icon
  split
  · simp [impl.log, render_fb_calls_append, render_fb_calls]
  · rfl

/-- `workspace_stream_update` issues its `render_fb` calls for the entries of
the render list that the scan builds, in reverse order. -/
theorem workspace_stream_update_render_fb_calls (st : impl) (stream : workspace_stream_t) :
    render_fb_calls (impl.workspace_stream_update st stream).trace =
      render_fb_calls st.trace ++ (impl.scheduled_repaint st stream).to_render.reverse := by
  unfold impl.workspace_stream_update impl.scheduled_repaint
  dsimp only
  by_cases hempty : (impl.calculate_repaint_for_stream st stream).2.ws_damage.empty = true
  · rw [if_pos hempty]
    have hc : impl.calculate_repaint_for_stream st stream =
        (st, (impl.calculate_repaint_for_stream st stream).2) := by
      unfold impl.calculate_repaint_for_stream at hempty ⊢
      dsimp only at hempty ⊢
      split
      · rfl
      · rename_i h
        rw [if_neg h] at hempty
        exact absurd hempty h
    have hto : (impl.calculate_repaint_for_stream st stream).2.to_render = [] := by
      unfold impl.calculate_repaint_for_stream
      dsimp only
      split <;> rfl
    unfold impl.check_schedule_surfaces
    dsimp only
    have hd : (impl.schedule_drag_icon (impl.calculate_repaint_for_stream st stream).1
        (impl.calculate_repaint_for_stream st stream).2).2 =
        (impl.calculate_repaint_for_stream st stream).2 := by
      unfold impl.schedule_drag_icon
      split <;> try rfl
      split
      · rfl
      · exact schedule_surfaces_of_empty _ _ _ _ hempty
    rw [hd, check_schedule_views_of_empty _ _ hempty, hto]
    conv_lhs => rw [hc]
    simp
  · rw [if_neg hempty]
    unfold impl.check_schedule_surfaces impl.clear_empty_areas
    dsimp only
    have hc : (impl.calculate_repaint_for_stream st stream).1 =
        st.log (event.allocate_stream stream.ws st.output.handle_width
          st.output.handle_height) := by
      unfold impl.calculate_repaint_for_stream at hempty ⊢
      dsimp only at hempty ⊢
      split
      · rename_i h
        rw [if_pos h] at hempty
        exact absurd h hempty
      · rfl
    rw [log_trace, render_fb_calls_append, unschedule_drag_icon_trace,
      render_views_render_fb_calls, log_trace, render_fb_calls_append,
      schedule_drag_icon_trace, schedule_drag_icon_log, log_trace,
      render_fb_calls_append, hc, log_trace, render_fb_calls_append]
    simp [render_fb_calls, impl.log]

/-! ## Lemmas on the steps of a frame -/

theorem swap_regions_append (t u : List event) :
    swap_regions (t ++ u) = swap_regions t ++ swap_regions u := by
  simp [swap_regions, List.filterMap_append]

theorem frame_step_refl (st : impl) : impl.frame_step st st :=
  ⟨rfl, rfl, rfl, rfl, rfl, rfl, rfl, Finset.Subset.refl _, [], by simp, rfl⟩

theorem frame_step_trans {s1 s2 s3 : impl} (h12 : impl.frame_step s1 s2)
    (h23 : impl.frame_step s2 s3) : impl.frame_step s1 s3 := by
  obtain ⟨e1, he1, hs1⟩ := h12.trace
  obtain ⟨e2, he2, hs2⟩ := h23.trace
  refine ⟨h23.output.trans h12.output, h23.renderer.trans h12.renderer,
    h23.effects.trans h12.effects, h23.post_effects.trans h12.post_effects,
    h23.constant_redraw_counter.trans h12.constant_redraw_counter,
    h23.output_inhibit_counter.trans h12.output_inhibit_counter,
    h23.damage_manager.trans h12.damage_manager,
    h12.frame_damage.trans h23.frame_damage, e1 ++ e2, ?_, ?_⟩
  · rw [he2, he1, List.append_assoc]
  · rw [swap_regions_append, hs1, hs2]
    rfl

theorem frame_step_log {s0 st : impl} (h : impl.frame_step s0 st) (e : event)
    (he : swap_regions [e] = []) : impl.frame_step s0 (st.log e) :=
  frame_step_trans h ⟨rfl, rfl, rfl, rfl, rfl, rfl, rfl, Finset.Subset.refl _, [e], rfl, he⟩

theorem frame_step_foldl_log {α : Type} (f : α → event) (hf : ∀ a, swap_regions [f a] = [])
    (l : List α) {s0 st : impl} (h : impl.frame_step s0 st) :
    impl.frame_step s0 (l.foldl (fun s a => s.log (f a)) st) := by
  induction l generalizing st with
  | nil => exact h
  | cons a rest ih =>
    rw [List.foldl_cons]
    exact ih (frame_step_log h (f a) (hf a))

theorem frame_step_schedule_repaint {s0 st : impl} (h : impl.frame_step s0 st) :
    impl.frame_step s0 (output_damage_t.schedule_repaint st) := by
  refine frame_step_trans h ?_
  unfold output_damage_t.schedule_repaint
  dsimp only
  split
  · exact ⟨rfl, rfl, rfl, rfl, rfl, rfl, rfl, Finset.Subset.refl _,
      [event.wlr_output_schedule_frame], rfl, rfl⟩
  · exact frame_step_log (frame_step_refl st) _ rfl

theorem frame_step_damage {s0 st : impl} (h : impl.frame_step s0 st) (b : wlr_box) :
    impl.frame_step s0 (output_damage_t.damage st b) := by
  refine frame_step_trans h ?_
  unfold output_damage_t.damage
  dsimp only
  apply frame_step_schedule_repaint
  split
  · exact ⟨rfl, rfl, rfl, rfl, rfl, rfl, rfl, Finset.subset_union_left,
      [event.wlr_output_damage_add_box b], rfl, rfl⟩
  · exact ⟨rfl, rfl, rfl, rfl, rfl, rfl, rfl, Finset.subset_union_left, [], by simp, rfl⟩

theorem frame_step_damage_region {s0 st : impl} (h : impl.frame_step s0 st) (r : wf_region) :
    impl.frame_step s0 (output_damage_t.damage_region st r) := by
  refine frame_step_trans h ?_
  unfold output_damage_t.damage_region
  dsimp only
  apply frame_step_schedule_repaint
  split
  · exact ⟨rfl, rfl, rfl, rfl, rfl, rfl, rfl, Finset.subset_union_left,
      [event.wlr_output_damage_add r], rfl, rfl⟩
  · exact ⟨rfl, rfl, rfl, rfl, rfl, rfl, rfl, Finset.subset_union_left, [], by simp, rfl⟩

theorem frame_step_run_effects {s0 st : impl} (h : impl.frame_step s0 st)
    (type : output_effect_type_t) :
    impl.frame_step s0 (effect_hook_manager_t.run_effects st type) :=
  frame_step_foldl_log (fun hook => event.effect_hook type hook) (fun _ => rfl) _ h

theorem frame_step_make_current {s0 st : impl} (h : impl.frame_step s0 st)
    (backend : Option (Bool × wf_region)) :
    impl.frame_step s0 (output_damage_t.make_current st backend).2.2 := by
  refine frame_step_trans h ?_
  unfold output_damage_t.make_current
  split
  · exact frame_step_refl st
  · split
    · exact frame_step_log (frame_step_refl st) _ rfl
    · dsimp only
      split
      · exact ⟨rfl, rfl, rfl, rfl, rfl, rfl, rfl,
          Finset.subset_union_left.trans Finset.subset_union_left,
          [event.wlr_output_damage_make_current true], rfl, rfl⟩
      · exact ⟨rfl, rfl, rfl, rfl, rfl, rfl, rfl, Finset.subset_union_left,
          [event.wlr_output_damage_make_current true], rfl, rfl⟩

theorem frame_step_bind_output {s0 st : impl} (h : impl.frame_step s0 st) :
    impl.frame_step s0 (impl.bind_output st) := by
  refine frame_step_trans h ?_
  unfold impl.bind_output postprocessing_manager_t.allocate
  dsimp only
  split
  · exact frame_step_log (frame_step_refl st) _ rfl
  · exact ⟨rfl, rfl, rfl, rfl, rfl, rfl, rfl, Finset.Subset.refl _,
      [event.bind_output, event.allocate (fb_target.post_buffers 0)
        st.output.handle_width st.output.handle_height], by simp [impl.log], rfl⟩

theorem frame_step_schedule_drag_icon {s0 st : impl} (h : impl.frame_step s0 st)
    (repaint : workspace_stream_repaint_t) :
    impl.frame_step s0 (impl.schedule_drag_icon st repaint).1 := by
  unfold impl.schedule_drag_icon
  split
  · exact h
  · exact h
  · split
    · exact h
    · exact frame_step_log h _ rfl

theorem frame_step_unschedule_drag_icon {s0 st : impl} (h : impl.frame_step s0 st) :
    impl.frame_step s0 (impl.unschedule_drag_icon st) := by
  unfold impl.unschedule_drag_icon
  split
  · exact frame_step_log h _ rfl
  · exact h

theorem frame_step_calculate_repaint_for_stream {s0 st : impl} (h : impl.frame_step s0 st)
    (stream : workspace_stream_t) :
    impl.frame_step s0 (impl.calculate_repaint_for_stream st stream).1 := by
  unfold impl.calculate_repaint_for_stream
  dsimp only
  split
  · exact h
  · exact frame_step_log h _ rfl

theorem frame_step_render_views {s0 st : impl} (h : impl.frame_step s0 st)
    (repaint : workspace_stream_repaint_t) :
    impl.frame_step s0 (impl.render_views st repaint) :=
  frame_step_foldl_log
    (fun ds : damaged_surface_t => event.render_fb ds.surface ds.x ds.y ds.damage)
    (fun _ => rfl) _ h

theorem frame_step_workspace_stream_update {s0 st : impl} (h : impl.frame_step s0 st)
    (stream : workspace_stream_t) :
    impl.frame_step s0 (impl.workspace_stream_update st stream) := by
  unfold impl.workspace_stream_update
  dsimp only
  split
  · exact frame_step_calculate_repaint_for_stream h stream
  · unfold impl.check_schedule_surfaces impl.clear_empty_areas
    dsimp only
    refine frame_step_log ?_ _ ?_
    swap
    · rfl
    apply frame_step_unschedule_drag_icon
    apply frame_step_render_views
    refine frame_step_log ?_ _ ?_
    swap
    · rfl
    apply frame_step_schedule_drag_icon
    refine frame_step_log ?_ _ ?_
    swap
    · rfl
    exact frame_step_calculate_repaint_for_stream h stream

theorem frame_step_workspace_stream_stop {s0 st : impl} (h : impl.frame_step s0 st)
    (ws : Int × Int) : impl.frame_step s0 (impl.workspace_stream_stop st ws) :=
  frame_step_trans h ⟨rfl, rfl, rfl, rfl, rfl, rfl, rfl, Finset.Subset.refl _, [], by
    simp [impl.workspace_stream_stop], rfl⟩

theorem frame_step_set_current_ws_stream {s0 st : impl} (h : impl.frame_step s0 st)
    (current : Option (Int × Int)) :
    impl.frame_step s0 { st with current_ws_stream := current } :=
  frame_step_trans h ⟨rfl, rfl, rfl, rfl, rfl, rfl, rfl, Finset.Subset.refl _, [], by simp, rfl⟩

theorem frame_step_workspace_stream_start {s0 st : impl} (h : impl.frame_step s0 st)
    (ws : Int × Int) : impl.frame_step s0 (impl.workspace_stream_start st ws) := by
  unfold impl.workspace_stream_start
  dsimp only
  apply frame_step_workspace_stream_update
  apply frame_step_damage
  exact frame_step_trans h
    ⟨rfl, rfl, rfl, rfl, rfl, rfl, rfl, Finset.Subset.refl _, [], by simp, rfl⟩

theorem frame_step_default_renderer {s0 st : impl} (h : impl.frame_step s0 st)
    (swap_damage : wf_region) :
    impl.frame_step s0 (impl.default_renderer st swap_damage).1 ∧
      swap_damage ⊆ (impl.default_renderer st swap_damage).2 := by
  unfold impl.default_renderer
  by_cases hdbg : st.output.damage_debug = true
  · simp only [hdbg, if_true]
    have h1 := frame_step_log h (event.clear_output "damage_debug") rfl
    split
    · refine ⟨?_, Finset.subset_union_left⟩
      apply frame_step_workspace_stream_start
      apply frame_step_set_current_ws_stream
      split
      · exact frame_step_workspace_stream_stop h1 _
      · exact h1
    · exact ⟨frame_step_workspace_stream_update h1 _, Finset.subset_union_left⟩
  · simp only [hdbg, Bool.false_eq_true, if_false]
    split
    · refine ⟨?_, Finset.Subset.refl _⟩
      apply frame_step_workspace_stream_start
      apply frame_step_set_current_ws_stream
      split
      · exact frame_step_workspace_stream_stop h _
      · exact h
    · exact ⟨frame_step_workspace_stream_update h _, Finset.Subset.refl _⟩

theorem frame_step_render_output {s0 st : impl} (h : impl.frame_step s0 st)
    (swap_damage : wf_region) :
    impl.frame_step s0 (impl.render_output st swap_damage).1 ∧
      (st.output_damage.frame_damage.and_box (output_damage_t.get_damage_box st) ⊆
        (impl.render_output st swap_damage).2) := by
  unfold impl.render_output
  split
  · refine ⟨frame_step_log h _ rfl, ?_⟩
    intro p hp
    exact Finset.mem_union_right _ ((mem_and_box _ _ _).mp hp).2
  · exact frame_step_default_renderer h _

theorem frame_step_run_post_effects_fold (chain : List Nat) {s0 : impl}
    (acc : impl × Nat × Nat) (h : impl.frame_step s0 acc.1) :
    impl.frame_step s0
      (chain.foldl postprocessing_manager_t.run_post_effects_step acc).1 := by
  induction chain generalizing acc with
  | nil => exact h
  | cons post rest ih =>
    rw [List.foldl_cons]
    apply ih
    unfold postprocessing_manager_t.run_post_effects_step
    dsimp only
    refine frame_step_log ?_ _ rfl
    exact frame_step_log h _ rfl

theorem frame_step_run_post_effects {s0 st : impl} (h : impl.frame_step s0 st) :
    impl.frame_step s0 (postprocessing_manager_t.run_post_effects st) :=
  frame_step_run_post_effects_fold _ (st, 0, 1) h

theorem frame_step_view_send_frame_done {s0 st : impl} (h : impl.frame_step s0 st)
    (v : wayfire_view_t) : impl.frame_step s0 (impl.view_send_frame_done st v) := by
  unfold impl.view_send_frame_done
  split
  · exact h
  · exact frame_step_foldl_log
      (fun surface : wayfire_surface_t × Int × Int => event.send_frame_done surface.1.id)
      (fun _ => rfl) _ h

theorem frame_step_foldl_view_send_frame_done (views : List wayfire_view_t) {s0 st : impl}
    (h : impl.frame_step s0 st) :
    impl.frame_step s0 (views.foldl impl.view_send_frame_done st) := by
  induction views generalizing st with
  | nil => exact h
  | cons v rest ih =>
    rw [List.foldl_cons]
    exact ih (frame_step_view_send_frame_done h v)

theorem frame_step_post_paint {s0 st : impl} (h : impl.frame_step s0 st) :
    impl.frame_step s0 (impl.post_paint st) := by
  unfold impl.post_paint
  dsimp only
  have h1 := frame_step_run_effects h output_effect_type_t.OUTPUT_EFFECT_POST
  have h2 : impl.frame_step s0
      (if (effect_hook_manager_t.run_effects st
            output_effect_type_t.OUTPUT_EFFECT_POST).constant_redraw_counter ≠ 0 then
          output_damage_t.schedule_repaint
            (effect_hook_manager_t.run_effects st output_effect_type_t.OUTPUT_EFFECT_POST)
        else effect_hook_manager_t.run_effects st output_effect_type_t.OUTPUT_EFFECT_POST) := by
    split
    · exact frame_step_schedule_repaint h1
    · exact h1
  split
  · exact frame_step_foldl_view_send_frame_done _ h2
  · apply frame_step_foldl_view_send_frame_done
    exact frame_step_foldl_view_send_frame_done _ h2

theorem frame_step_swap_regions {s0 st : impl} (h : impl.frame_step s0 st) :
    swap_regions st.trace = swap_regions s0.trace := by
  obtain ⟨evs, he, hs⟩ := h.trace
  rw [he, swap_regions_append, hs, List.append_nil]

theorem frame_step_get_damage_box {s0 st : impl} (h : impl.frame_step s0 st) :
    output_damage_t.get_damage_box st = output_damage_t.get_damage_box s0 := by
  unfold output_damage_t.get_damage_box
  rw [h.output]

theorem damage_call_apply_frame (st : impl) (c : damage_call) :
    impl.frame_step st (damage_call.apply st c) ∧
      c.pixels ⊆ (damage_call.apply st c).output_damage.frame_damage := by
  cases c with
  | box b =>
    refine ⟨frame_step_damage (frame_step_refl st) b, ?_⟩
    simp only [damage_call.apply, damage_call.pixels, damage_frame_damage]
    exact Finset.subset_union_right
  | region r =>
    refine ⟨frame_step_damage_region (frame_step_refl st) r, ?_⟩
    simp only [damage_call.apply, damage_call.pixels, damage_region_frame_damage]
    exact Finset.subset_union_right

theorem foldl_damage_call_apply_frame (calls : List damage_call) (st : impl) :
    impl.frame_step st (calls.foldl damage_call.apply st) ∧
      ∀ c ∈ calls, c.pixels ⊆ (calls.foldl damage_call.apply st).output_damage.frame_damage := by
  induction calls using List.reverseRecOn with
  | nil => exact ⟨frame_step_refl st, by simp⟩
  | append_singleton pre c ih =>
    rw [List.foldl_append, List.foldl_cons, List.foldl_nil]
    have hc := damage_call_apply_frame (pre.foldl damage_call.apply st) c
    refine ⟨frame_step_trans ih.1 hc.1, ?_⟩
    intro d hd
    rcases List.mem_append.mp hd with hd | hd
    · exact (ih.2 d hd).trans hc.1.frame_damage
    · rw [List.mem_singleton] at hd
      subst hd
      exact hc.2

theorem make_current_alive (st : impl) (need_swap : Bool) (tmp_region : wf_region)
    (h : st.output_damage.damage_manager = true) :
    (output_damage_t.make_current st (some (need_swap, tmp_region))).1 = true ∧
      (output_damage_t.make_current st (some (need_swap, tmp_region))).2.1 = need_swap := by
  unfold output_damage_t.make_current
  simp only [h, Bool.not_true, Bool.false_eq_true, if_false]
  exact ⟨trivial, trivial⟩

theorem swap_buffers_alive (st : impl) (swap_damage : wf_region)
    (h : st.output_damage.damage_manager = true) :
    (output_damage_t.swap_buffers st swap_damage).trace =
      st.trace ++ [event.wlr_output_damage_swap_buffers swap_damage] := by
  unfold output_damage_t.swap_buffers
  simp only [h, Bool.not_true, Bool.false_eq_true, if_false]
  rfl

theorem paint_finish {s0 st : impl} (h : impl.frame_step s0 st)
    (halive : s0.output_damage.damage_manager = true) (swap_damage : wf_region)
    (e : event) (he : swap_regions [e] = []) :
    swap_regions (impl.post_paint (output_damage_t.swap_buffers
        (impl.log
          (if (postprocessing_manager_t.run_post_effects (st.log e)).output_inhibit_counter ≠ 0
            then (postprocessing_manager_t.run_post_effects (st.log e)).log
              (event.clear_output "inhibit")
            else postprocessing_manager_t.run_post_effects (st.log e))
          event.unbind_output) swap_damage)).trace =
      swap_regions s0.trace ++ [swap_damage] := by
  have h1 := frame_step_run_post_effects (frame_step_log h e he)
  have h2 : impl.frame_step s0
      (if (postprocessing_manager_t.run_post_effects (st.log e)).output_inhibit_counter ≠ 0
        then (postprocessing_manager_t.run_post_effects (st.log e)).log
          (event.clear_output "inhibit")
        else postprocessing_manager_t.run_post_effects (st.log e)) := by
    split
    · exact frame_step_log h1 _ rfl
    · exact h1
  have h3 := frame_step_log h2 event.unbind_output rfl
  rw [frame_step_swap_regions (frame_step_post_paint (frame_step_refl _)),
    swap_buffers_alive _ _ (h3.damage_manager.trans halive), swap_regions_append,
    frame_step_swap_regions h3]
  rfl

theorem default_renderer_swap_damage_subset (st : impl) (swap_damage : wf_region) :
    (impl.default_renderer st swap_damage).2 ⊆
      swap_damage ∪ (output_damage_t.get_damage_box st).pixels := by
  unfold impl.default_renderer
  by_cases hdbg : st.output.damage_debug = true
  · simp only [hdbg, if_true]
    split <;> exact Finset.Subset.refl _
  · simp only [hdbg, Bool.false_eq_true, if_false]
    split <;> exact Finset.subset_union_left

/-- The region that `render_output` hands back lies inside the region it was
given united with the box of the output. -/
theorem render_output_swap_damage_subset (st : impl) (swap_damage : wf_region) :
    (impl.render_output st swap_damage).2 ⊆
      swap_damage ∪ (output_damage_t.get_damage_box st).pixels := by
  unfold impl.render_output
  split
  · exact Finset.Subset.refl _
  · refine (default_renderer_swap_damage_subset st _).trans ?_
    intro p hp
    rw [Finset.mem_union] at hp
    rcases hp with hp | hp
    · exact Finset.mem_union_right _ ((mem_and_box _ _ _).mp hp).2
    · exact Finset.mem_union_right _ hp

/-! ## Claims -/

/-- C1 as stated fails: a damaged box that straddles the edge of a 4x4 output
is not contained in the region that `paint` passes to `swap_buffers`. -/
theorem paint_swap_damage_misses_offscreen_pixels :
    swap_regions (impl.paint
        (output_damage_t.damage (scenario_impl 4 4 []) ⟨3, 3, 2, 2⟩)
        (some (true, (wlr_box.mk 3 3 1 1).pixels))).trace = [{(3, 3)}] ∧
      ¬ ((wlr_box.mk 3 3 2 2).pixels ⊆ ({(3, 3)} : wf_region)) := by
  decide

/-- C1 amended: after any sequence of `damage(box)` and `damage(region)` calls,
a `paint` on a live backend that needs a swap or runs under continuous redraw
calls `swap_buffers` exactly once, with a region that contains every damaged
pixel lying inside the box of the output (`get_damage_box`) and no pixel
outside that box. -/
theorem paint_swap_damage_covers_visible_damage (st : impl) (calls : List damage_call)
    (need_swap : Bool) (tmp_region : wf_region)
    (halive : st.output_damage.damage_manager = true)
    (hrender : need_swap = true ∨ st.constant_redraw_counter ≠ 0) :
    ∃ swap_damage : wf_region,
      swap_regions
          (impl.paint (calls.foldl damage_call.apply st) (some (need_swap, tmp_region))).trace =
        swap_regions st.trace ++ [swap_damage] ∧
      (∀ c ∈ calls,
        c.pixels.and_box (output_damage_t.get_damage_box st) ⊆ swap_damage) ∧
      swap_damage ⊆ (output_damage_t.get_damage_box st).pixels := by
  obtain ⟨h1, hcalls⟩ := foldl_damage_call_apply_frame calls st
  have h2 := frame_step_run_effects h1 output_effect_type_t.OUTPUT_EFFECT_PRE
  have h3 := frame_step_make_current h2 (some (need_swap, tmp_region))
  have g3 := frame_step_make_current
    (frame_step_run_effects (frame_step_refl (calls.foldl damage_call.apply st))
      output_effect_type_t.OUTPUT_EFFECT_PRE) (some (need_swap, tmp_region))
  have hmc := make_current_alive _ need_swap tmp_region (h2.damage_manager.trans halive)
  unfold impl.paint
  dsimp only
  rcases hmk : output_damage_t.make_current
      (effect_hook_manager_t.run_effects (calls.foldl damage_call.apply st)
        output_effect_type_t.OUTPUT_EFFECT_PRE) (some (need_swap, tmp_region))
    with ⟨ok, ns, s3⟩
  rw [hmk] at h3 hmc g3
  dsimp only at h3 hmc g3 ⊢
  obtain ⟨hok, hns⟩ := hmc
  subst hok hns
  have hbranch : (!ns && decide (s3.constant_redraw_counter = 0)) = false := by
    rw [h3.constant_redraw_counter]
    rcases hrender with h | h
    · simp [h]
    · simp [h]
  simp only [Bool.not_true, Bool.false_eq_true, if_false, hbranch]
  have h4 := frame_step_bind_output h3
  have g4 := frame_step_bind_output g3
  obtain ⟨h5, hsd⟩ := frame_step_render_output h4 ∅
  have hup := render_output_swap_damage_subset (impl.bind_output s3) ∅
  rw [frame_step_get_damage_box h4, Finset.empty_union] at hup
  rcases hro : impl.render_output (impl.bind_output s3) ∅ with ⟨s5, sd⟩
  rw [hro] at h5 hsd hup
  dsimp only at h5 hsd hup ⊢
  have h6 := frame_step_run_effects h5 output_effect_type_t.OUTPUT_EFFECT_OVERLAY
  refine ⟨_, paint_finish h6 halive _ _ rfl, ?_, ?_⟩
  · intro c hc
    have hc1 : c.pixels.and_box (output_damage_t.get_damage_box st) ⊆ sd := by
      refine Finset.Subset.trans ?_ hsd
      rw [frame_step_get_damage_box h4]
      intro p hp
      rw [mem_and_box] at hp ⊢
      exact ⟨g4.frame_damage (hcalls c hc hp.1), hp.2⟩
    split
    · exact hc1.trans Finset.subset_union_left
    · exact hc1
  · split
    · rw [frame_step_get_damage_box h6]
      exact Finset.union_subset hup (Finset.Subset.refl _)
    · exact hup

/-- C1, witness: a box straddling the edge of a 4x4 output and a region inside
it are damaged, then `paint` presents. -/
theorem paint_swap_damage_covers_visible_damage_witness :
    (scenario_impl 4 4 []).output_damage.damage_manager = true ∧
      (true = true ∨ (scenario_impl 4 4 []).constant_redraw_counter ≠ 0) ∧
      ∃ swap_damage : wf_region,
        swap_regions
            (impl.paint
              ([damage_call.box ⟨3, 3, 2, 2⟩, damage_call.region {(0, 0)}].foldl
                damage_call.apply (scenario_impl 4 4 []))
              (some (true, ∅))).trace =
          swap_regions (scenario_impl 4 4 []).trace ++ [swap_damage] ∧
        (∀ c ∈ [damage_call.box ⟨3, 3, 2, 2⟩, damage_call.region {(0, 0)}],
          c.pixels.and_box (output_damage_t.get_damage_box (scenario_impl 4 4 [])) ⊆
            swap_damage) ∧
        swap_damage ⊆ (output_damage_t.get_damage_box (scenario_impl 4 4 [])).pixels :=
  ⟨rfl, Or.inl rfl,
    paint_swap_damage_covers_visible_damage (scenario_impl 4 4 [])
      [damage_call.box ⟨3, 3, 2, 2⟩, damage_call.region {(0, 0)}] true ∅ rfl (Or.inl rfl)⟩

/-- C2: damaging the same box twice leaves the same accumulated region
(`get_scheduled_damage`) as damaging it once, whatever was accumulated
before. -/
theorem damage_box_idempotent (st : impl) (b : wlr_box) :
    output_damage_t.get_scheduled_damage
        (output_damage_t.damage (output_damage_t.damage st b) b) =
      output_damage_t.get_scheduled_damage (output_damage_t.damage st b) := by
  simp [output_damage_t.get_scheduled_damage, damage_frame_damage]

/-- C4 as stated fails: in the scenario the render list holds the overlay and
the opaque surface below it, and `workspace_stream_update` renders both, the
opaque surface first. -/
theorem overlay_scenario_renders_opaque_surface :
    (impl.scheduled_repaint
        (output_damage_t.damage
          (scenario_impl 100 100
            [scenario_view 1 ⟨0, 0, 100, 100⟩ 500 false,
             scenario_view 2 ⟨0, 0, 100, 100⟩ 1000 true]) ⟨10, 10, 5, 5⟩)
        ⟨(0, 0), ⟨0, 0⟩, true, 1, 1⟩).to_render.map (fun ds => ds.surface) = [1, 2] ∧
    (render_fb_calls (impl.workspace_stream_update
        (output_damage_t.damage
          (scenario_impl 100 100
            [scenario_view 1 ⟨0, 0, 100, 100⟩ 500 false,
             scenario_view 2 ⟨0, 0, 100, 100⟩ 1000 true]) ⟨10, 10, 5, 5⟩)
        ⟨(0, 0), ⟨0, 0⟩, true, 1, 1⟩).trace).map (fun ds => ds.surface) = [2, 1] ∧
    (impl.scheduled_repaint
        (output_damage_t.damage
          (scenario_impl 100 100
            [scenario_view 1 ⟨0, 0, 100, 100⟩ 500 false,
             scenario_view 2 ⟨0, 0, 100, 100⟩ 1000 true]) ⟨10, 10, 5, 5⟩)
        ⟨(0, 0), ⟨0, 0⟩, true, 1, 1⟩).to_render.map (fun ds => ds.surface) ≠ [1] := by
  decide

/-- C4 amended: with damage box (10,10,5,5) on a 100x100 output, an opaque
surface (alpha at or above the threshold, opaque over its whole box) covering
(0,0,100,100) below a transparent overlay (alpha below the threshold, or no
opaque area) covering (0,0,100,100), the render list holds the overlay first
and the opaque surface second, each with damage (10,10,5,5), no damage remains
after the scan, and `workspace_stream_update` renders the opaque surface and
then the overlay. -/
theorem overlay_above_opaque_surface (overlay_alpha opaque_alpha : Int)
    (overlay_opaque_box : Bool)
    (ho : overlay_alpha < opaque_alpha_threshold ∨ overlay_opaque_box = false)
    (hb : opaque_alpha ≥ opaque_alpha_threshold) :
    (impl.scheduled_repaint
        (output_damage_t.damage
          (scenario_impl 100 100
            [scenario_view 1 ⟨0, 0, 100, 100⟩ overlay_alpha overlay_opaque_box,
             scenario_view 2 ⟨0, 0, 100, 100⟩ opaque_alpha true]) ⟨10, 10, 5, 5⟩)
        ⟨(0, 0), ⟨0, 0⟩, true, 1, 1⟩).to_render =
      [⟨1, 0, 0, (wlr_box.mk 10 10 5 5).pixels⟩, ⟨2, 0, 0, (wlr_box.mk 10 10 5 5).pixels⟩] ∧
    (impl.scheduled_repaint
        (output_damage_t.damage
          (scenario_impl 100 100
            [scenario_view 1 ⟨0, 0, 100, 100⟩ overlay_alpha overlay_opaque_box,
             scenario_view 2 ⟨0, 0, 100, 100⟩ opaque_alpha true]) ⟨10, 10, 5, 5⟩)
        ⟨(0, 0), ⟨0, 0⟩, true, 1, 1⟩).ws_damage = ∅ ∧
    render_fb_calls (impl.workspace_stream_update
        (output_damage_t.damage
          (scenario_impl 100 100
            [scenario_view 1 ⟨0, 0, 100, 100⟩ overlay_alpha overlay_opaque_box,
             scenario_view 2 ⟨0, 0, 100, 100⟩ opaque_alpha true]) ⟨10, 10, 5, 5⟩)
        ⟨(0, 0), ⟨0, 0⟩, true, 1, 1⟩).trace =
      [⟨2, 0, 0, (wlr_box.mk 10 10 5 5).pixels⟩, ⟨1, 0, 0, (wlr_box.mk 10 10 5 5).pixels⟩] := by
  have hne : (wlr_box.mk 10 10 5 5).pixels.empty = false := by decide
  have hin : (wlr_box.mk 10 10 5 5).pixels.and_box ⟨0, 0, 100, 100⟩ =
      (wlr_box.mk 10 10 5 5).pixels := by decide
  have hover : (if overlay_alpha ≥ opaque_alpha_threshold then
      (wlr_box.mk 10 10 5 5).pixels \
        (if overlay_opaque_box = true then (wlr_box.mk 0 0 100 100).pixels else ∅)
      else (wlr_box.mk 10 10 5 5).pixels) = (wlr_box.mk 10 10 5 5).pixels := by
    rcases ho with h | h
    · rw [if_neg (not_le.mpr h)]
    · subst h
      simp
  have hsub : (wlr_box.mk 10 10 5 5).pixels \ (wlr_box.mk 0 0 100 100).pixels = ∅ := by
    rw [Finset.sdiff_eq_empty_iff_subset]
    intro p hp
    rw [mem_pixels] at hp ⊢
    simp only [wlr_box.contains, Bool.and_eq_true, decide_eq_true_eq] at hp ⊢
    omega
  have hscan : impl.scheduled_repaint
      (output_damage_t.damage
        (scenario_impl 100 100
          [scenario_view 1 ⟨0, 0, 100, 100⟩ overlay_alpha overlay_opaque_box,
           scenario_view 2 ⟨0, 0, 100, 100⟩ opaque_alpha true]) ⟨10, 10, 5, 5⟩)
      ⟨(0, 0), ⟨0, 0⟩, true, 1, 1⟩ =
      ⟨[⟨1, 0, 0, (wlr_box.mk 10 10 5 5).pixels⟩, ⟨2, 0, 0, (wlr_box.mk 10 10 5 5).pixels⟩], ∅,
        ⟨0, 0, ⟨0, 0, 100, 100⟩, fun b => b⟩, 0, 0⟩ := by
    rw [scenario_scheduled_repaint]
    unfold impl.check_schedule_views
    simp only [hne, Bool.false_eq_true, if_false]
    rw [scenario_check_view _ _ _ _ _ _ _ hne hin, hover]
    unfold impl.check_schedule_views
    simp only [hne, Bool.false_eq_true, if_false]
    rw [scenario_check_view _ _ _ _ _ _ _ hne hin]
    simp only [hb, if_true, hsub]
    unfold impl.check_schedule_views
    rfl
  refine ⟨by rw [hscan], by rw [hscan], ?_⟩
  rw [workspace_stream_update_render_fb_calls, hscan]
  rfl

/-- C4, witness: the scenario with an overlay of alpha 0.5 and an opaque surface
of alpha 1. -/
theorem overlay_above_opaque_surface_witness :
    ((500 : Int) < opaque_alpha_threshold ∨ false = false) ∧
      (1000 : Int) ≥ opaque_alpha_threshold ∧
      (impl.scheduled_repaint
          (output_damage_t.damage
            (scenario_impl 100 100
              [scenario_view 1 ⟨0, 0, 100, 100⟩ 500 false,
               scenario_view 2 ⟨0, 0, 100, 100⟩ 1000 true]) ⟨10, 10, 5, 5⟩)
          ⟨(0, 0), ⟨0, 0⟩, true, 1, 1⟩).to_render =
        [⟨1, 0, 0, (wlr_box.mk 10 10 5 5).pixels⟩, ⟨2, 0, 0, (wlr_box.mk 10 10 5 5).pixels⟩] ∧
      (impl.scheduled_repaint
          (output_damage_t.damage
            (scenario_impl 100 100
              [scenario_view 1 ⟨0, 0, 100, 100⟩ 500 false,
               scenario_view 2 ⟨0, 0, 100, 100⟩ 1000 true]) ⟨10, 10, 5, 5⟩)
          ⟨(0, 0), ⟨0, 0⟩, true, 1, 1⟩).ws_damage = ∅ ∧
      render_fb_calls (impl.workspace_stream_update
          (output_damage_t.damage
            (scenario_impl 100 100
              [scenario_view 1 ⟨0, 0, 100, 100⟩ 500 false,
               scenario_view 2 ⟨0, 0, 100, 100⟩ 1000 true]) ⟨10, 10, 5, 5⟩)
          ⟨(0, 0), ⟨0, 0⟩, true, 1, 1⟩).trace =
        [⟨2, 0, 0, (wlr_box.mk 10 10 5 5).pixels⟩, ⟨1, 0, 0, (wlr_box.mk 10 10 5 5).pixels⟩] :=
  ⟨Or.inl (by decide), by decide,
    overlay_above_opaque_surface 500 1000 false (Or.inl (by decide)) (by decide)⟩

/-- C5: once the remaining workspace damage is empty, the rest of the scan (the
remaining surfaces of the current view or drag icon, then all views below)
appends no entry to the render list. -/
theorem no_entry_after_damage_exhausted (r : workspace_stream_repaint_t)
    (rest : List (wayfire_surface_t × Int × Int)) (dx dy : Int)
    (views : List wayfire_view_t) (h : r.ws_damage.empty = true) :
    (impl.check_schedule_views (impl.schedule_surfaces r rest dx dy) views).to_render =
      r.to_render := by
  rw [schedule_surfaces_of_empty rest r dx dy h, check_schedule_views_of_empty views r h]

/-- C5, witness: a scan state with one entry and no damage left, followed by a
surface, a plain view and a transformed view. -/
theorem no_entry_after_damage_exhausted_witness :
    (workspace_stream_repaint_t.mk [⟨7, 0, 0, {(0, 0)}⟩] ∅
        ⟨0, 0, ⟨0, 0, 2, 2⟩, fun b => b⟩ 0 0).ws_damage.empty = true ∧
      (impl.check_schedule_views
          (impl.schedule_surfaces
            (workspace_stream_repaint_t.mk [⟨7, 0, 0, {(0, 0)}⟩] ∅
              ⟨0, 0, ⟨0, 0, 2, 2⟩, fun b => b⟩ 0 0)
            [(wayfire_surface_t.mk 2 true ⟨0, 0, 2, 2⟩ 500 (fun _ _ => ∅), 0, 0)] 0 0)
          [scenario_view 3 ⟨0, 0, 2, 2⟩ 1000 true,
           { scenario_view 4 ⟨0, 0, 2, 2⟩ 1000 true with has_transformer := true }]).to_render =
        (workspace_stream_repaint_t.mk [⟨7, 0, 0, {(0, 0)}⟩] ∅
          ⟨0, 0, ⟨0, 0, 2, 2⟩, fun b => b⟩ 0 0).to_render :=
  ⟨by decide,
    no_entry_after_damage_exhausted
      (workspace_stream_repaint_t.mk [⟨7, 0, 0, {(0, 0)}⟩] ∅
        ⟨0, 0, ⟨0, 0, 2, 2⟩, fun b => b⟩ 0 0)
      [(wayfire_surface_t.mk 2 true ⟨0, 0, 2, 2⟩ 500 (fun _ _ => ∅), 0, 0)] 0 0
      [scenario_view 3 ⟨0, 0, 2, 2⟩ 1000 true,
       { scenario_view 4 ⟨0, 0, 2, 2⟩ 1000 true with has_transformer := true }]
      (by decide)⟩

/-- C6, failing input: with the same hook registered twice, the first
invocation of `run_post_effects` already writes the screen framebuffer although
it is not the invocation of the last chain entry, and the second invocation
reads `post_buffers[1]`, which nothing wrote. -/
theorem run_post_effects_repeated_hook :
    post_hook_calls (postprocessing_manager_t.run_post_effects
        (postprocessing_manager_t.add_post
          (postprocessing_manager_t.add_post (scenario_impl 2 2 []) 7) 7)).trace =
      [(7, fb_target.post_buffers 0, fb_target.default_framebuffer),
       (7, fb_target.post_buffers 1, fb_target.default_framebuffer)] := by
  decide

/-- C7 as stated fails: two consecutive `damage_whole_idle()` calls with no idle
dispatch between them have already run `damage_whole` twice, and the idle
dispatch runs it a third time. -/
theorem damage_whole_idle_twice_not_once :
    (output_damage_t.damage_whole_idle
        (output_damage_t.damage_whole_idle (scenario_impl 2 2 []))).trace.count
        event.damage_whole = 2 ∧
      (output_damage_t.run_idle_damage (output_damage_t.damage_whole_idle
        (output_damage_t.damage_whole_idle (scenario_impl 2 2 [])))).trace.count
        event.damage_whole = 3 ∧
      (output_damage_t.run_idle_damage (output_damage_t.damage_whole_idle
        (output_damage_t.damage_whole_idle (scenario_impl 2 2 [])))).trace.count
        event.damage_whole ≠ 1 := by
  decide

/-- C7 amended: two consecutive `damage_whole_idle()` calls run `damage_whole`
immediately once each and leave exactly one deferred `damage_whole` pending:
the idle dispatch runs it once, and a further idle dispatch runs nothing. -/
theorem damage_whole_idle_twice (st : impl) :
    (output_damage_t.damage_whole_idle
        (output_damage_t.damage_whole_idle st)).trace.count event.damage_whole =
        st.trace.count event.damage_whole + 2 ∧
      (output_damage_t.damage_whole_idle
        (output_damage_t.damage_whole_idle st)).output_damage.idle_damage = true ∧
      (output_damage_t.run_idle_damage (output_damage_t.damage_whole_idle
        (output_damage_t.damage_whole_idle st))).trace.count event.damage_whole =
        st.trace.count event.damage_whole + 3 ∧
      output_damage_t.run_idle_damage (output_damage_t.run_idle_damage
          (output_damage_t.damage_whole_idle (output_damage_t.damage_whole_idle st))) =
        output_damage_t.run_idle_damage
          (output_damage_t.damage_whole_idle (output_damage_t.damage_whole_idle st)) := by
  have h1 : (output_damage_t.damage_whole_idle
      (output_damage_t.damage_whole_idle st)).trace.count event.damage_whole =
      st.trace.count event.damage_whole + 2 := by
    simp only [damage_whole_idle_count_damage_whole]
  have h2 := damage_whole_idle_connected (output_damage_t.damage_whole_idle st)
  have h3 := run_idle_damage_connected _ h2
  refine ⟨h1, h2, ?_, ?_⟩
  · rw [h3.1, h1]
  · exact run_idle_damage_disconnected _ h3.2

/-- C8, failing input: `add_inhibit(false)` on a counter of 0 leaves
`output_inhibit_counter` at -1, and the acquire that follows brings it to 0 and
emits "start-rendering". -/
theorem add_inhibit_release_without_acquire :
    (impl.add_inhibit (scenario_impl 2 2 []) false).output_inhibit_counter = -1 ∧
      ((impl.add_inhibit (impl.add_inhibit (scenario_impl 2 2 []) false) true).trace.count
        (event.emit_signal "start-rendering")) = 1 := by
  decide

/-- C9: starting from 0, after every sequence of `set_redraw_always` calls
`constant_redraw_counter` is at least 0; a further call with `true` adds one and
a further call with `false` gives `max (c - 1) 0`; when no prefix holds more
removes than adds the counter is the number of adds minus the number of
removes, which is positive when the removes are fewer. -/
theorem set_redraw_always_refcount (st : impl) (calls : List Bool)
    (h0 : st.constant_redraw_counter = 0) :
    0 ≤ (calls.foldl impl.set_redraw_always st).constant_redraw_counter ∧
      (∀ always : Bool,
        ((calls ++ [always]).foldl impl.set_redraw_always st).constant_redraw_counter =
          if always then (calls.foldl impl.set_redraw_always st).constant_redraw_counter + 1
          else max ((calls.foldl impl.set_redraw_always st).constant_redraw_counter - 1) 0) ∧
      (balanced calls →
        (calls.foldl impl.set_redraw_always st).constant_redraw_counter =
          (calls.count true : Int) - calls.count false) ∧
      (balanced calls → calls.count false < calls.count true →
        0 < (calls.foldl impl.set_redraw_always st).constant_redraw_counter) := by
  have hnn := (foldl_set_redraw_always_counter st calls (le_of_eq h0.symm)).1
  refine ⟨hnn, ?_, ?_, ?_⟩
  · intro always
    rw [List.foldl_append, List.foldl_cons, List.foldl_nil, set_redraw_always_counter]
    cases always
    · simp only [Bool.false_eq_true, if_false]
      rfl
    · simp only [if_true]
      omega
  · exact foldl_set_redraw_always_balanced st calls h0
  · intro hb hlt
    rw [foldl_set_redraw_always_balanced st calls h0 hb]
    omega

/-- C9, witness: the call sequence add, add, remove on a fresh render manager
leaves the counter at 2 - 1. -/
theorem set_redraw_always_refcount_witness :
    (scenario_impl 2 2 []).constant_redraw_counter = 0 ∧
      balanced [true, true, false] ∧
      ([true, true, false] : List Bool).count false <
        ([true, true, false] : List Bool).count true ∧
      0 ≤ ([true, true, false].foldl impl.set_redraw_always
          (scenario_impl 2 2 [])).constant_redraw_counter ∧
      (∀ always : Bool,
        (([true, true, false] ++ [always]).foldl impl.set_redraw_always
            (scenario_impl 2 2 [])).constant_redraw_counter =
          if always then
            ([true, true, false].foldl impl.set_redraw_always
              (scenario_impl 2 2 [])).constant_redraw_counter + 1
          else
            max (([true, true, false].foldl impl.set_redraw_always
              (scenario_impl 2 2 [])).constant_redraw_counter - 1) 0) ∧
      ([true, true, false].foldl impl.set_redraw_always
          (scenario_impl 2 2 [])).constant_redraw_counter =
        (([true, true, false] : List Bool).count true : Int) -
          ([true, true, false] : List Bool).count false ∧
      0 < ([true, true, false].foldl impl.set_redraw_always
          (scenario_impl 2 2 [])).constant_redraw_counter :=
  ⟨rfl, by decide, by decide,
    (set_redraw_always_refcount (scenario_impl 2 2 []) [true, true, false] rfl).1,
    (set_redraw_always_refcount (scenario_impl 2 2 []) [true, true, false] rfl).2.1,
    (set_redraw_always_refcount (scenario_impl 2 2 []) [true, true, false] rfl).2.2.1
      (by decide),
    (set_redraw_always_refcount (scenario_impl 2 2 []) [true, true, false] rfl).2.2.2
      (by decide) (by decide)⟩

/-- C10: in a sequence of `add_inhibit` calls, starting from 0, in which
releases never outnumber acquires, a call adds one `damage_whole_idle` and one
"start-rendering" signal when it is a release that finds the counter at 1, and
adds neither otherwise. -/
theorem add_inhibit_last_release (st : impl) (pre : List Bool) (add : Bool)
    (h0 : st.output_inhibit_counter = 0) (hbal : balanced (pre ++ [add])) :
    (impl.add_inhibit (pre.foldl impl.add_inhibit st) add).trace.count
          event.damage_whole_idle =
        (pre.foldl impl.add_inhibit st).trace.count event.damage_whole_idle +
          (if add = false ∧ (pre.foldl impl.add_inhibit st).output_inhibit_counter = 1
            then 1 else 0) ∧
      (impl.add_inhibit (pre.foldl impl.add_inhibit st) add).trace.count
          (event.emit_signal "start-rendering") =
        (pre.foldl impl.add_inhibit st).trace.count (event.emit_signal "start-rendering") +
          (if add = false ∧ (pre.foldl impl.add_inhibit st).output_inhibit_counter = 1
            then 1 else 0) := by
  have hc := foldl_add_inhibit_balanced st pre h0
  have hpre := balanced_total _ (balanced_append_left pre [add] hbal)
  have hcond : (st' : impl) → st' = pre.foldl impl.add_inhibit st →
      ((st'.output_inhibit_counter + (if add then 1 else -1) = 0) ↔
        (add = false ∧ st'.output_inhibit_counter = 1)) := by
    intro st' hst'
    subst hst'
    cases add <;> simp <;> omega
  have h := add_inhibit_events (pre.foldl impl.add_inhibit st) add
  simp only [hcond _ rfl] at h
  exact h

/-- C10, witness: acquire, acquire, release, then the release of the last
inhibitor. -/
theorem add_inhibit_last_release_witness :
    (scenario_impl 2 2 []).output_inhibit_counter = 0 ∧ balanced ([true, true, false] ++ [false]) ∧
      (impl.add_inhibit ([true, true, false].foldl impl.add_inhibit (scenario_impl 2 2 []))
            false).trace.count event.damage_whole_idle = 1 ∧
      (impl.add_inhibit ([true, true, false].foldl impl.add_inhibit (scenario_impl 2 2 []))
            false).trace.count (event.emit_signal "start-rendering") = 1 :=
  ⟨rfl, by decide,
    add_inhibit_last_release (scenario_impl 2 2 []) [true, true, false] false rfl (by decide)⟩

/-! ## Lemmas on steps that only extend the trace -/

theorem log_only_refl (st : impl) : impl.log_only st st := rfl

theorem log_only_log {s0 st : impl} (h : impl.log_only s0 st) (e : event) :
    impl.log_only s0 (st.log e) := by
  unfold impl.log_only at h ⊢
  unfold impl.log
  rw [h]

theorem log_only_trans {s1 s2 s3 : impl} (h12 : impl.log_only s1 s2)
    (h23 : impl.log_only s2 s3) : impl.log_only s1 s3 := by
  unfold impl.log_only at *
  rw [h23, h12]

theorem log_only_foldl_log {α : Type} (f : α → event) (l : List α) {s0 st : impl}
    (h : impl.log_only s0 st) : impl.log_only s0 (l.foldl (fun s a => s.log (f a)) st) := by
  induction l generalizing st with
  | nil => exact h
  | cons a rest ih =>
    rw [List.foldl_cons]
    exact ih (log_only_log h (f a))

theorem log_only_run_effects {s0 st : impl} (h : impl.log_only s0 st)
    (type : output_effect_type_t) :
    impl.log_only s0 (effect_hook_manager_t.run_effects st type) :=
  log_only_foldl_log (fun hook => event.effect_hook type hook) _ h

theorem log_only_view_send_frame_done {s0 st : impl} (h : impl.log_only s0 st)
    (v : wayfire_view_t) : impl.log_only s0 (impl.view_send_frame_done st v) := by
  unfold impl.view_send_frame_done
  split
  · exact h
  · exact log_only_foldl_log
      (fun surface : wayfire_surface_t × Int × Int => event.send_frame_done surface.1.id) _ h

theorem log_only_foldl_view_send_frame_done (views : List wayfire_view_t) {s0 st : impl}
    (h : impl.log_only s0 st) :
    impl.log_only s0 (views.foldl impl.view_send_frame_done st) := by
  induction views generalizing st with
  | nil => exact h
  | cons v rest ih =>
    rw [List.foldl_cons]
    exact ih (log_only_view_send_frame_done h v)

theorem log_only_schedule_drag_icon {s0 st : impl} (h : impl.log_only s0 st)
    (repaint : workspace_stream_repaint_t) :
    impl.log_only s0 (impl.schedule_drag_icon st repaint).1 := by
  unfold impl.schedule_drag_icon
  split
  · exact h
  · exact h
  · split
    · exact h
    · exact log_only_log h _

theorem log_only_unschedule_drag_icon {s0 st : impl} (h : impl.log_only s0 st) :
    impl.log_only s0 (impl.unschedule_drag_icon st) := by
  unfold impl.unschedule_drag_icon
  split
  · exact log_only_log h _
  · exact h

theorem log_only_calculate_repaint_for_stream {s0 st : impl} (h : impl.log_only s0 st)
    (stream : workspace_stream_t) :
    impl.log_only s0 (impl.calculate_repaint_for_stream st stream).1 := by
  unfold impl.calculate_repaint_for_stream
  dsimp only
  split
  · exact h
  · exact log_only_log h _

theorem log_only_workspace_stream_update {s0 st : impl} (h : impl.log_only s0 st)
    (stream : workspace_stream_t) :
    impl.log_only s0 (impl.workspace_stream_update st stream) := by
  unfold impl.workspace_stream_update
  dsimp only
  split
  · exact log_only_calculate_repaint_for_stream h stream
  · unfold impl.check_schedule_surfaces impl.clear_empty_areas impl.render_views
    dsimp only
    apply log_only_log
    apply log_only_unschedule_drag_icon
    apply log_only_foldl_log
      (fun ds : damaged_surface_t => event.render_fb ds.surface ds.x ds.y ds.damage)
    apply log_only_log
    apply log_only_schedule_drag_icon
    apply log_only_log
    exact log_only_calculate_repaint_for_stream h stream

theorem log_only_run_post_effects_fold (chain : List Nat) {s0 : impl}
    (acc : impl × Nat × Nat) (h : impl.log_only s0 acc.1) :
    impl.log_only s0
      (chain.foldl postprocessing_manager_t.run_post_effects_step acc).1 := by
  induction chain generalizing acc with
  | nil => exact h
  | cons post rest ih =>
    rw [List.foldl_cons]
    apply ih
    unfold postprocessing_manager_t.run_post_effects_step
    dsimp only
    exact log_only_log (log_only_log h _) _

theorem log_only_run_post_effects {s0 st : impl} (h : impl.log_only s0 st) :
    impl.log_only s0 (postprocessing_manager_t.run_post_effects st) :=
  log_only_run_post_effects_fold _ (st, 0, 1) h

theorem foldl_view_send_frame_done_trace (views : List wayfire_view_t) (st : impl) :
    (views.foldl impl.view_send_frame_done st).trace = st.trace ++ frame_done_events views := by
  induction views generalizing st with
  | nil => simp [frame_done_events]
  | cons v rest ih =>
    rw [List.foldl_cons, ih]
    have hcons : frame_done_events (v :: rest) =
        (if v.is_mapped then
          v.for_each_surface.map (fun s => event.send_frame_done s.1.id) else []) ++
          frame_done_events rest := rfl
    rw [hcons]
    unfold impl.view_send_frame_done
    cases hv : v.is_mapped
    · simp
    · simp only [Bool.not_true, Bool.false_eq_true, if_false, if_true]
      rw [foldl_log_trace
        (fun surface : wayfire_surface_t × Int × Int => event.send_frame_done surface.1.id),
        List.append_assoc]

theorem post_paint_trace (st : impl) :
    (impl.post_paint st).trace =
      st.trace ++
        (st.effects output_effect_type_t.OUTPUT_EFFECT_POST).map
          (fun hook => event.effect_hook output_effect_type_t.OUTPUT_EFFECT_POST hook) ++
        (if st.constant_redraw_counter ≠ 0 then [event.wlr_output_schedule_frame] else []) ++
        frame_done_events (impl.frame_done_views st) := by
  have h1 := log_only_run_effects (log_only_refl st) output_effect_type_t.OUTPUT_EFFECT_POST
  have ht := foldl_log_trace
    (fun hook => event.effect_hook output_effect_type_t.OUTPUT_EFFECT_POST hook)
    (st.effects output_effect_type_t.OUTPUT_EFFECT_POST) st
  unfold impl.post_paint impl.frame_done_views
  dsimp only
  generalize hs1 : effect_hook_manager_t.run_effects st
    output_effect_type_t.OUTPUT_EFFECT_POST = s1 at h1
  have ht1 : s1.trace = st.trace ++
      (st.effects output_effect_type_t.OUTPUT_EFFECT_POST).map
        (fun hook => event.effect_hook output_effect_type_t.OUTPUT_EFFECT_POST hook) := by
    rw [← hs1]
    exact ht
  have hr : s1.renderer = st.renderer := by rw [h1]
  have ho : s1.output = st.output := by rw [h1]
  have hc : s1.constant_redraw_counter = st.constant_redraw_counter := by rw [h1]
  have h2 : ∀ s2 : impl, s2 = (if s1.constant_redraw_counter ≠ 0 then
      output_damage_t.schedule_repaint s1 else s1) →
      s2.renderer = st.renderer ∧ s2.output = st.output ∧
      s2.trace = s1.trace ++
        (if st.constant_redraw_counter ≠ 0 then [event.wlr_output_schedule_frame] else []) := by
    intro s2 hs2
    subst hs2
    rw [hc]
    split
    · unfold output_damage_t.schedule_repaint impl.log
      dsimp only
      split <;> exact ⟨hr, ho, rfl⟩
    · exact ⟨hr, ho, by simp⟩
  obtain ⟨hr2, ho2, ht2⟩ := h2 _ rfl
  generalize (if s1.constant_redraw_counter ≠ 0 then
      output_damage_t.schedule_repaint s1 else s1) = s2 at hr2 ho2 ht2 ⊢
  rw [hr2, ho2]
  cases st.renderer with
  | some _ =>
    dsimp only
    rw [foldl_view_send_frame_done_trace, ht2, ht1]
  | none =>
    dsimp only
    have hfold := log_only_foldl_view_send_frame_done
      (st.output.get_views_on_workspace st.output.current_workspace
        layer_mask.WF_MIDDLE_LAYERS) (log_only_refl s2)
    have ho3 : (List.foldl impl.view_send_frame_done s2
        (st.output.get_views_on_workspace st.output.current_workspace
          layer_mask.WF_MIDDLE_LAYERS)).output = s2.output := by rw [hfold]
    rw [ho3, ho2, foldl_view_send_frame_done_trace, foldl_view_send_frame_done_trace, ht2, ht1]
    have happ : ∀ a b : List wayfire_view_t,
        frame_done_events (a ++ b) = frame_done_events a ++ frame_done_events b := by
      intro a b
      induction a with
      | nil => rfl
      | cons v rest ih => simp [frame_done_events, ih]
    rw [happ]
    simp only [List.append_assoc]

theorem run_effects_eq (st : impl) (type : output_effect_type_t) :
    effect_hook_manager_t.run_effects st type =
      { st with trace := st.trace ++
          (st.effects type).map (fun hook => event.effect_hook type hook) } := by
  have h := log_only_run_effects (log_only_refl st) type
  have ht : (effect_hook_manager_t.run_effects st type).trace = st.trace ++
      (st.effects type).map (fun hook => event.effect_hook type hook) :=
    foldl_log_trace (fun hook => event.effect_hook type hook) _ st
  unfold impl.log_only at h
  rw [ht] at h
  exact h

theorem log_only_output_damage {s0 st : impl} (h : impl.log_only s0 st) :
    st.output_damage = s0.output_damage := by
  unfold impl.log_only at h
  rw [h]

theorem post_paint_frame_damage (st : impl) :
    (impl.post_paint st).output_damage.frame_damage = st.output_damage.frame_damage := by
  unfold impl.post_paint
  dsimp only
  have h1 := log_only_output_damage
    (log_only_run_effects (log_only_refl st) output_effect_type_t.OUTPUT_EFFECT_POST)
  generalize effect_hook_manager_t.run_effects st
    output_effect_type_t.OUTPUT_EFFECT_POST = s1 at h1 ⊢
  have h2 : (if s1.constant_redraw_counter ≠ 0 then
      output_damage_t.schedule_repaint s1 else s1).output_damage.frame_damage =
      st.output_damage.frame_damage := by
    rw [← h1]
    split
    · unfold output_damage_t.schedule_repaint impl.log
      dsimp only
      split <;> rfl
    · rfl
  generalize (if s1.constant_redraw_counter ≠ 0 then
      output_damage_t.schedule_repaint s1 else s1) = s2 at h2 ⊢
  rw [← h2]
  split
  · rw [log_only_output_damage (log_only_foldl_view_send_frame_done _ (log_only_refl s2))]
  · rw [log_only_output_damage (log_only_foldl_view_send_frame_done _
      (log_only_foldl_view_send_frame_done _ (log_only_refl s2)))]

theorem make_current_eq (st : impl) (need_swap : Bool) (tmp_region : wf_region)
    (h : st.output_damage.damage_manager = true) :
    output_damage_t.make_current st (some (need_swap, tmp_region)) =
      (true, need_swap,
        { st with
          output_damage :=
            { st.output_damage with
              frame_damage :=
                if st.output.no_damage_track then
                  (st.output_damage.frame_damage.or_region tmp_region).or_box
                    (output_damage_t.get_damage_box st)
                else st.output_damage.frame_damage.or_region tmp_region },
          trace := st.trace ++ [event.wlr_output_damage_make_current true] }) := by
  unfold output_damage_t.make_current
  have hdm : (!st.output_damage.damage_manager) = false := by rw [h]; rfl
  rw [if_neg (by rw [hdm]; exact Bool.false_ne_true)]
  cases hno : st.output.no_damage_track
  · simp only [impl.log, hno, Bool.false_eq_true, if_false]
  · simp only [impl.log, hno, if_true]
    rfl

/-! ## Lemmas on a tracker whose backend primitive is gone -/

theorem make_current_dead (st : impl) (backend : Option (Bool × wf_region))
    (h : st.output_damage.damage_manager = false) :
    output_damage_t.make_current st backend = (false, false, st) := by
  unfold output_damage_t.make_current
  simp [h]

theorem swap_buffers_dead (st : impl) (swap_damage : wf_region)
    (h : st.output_damage.damage_manager = false) :
    output_damage_t.swap_buffers st swap_damage = st := by
  unfold output_damage_t.swap_buffers
  simp [h]

theorem damage_dead_trace (st : impl) (b : wlr_box)
    (h : st.output_damage.damage_manager = false) :
    (output_damage_t.damage st b).trace = st.trace ++ [event.wlr_output_schedule_frame] := by
  unfold output_damage_t.damage output_damage_t.schedule_repaint impl.log
  simp only [h, Bool.false_eq_true, if_false]
  split <;> rfl

theorem damage_region_dead_trace (st : impl) (r : wf_region)
    (h : st.output_damage.damage_manager = false) :
    (output_damage_t.damage_region st r).trace =
      st.trace ++ [event.wlr_output_schedule_frame] := by
  unfold output_damage_t.damage_region output_damage_t.schedule_repaint impl.log
  simp only [h, Bool.false_eq_true, if_false]
  split <;> rfl

/-! ## Lemmas on the effect hook lists -/

theorem run_effects_trace (st : impl) (type : output_effect_type_t) :
    (effect_hook_manager_t.run_effects st type).trace =
      st.trace ++ (st.effects type).map (fun hook => event.effect_hook type hook) :=
  foldl_log_trace (fun hook => event.effect_hook type hook) _ st

theorem foldl_add_effect_effects (regs : List (Nat × output_effect_type_t)) (st : impl)
    (type : output_effect_type_t) :
    (regs.foldl (fun s r => effect_hook_manager_t.add_effect s r.1 r.2) st).effects type =
      st.effects type ++ (regs.filter (fun r => r.2 = type)).map Prod.fst := by
  induction regs generalizing st with
  | nil => simp
  | cons r rest ih =>
    rw [List.foldl_cons, ih]
    unfold effect_hook_manager_t.add_effect
    by_cases h : r.2 = type
    · simp [h, List.filter_cons]
    · have h2 : ¬ type = r.2 := fun e => h e.symm
      simp [h, h2, List.filter_cons]

theorem foldl_add_effect_trace (regs : List (Nat × output_effect_type_t)) (st : impl) :
    (regs.foldl (fun s r => effect_hook_manager_t.add_effect s r.1 r.2) st).trace = st.trace := by
  induction regs generalizing st with
  | nil => rfl
  | cons r rest ih =>
    rw [List.foldl_cons, ih]
    rfl

/-! ## Lemmas on workspace damage -/

theorem mem_translate (r : wf_region) (d : wf_point) (p : Int × Int) :
    p ∈ r.translate d ↔ (p.1 - d.x, p.2 - d.y) ∈ r := by
  unfold wf_region.translate
  rw [Finset.mem_image]
  constructor
  · rintro ⟨q, hq, rfl⟩
    simpa using hq
  · intro h
    exact ⟨_, h, by simp⟩

theorem ws_damage_of_damaged_box (frame_damage : wf_region) (box : wlr_box) :
    ((frame_damage ∪ box.pixels).and_box box).translate ⟨-box.x, -box.y⟩ =
      (wlr_box.mk 0 0 box.width box.height).pixels := by
  ext p
  rw [mem_translate, mem_and_box, mem_pixels, mem_pixels]
  simp only [Finset.mem_union, mem_pixels, wlr_box.contains,
    Bool.and_eq_true, decide_eq_true_eq]
  constructor
  · rintro ⟨_, h⟩
    omega
  · intro h
    refine ⟨Or.inr ?_, ?_⟩ <;> omega

theorem get_ws_box_congr (s1 s2 : impl) (h : s1.output = s2.output) (ws : Int × Int) :
    output_damage_t.get_ws_box s1 ws = output_damage_t.get_ws_box s2 ws := by
  unfold output_damage_t.get_ws_box output_damage_t.get_damage_box
  rw [h]

theorem get_ws_damage_after_damage (st : impl) (ws : Int × Int) :
    output_damage_t.get_ws_damage
        (output_damage_t.damage st (output_damage_t.get_ws_box st ws)) ws =
      (wlr_box.mk 0 0 st.output.transformed_width st.output.transformed_height).pixels := by
  have hout : (output_damage_t.damage st (output_damage_t.get_ws_box st ws)).output =
      st.output := (frame_step_damage (frame_step_refl st) _).output
  have hbox : output_damage_t.get_ws_box
      (output_damage_t.damage st (output_damage_t.get_ws_box st ws)) ws =
      output_damage_t.get_ws_box st ws := get_ws_box_congr _ _ hout ws
  unfold output_damage_t.get_ws_damage
  dsimp only
  rw [hbox, damage_frame_damage, ws_damage_of_damaged_box]
  rfl

/-! ## Lemmas on the phases of a frame -/

theorem phases_append (t u : List event) : phases (t ++ u) = phases t ++ phases u := by
  simp [phases, List.filterMap_append]

theorem render_step_refl (st : impl) : impl.render_step st st := ⟨0, by simp⟩

theorem render_step_trans {s1 s2 s3 : impl} (h12 : impl.render_step s1 s2)
    (h23 : impl.render_step s2 s3) : impl.render_step s1 s3 := by
  obtain ⟨n, hn⟩ := h12
  obtain ⟨m, hm⟩ := h23
  refine ⟨n + m, ?_⟩
  rw [hm, hn, List.append_assoc, List.replicate_add]

theorem render_step_log_none {s0 st : impl} (h : impl.render_step s0 st) (e : event)
    (he : e.phase = none) : impl.render_step s0 (st.log e) :=
  render_step_trans h ⟨0, by simp [impl.log, phases_append, phases, he]⟩

theorem render_step_log_render {s0 st : impl} (h : impl.render_step s0 st) (e : event)
    (he : e.phase = some frame_phase.RENDER) : impl.render_step s0 (st.log e) :=
  render_step_trans h ⟨1, by simp [impl.log, phases_append, phases, he]⟩

theorem render_step_of_trace {s0 st st' : impl} (h : impl.render_step s0 st)
    (ht : st'.trace = st.trace) : impl.render_step s0 st' := by
  obtain ⟨n, hn⟩ := h
  exact ⟨n, by rw [ht, hn]⟩

theorem render_step_schedule_repaint {s0 st : impl} (h : impl.render_step s0 st) :
    impl.render_step s0 (output_damage_t.schedule_repaint st) := by
  unfold output_damage_t.schedule_repaint
  dsimp only
  split
  · exact render_step_of_trace (render_step_log_none h event.wlr_output_schedule_frame rfl) rfl
  · exact render_step_log_none h _ rfl

theorem render_step_damage {s0 st : impl} (h : impl.render_step s0 st) (b : wlr_box) :
    impl.render_step s0 (output_damage_t.damage st b) := by
  unfold output_damage_t.damage
  dsimp only
  apply render_step_schedule_repaint
  split
  · exact render_step_of_trace (render_step_log_none h (event.wlr_output_damage_add_box b)
      rfl) rfl
  · exact render_step_of_trace h rfl

theorem render_step_damage_region {s0 st : impl} (h : impl.render_step s0 st)
    (r : wf_region) : impl.render_step s0 (output_damage_t.damage_region st r) := by
  unfold output_damage_t.damage_region
  dsimp only
  apply render_step_schedule_repaint
  split
  · exact render_step_of_trace (render_step_log_none h (event.wlr_output_damage_add r)
      rfl) rfl
  · exact render_step_of_trace h rfl

theorem render_step_schedule_drag_icon {s0 st : impl} (h : impl.render_step s0 st)
    (repaint : workspace_stream_repaint_t) :
    impl.render_step s0 (impl.schedule_drag_icon st repaint).1 := by
  unfold impl.schedule_drag_icon
  split
  · exact h
  · exact h
  · split
    · exact h
    · exact render_step_log_none h _ rfl

theorem render_step_unschedule_drag_icon {s0 st : impl} (h : impl.render_step s0 st) :
    impl.render_step s0 (impl.unschedule_drag_icon st) := by
  unfold impl.unschedule_drag_icon
  split
  · exact render_step_log_none h _ rfl
  · exact h

theorem render_step_calculate_repaint_for_stream {s0 st : impl}
    (h : impl.render_step s0 st) (stream : workspace_stream_t) :
    impl.render_step s0 (impl.calculate_repaint_for_stream st stream).1 := by
  unfold impl.calculate_repaint_for_stream
  dsimp only
  split
  · exact h
  · exact render_step_log_render h _ rfl

theorem render_step_render_views {s0 st : impl} (h : impl.render_step s0 st)
    (repaint : workspace_stream_repaint_t) :
    impl.render_step s0 (impl.render_views st repaint) := by
  unfold impl.render_views
  generalize repaint.to_render.reverse = l
  induction l generalizing st with
  | nil => exact h
  | cons ds rest ih =>
    rw [List.foldl_cons]
    exact ih (render_step_log_render h _ rfl)

theorem render_step_workspace_stream_update {s0 st : impl} (h : impl.render_step s0 st)
    (stream : workspace_stream_t) :
    impl.render_step s0 (impl.workspace_stream_update st stream) := by
  unfold impl.workspace_stream_update
  dsimp only
  split
  · exact render_step_calculate_repaint_for_stream h stream
  · unfold impl.check_schedule_surfaces impl.clear_empty_areas
    dsimp only
    refine render_step_log_none ?_ _ ?_
    swap
    · rfl
    apply render_step_unschedule_drag_icon
    apply render_step_render_views
    refine render_step_log_render ?_ _ ?_
    swap
    · rfl
    apply render_step_schedule_drag_icon
    refine render_step_log_none ?_ _ ?_
    swap
    · rfl
    exact render_step_calculate_repaint_for_stream h stream

theorem render_step_workspace_stream_start {s0 st : impl} (h : impl.render_step s0 st)
    (ws : Int × Int) : impl.render_step s0 (impl.workspace_stream_start st ws) := by
  unfold impl.workspace_stream_start
  dsimp only
  apply render_step_workspace_stream_update
  apply render_step_damage
  exact render_step_of_trace h rfl

theorem render_step_default_renderer {s0 st : impl} (h : impl.render_step s0 st)
    (swap_damage : wf_region) :
    impl.render_step s0 (impl.default_renderer st swap_damage).1 := by
  unfold impl.default_renderer
  by_cases hdbg : st.output.damage_debug = true
  · simp only [hdbg, if_true]
    have h1 := render_step_log_none h (event.clear_output "damage_debug") rfl
    split
    · apply render_step_workspace_stream_start
      refine render_step_of_trace ?_ rfl
      split
      · exact render_step_of_trace h1 rfl
      · exact h1
    · exact render_step_workspace_stream_update h1 _
  · simp only [hdbg, Bool.false_eq_true, if_false]
    split
    · apply render_step_workspace_stream_start
      refine render_step_of_trace ?_ rfl
      split
      · exact render_step_of_trace h rfl
      · exact h
    · exact render_step_workspace_stream_update h _

theorem render_step_render_output {s0 st : impl} (h : impl.render_step s0 st)
    (swap_damage : wf_region) :
    impl.render_step s0 (impl.render_output st swap_damage).1 := by
  unfold impl.render_output
  split
  · exact render_step_log_render h _ rfl
  · exact render_step_default_renderer h _

theorem phases_map_effect_hook (type : output_effect_type_t) (hooks : List Nat) :
    phases (hooks.map (fun hook => event.effect_hook type hook)) =
      List.replicate hooks.length type.phase := by
  induction hooks with
  | nil => rfl
  | cons hook rest ih =>
    rw [List.map_cons, List.length_cons, List.replicate_succ, ← ih]
    rfl

theorem phases_frame_done_events (views : List wayfire_view_t) :
    phases (frame_done_events views) = [] := by
  induction views with
  | nil => rfl
  | cons v rest ih =>
    have hcons : frame_done_events (v :: rest) =
        (if v.is_mapped then
          v.for_each_surface.map (fun s => event.send_frame_done s.1.id) else []) ++
          frame_done_events rest := rfl
    rw [hcons, phases_append, ih]
    split
    · simp [phases, List.filterMap_map, event.phase]
    · rfl

theorem phases_damage (st : impl) (b : wlr_box) :
    phases (output_damage_t.damage st b).trace = phases st.trace := by
  unfold output_damage_t.damage output_damage_t.schedule_repaint impl.log
  dsimp only
  split <;> split <;> simp [phases_append, phases, event.phase]

theorem phases_damage_region (st : impl) (r : wf_region) :
    phases (output_damage_t.damage_region st r).trace = phases st.trace := by
  unfold output_damage_t.damage_region output_damage_t.schedule_repaint impl.log
  dsimp only
  split <;> split <;> simp [phases_append, phases, event.phase]

theorem phases_foldl_damage_call_apply (calls : List damage_call) (st : impl) :
    phases (calls.foldl damage_call.apply st).trace = phases st.trace := by
  induction calls generalizing st with
  | nil => rfl
  | cons c rest ih =>
    rw [List.foldl_cons, ih]
    cases c with
    | box b => exact phases_damage st b
    | region r => exact phases_damage_region st r

theorem phases_run_effects_requesting_fold (type : output_effect_type_t)
    (requests : Nat → List damage_call) (hooks : List Nat) (st : impl) :
    phases (hooks.foldl
        (fun s hook =>
          (requests hook).foldl damage_call.apply (s.log (event.effect_hook type hook)))
        st).trace =
      phases st.trace ++ phases (hooks.map (fun hook => event.effect_hook type hook)) := by
  induction hooks generalizing st with
  | nil => simp [phases]
  | cons hook rest ih =>
    rw [List.foldl_cons, ih, phases_foldl_damage_call_apply, log_trace, phases_append,
      List.append_assoc, ← phases_append]
    rfl

theorem phases_run_effects_requesting (st : impl) (type : output_effect_type_t)
    (requests : Nat → List damage_call) :
    phases (effect_hook_manager_t.run_effects_requesting st type requests).trace =
      phases st.trace ++
        phases ((st.effects type).map (fun hook => event.effect_hook type hook)) :=
  phases_run_effects_requesting_fold type requests _ st

theorem frame_step_foldl_damage_call_apply (calls : List damage_call) {s0 st : impl}
    (h : impl.frame_step s0 st) : impl.frame_step s0 (calls.foldl damage_call.apply st) :=
  frame_step_trans h (foldl_damage_call_apply_frame calls st).1

theorem frame_step_run_effects_requesting {s0 st : impl} (h : impl.frame_step s0 st)
    (type : output_effect_type_t) (requests : Nat → List damage_call) :
    impl.frame_step s0 (effect_hook_manager_t.run_effects_requesting st type requests) := by
  unfold effect_hook_manager_t.run_effects_requesting
  generalize st.effects type = hooks
  induction hooks generalizing st with
  | nil => exact h
  | cons hook rest ih =>
    rw [List.foldl_cons]
    exact ih (frame_step_foldl_damage_call_apply _ (frame_step_log h _ rfl))

theorem phases_run_post_effects_fold (chain : List Nat) (acc : impl × Nat × Nat) :
    phases (chain.foldl postprocessing_manager_t.run_post_effects_step acc).1.trace =
      phases acc.1.trace ++ List.replicate chain.length frame_phase.POSTPROCESSING := by
  induction chain generalizing acc with
  | nil => simp
  | cons post rest ih =>
    rw [List.foldl_cons, ih]
    unfold postprocessing_manager_t.run_post_effects_step
    simp [impl.log, phases_append, phases, event.phase, List.replicate_succ]

theorem phases_run_post_effects (st : impl) :
    phases (postprocessing_manager_t.run_post_effects st).trace =
      phases st.trace ++ List.replicate st.post_effects.length frame_phase.POSTPROCESSING :=
  phases_run_post_effects_fold _ (st, 0, 1)

theorem phases_bind_output (st : impl) :
    phases (impl.bind_output st).trace = phases st.trace ++ [frame_phase.BIND] := by
  unfold impl.bind_output postprocessing_manager_t.allocate impl.log
  dsimp only
  split <;> simp [phases_append, phases, event.phase]

theorem phases_post_paint (st : impl) :
    phases (impl.post_paint st).trace =
      phases st.trace ++
        List.replicate (st.effects output_effect_type_t.OUTPUT_EFFECT_POST).length
          frame_phase.POST_HOOKS := by
  rw [post_paint_trace, phases_append, phases_append, phases_append,
    phases_frame_done_events, phases_map_effect_hook]
  split <;> simp [phases, event.phase, output_effect_type_t.phase]

theorem paint_finalize_phases (st : impl) (swap_damage : wf_region)
    (halive : st.output_damage.damage_manager = true) :
    phases (impl.paint_finalize st swap_damage).trace =
        phases st.trace ++ List.replicate st.post_effects.length frame_phase.POSTPROCESSING ++
          [frame_phase.SWAP] ++
          List.replicate (st.effects output_effect_type_t.OUTPUT_EFFECT_POST).length
            frame_phase.POST_HOOKS ∧
      (impl.paint_finalize st swap_damage).output_damage.frame_damage = ∅ := by
  unfold impl.paint_finalize
  dsimp only
  generalize (if st.post_effects.length ≠ 0 then
    swap_damage.or_box (output_damage_t.get_damage_box st) else swap_damage) = sd
  have h1 := log_only_run_post_effects
    (log_only_log (log_only_refl st) (event.render_software_cursors sd))
  have hp1 : phases (postprocessing_manager_t.run_post_effects
      (st.log (event.render_software_cursors sd))).trace =
      phases st.trace ++ List.replicate st.post_effects.length frame_phase.POSTPROCESSING := by
    rw [phases_run_post_effects, log_trace, phases_append]
    simp [phases, event.phase, impl.log]
  generalize postprocessing_manager_t.run_post_effects
    (st.log (event.render_software_cursors sd)) = s1 at h1 hp1 ⊢
  have h2 : impl.log_only st (if s1.output_inhibit_counter ≠ 0 then
      s1.log (event.clear_output "inhibit") else s1) := by
    split
    · exact log_only_log h1 _
    · exact h1
  have hp2 : phases (if s1.output_inhibit_counter ≠ 0 then
      s1.log (event.clear_output "inhibit") else s1).trace = phases s1.trace := by
    split
    · rw [log_trace, phases_append]
      simp [phases, event.phase]
    · rfl
  generalize (if s1.output_inhibit_counter ≠ 0 then
      s1.log (event.clear_output "inhibit") else s1) = s2 at h2 hp2 ⊢
  have h3 := log_only_log h2 event.unbind_output
  have hp3 : phases (s2.log event.unbind_output).trace = phases s2.trace := by
    rw [log_trace, phases_append]
    simp [phases, event.phase]
  generalize s2.log event.unbind_output = s3 at h3 hp3 ⊢
  have halive3 : s3.output_damage.damage_manager = true := by
    rw [log_only_output_damage h3]; exact halive
  have heff : s3.effects = st.effects := by
    unfold impl.log_only at h3
    rw [h3]
  have hswap : output_damage_t.swap_buffers s3 sd =
      { s3 with
        output_damage := { s3.output_damage with frame_damage := ∅ },
        trace := s3.trace ++ [event.wlr_output_damage_swap_buffers sd] } := by
    unfold output_damage_t.swap_buffers
    simp [halive3, impl.log]
  rw [hswap]
  constructor
  · rw [phases_post_paint]
    dsimp only
    rw [phases_append, hp3, hp2, hp1, heff]
    simp [phases, event.phase]
  · rw [post_paint_frame_damage]

/-! ## Lemmas on `paint` with hooks that request damage -/

theorem paint_eq_paint_with_overlay_damage (st : impl) (backend : Option (Bool × wf_region)) :
    impl.paint st backend = impl.paint_with_overlay_damage st backend (fun _ => []) := rfl

theorem paint_with_overlay_damage_eq (st : impl) (backend : Option (Bool × wf_region))
    (requests : Nat → List damage_call) :
    impl.paint_with_overlay_damage st backend requests =
      if !(output_damage_t.make_current
          (effect_hook_manager_t.run_effects st output_effect_type_t.OUTPUT_EFFECT_PRE)
          backend).1 then
        (output_damage_t.make_current
          (effect_hook_manager_t.run_effects st output_effect_type_t.OUTPUT_EFFECT_PRE)
          backend).2.2
      else if !(output_damage_t.make_current
          (effect_hook_manager_t.run_effects st output_effect_type_t.OUTPUT_EFFECT_PRE)
          backend).2.1 &&
          (output_damage_t.make_current
            (effect_hook_manager_t.run_effects st output_effect_type_t.OUTPUT_EFFECT_PRE)
            backend).2.2.constant_redraw_counter = 0 then
        impl.post_paint (output_damage_t.make_current
          (effect_hook_manager_t.run_effects st output_effect_type_t.OUTPUT_EFFECT_PRE)
          backend).2.2
      else
        impl.paint_finalize
          (effect_hook_manager_t.run_effects_requesting
            (impl.render_output (impl.bind_output (output_damage_t.make_current
              (effect_hook_manager_t.run_effects st output_effect_type_t.OUTPUT_EFFECT_PRE)
              backend).2.2) ∅).1
            output_effect_type_t.OUTPUT_EFFECT_OVERLAY requests)
          (impl.render_output (impl.bind_output (output_damage_t.make_current
            (effect_hook_manager_t.run_effects st output_effect_type_t.OUTPUT_EFFECT_PRE)
            backend).2.2) ∅).2 := rfl

theorem paint_with_overlay_damage_rendered (st : impl) (need_swap : Bool)
    (tmp_region : wf_region) (requests : Nat → List damage_call)
    (halive : st.output_damage.damage_manager = true)
    (hrender : need_swap = true ∨ st.constant_redraw_counter ≠ 0) :
    ∃ (s5 s6 : impl) (swap_damage : wf_region) (n : Nat),
      impl.paint_with_overlay_damage st (some (need_swap, tmp_region)) requests =
          impl.paint_finalize s6 swap_damage ∧
        s6 = effect_hook_manager_t.run_effects_requesting s5
          output_effect_type_t.OUTPUT_EFFECT_OVERLAY requests ∧
        impl.frame_step st s5 ∧ impl.frame_step st s6 ∧
        phases s5.trace =
          phases st.trace ++
            List.replicate (st.effects output_effect_type_t.OUTPUT_EFFECT_PRE).length
              frame_phase.PRE_HOOKS ++
            [frame_phase.MAKE_CURRENT, frame_phase.BIND] ++
            List.replicate n frame_phase.RENDER := by
  have hs1 := run_effects_eq st output_effect_type_t.OUTPUT_EFFECT_PRE
  have hmc := make_current_eq
    (effect_hook_manager_t.run_effects st output_effect_type_t.OUTPUT_EFFECT_PRE)
    need_swap tmp_region (by rw [hs1]; exact halive)
  have f3 := frame_step_make_current
    (frame_step_run_effects (frame_step_refl st) output_effect_type_t.OUTPUT_EFFECT_PRE)
    (some (need_swap, tmp_region))
  have hp3 : phases (output_damage_t.make_current
      (effect_hook_manager_t.run_effects st output_effect_type_t.OUTPUT_EFFECT_PRE)
      (some (need_swap, tmp_region))).2.2.trace =
      phases st.trace ++
        List.replicate (st.effects output_effect_type_t.OUTPUT_EFFECT_PRE).length
          frame_phase.PRE_HOOKS ++ [frame_phase.MAKE_CURRENT] := by
    rw [hmc]
    dsimp only
    rw [hs1]
    dsimp only
    rw [phases_append, phases_append, phases_map_effect_hook]
    rfl
  rw [paint_with_overlay_damage_eq]
  have hok : (output_damage_t.make_current
      (effect_hook_manager_t.run_effects st output_effect_type_t.OUTPUT_EFFECT_PRE)
      (some (need_swap, tmp_region))).1 = true := by rw [hmc]
  have hns : (output_damage_t.make_current
      (effect_hook_manager_t.run_effects st output_effect_type_t.OUTPUT_EFFECT_PRE)
      (some (need_swap, tmp_region))).2.1 = need_swap := by rw [hmc]
  generalize (output_damage_t.make_current
      (effect_hook_manager_t.run_effects st output_effect_type_t.OUTPUT_EFFECT_PRE)
      (some (need_swap, tmp_region))).2.2 = s3 at f3 hp3 ⊢
  rw [hok, hns]
  have hbranch : (!need_swap && decide (s3.constant_redraw_counter = 0)) = false := by
    rw [f3.constant_redraw_counter]
    rcases hrender with h | h
    · simp [h]
    · simp [h]
  simp only [Bool.not_true, Bool.false_eq_true, if_false, hbranch]
  have f4 := frame_step_bind_output f3
  have f5 := (frame_step_render_output f4 ∅).1
  obtain ⟨n, hn⟩ := render_step_render_output (render_step_refl (impl.bind_output s3)) ∅
  refine ⟨(impl.render_output (impl.bind_output s3) ∅).1, _, _, n, rfl, rfl, f5,
    frame_step_run_effects_requesting f5 _ _, ?_⟩
  rw [hn, phases_bind_output, hp3]
  simp only [List.append_assoc, List.cons_append, List.nil_append]

theorem paint_with_overlay_damage_phases (st : impl) (need_swap : Bool)
    (tmp_region : wf_region) (requests : Nat → List damage_call)
    (halive : st.output_damage.damage_manager = true)
    (hrender : need_swap = true ∨ st.constant_redraw_counter ≠ 0) :
    (∃ n : Nat,
      phases (impl.paint_with_overlay_damage st (some (need_swap, tmp_region)) requests).trace =
        phases st.trace ++
          List.replicate (st.effects output_effect_type_t.OUTPUT_EFFECT_PRE).length
            frame_phase.PRE_HOOKS ++
          [frame_phase.MAKE_CURRENT, frame_phase.BIND] ++
          List.replicate n frame_phase.RENDER ++
          List.replicate (st.effects output_effect_type_t.OUTPUT_EFFECT_OVERLAY).length
            frame_phase.OVERLAY_HOOKS ++
          List.replicate st.post_effects.length frame_phase.POSTPROCESSING ++
          [frame_phase.SWAP] ++
          List.replicate (st.effects output_effect_type_t.OUTPUT_EFFECT_POST).length
            frame_phase.POST_HOOKS) ∧
      (impl.paint_with_overlay_damage st (some (need_swap, tmp_region))
        requests).output_damage.frame_damage = ∅ := by
  obtain ⟨s5, s6, sd, n, hpaint, hs6, f5, f6, hp5⟩ :=
    paint_with_overlay_damage_rendered st need_swap tmp_region requests halive hrender
  have hfin := paint_finalize_phases s6 sd (f6.damage_manager.trans halive)
  rw [hpaint]
  refine ⟨⟨n, ?_⟩, hfin.2⟩
  rw [hfin.1, f6.post_effects, f6.effects, hs6, phases_run_effects_requesting,
    phases_map_effect_hook, f5.effects, hp5]
  rfl

theorem paint_finalize_trace (st : impl) (swap_damage : wf_region)
    (halive : st.output_damage.damage_manager = true) :
    ∃ (before after : List event) (swapped : wf_region),
      (impl.paint_finalize st swap_damage).trace =
          st.trace ++ before ++ [event.wlr_output_damage_swap_buffers swapped] ++ after ∧
        swap_regions before = [] ∧ swap_regions after = [] ∧
        swap_damage ⊆ swapped ∧
        (impl.paint_finalize st swap_damage).output = st.output ∧
        (impl.paint_finalize st swap_damage).output_damage.damage_manager = true := by
  unfold impl.paint_finalize
  dsimp only
  have hsub : swap_damage ⊆ (if st.post_effects.length ≠ 0 then
      swap_damage.or_box (output_damage_t.get_damage_box st) else swap_damage) := by
    split
    · exact Finset.subset_union_left
    · exact Finset.Subset.refl _
  generalize (if st.post_effects.length ≠ 0 then
    swap_damage.or_box (output_damage_t.get_damage_box st) else swap_damage) = sd at hsub ⊢
  have h1 := frame_step_run_post_effects
    (frame_step_log (frame_step_refl st) (event.render_software_cursors sd) rfl)
  generalize postprocessing_manager_t.run_post_effects
    (st.log (event.render_software_cursors sd)) = s1 at h1 ⊢
  have h2 : impl.frame_step st (if s1.output_inhibit_counter ≠ 0 then
      s1.log (event.clear_output "inhibit") else s1) := by
    split
    · exact frame_step_log h1 _ rfl
    · exact h1
  generalize (if s1.output_inhibit_counter ≠ 0 then
      s1.log (event.clear_output "inhibit") else s1) = s2 at h2 ⊢
  have h3 := frame_step_log h2 event.unbind_output rfl
  generalize s2.log event.unbind_output = s3 at h3 ⊢
  have halive3 : s3.output_damage.damage_manager = true := h3.damage_manager.trans halive
  have hswap : output_damage_t.swap_buffers s3 sd =
      { s3 with
        output_damage := { s3.output_damage with frame_damage := ∅ },
        trace := s3.trace ++ [event.wlr_output_damage_swap_buffers sd] } := by
    unfold output_damage_t.swap_buffers
    simp [halive3, impl.log]
  rw [hswap]
  have h4 := frame_step_post_paint (frame_step_refl
    { s3 with
        output_damage := { s3.output_damage with frame_damage := ∅ },
        trace := s3.trace ++ [event.wlr_output_damage_swap_buffers sd] })
  obtain ⟨before, hb, hsb⟩ := h3.trace
  obtain ⟨after, ha, hsa⟩ := h4.trace
  refine ⟨before, after, sd, ?_, hsb, hsa, hsub, ?_, ?_⟩
  · rw [ha]
    dsimp only
    rw [hb]
  · rw [h4.output]
    exact h3.output
  · rw [h4.damage_manager]
    exact halive3

theorem damage_trace_alive (st : impl) (b : wlr_box)
    (halive : st.output_damage.damage_manager = true) :
    (output_damage_t.damage st b).trace =
      st.trace ++ [event.wlr_output_damage_add_box b, event.wlr_output_schedule_frame] := by
  unfold output_damage_t.damage output_damage_t.schedule_repaint impl.log
  simp only [halive, if_true]
  split <;> simp

theorem foldl_damage_call_apply_forwards (calls : List damage_call) (st : impl) (b : wlr_box)
    (halive : st.output_damage.damage_manager = true)
    (hb : damage_call.box b ∈ calls) :
    ∃ evs, (calls.foldl damage_call.apply st).trace = st.trace ++ evs ∧
      event.wlr_output_damage_add_box b ∈ evs := by
  induction calls generalizing st with
  | nil => simp at hb
  | cons c rest ih =>
    rw [List.foldl_cons]
    have hc := (damage_call_apply_frame st c).1
    rcases List.mem_cons.mp hb with h | h
    · subst h
      obtain ⟨evs, he, _⟩ := (frame_step_foldl_damage_call_apply rest
        (frame_step_refl (damage_call.apply st (damage_call.box b)))).trace
      refine ⟨[event.wlr_output_damage_add_box b, event.wlr_output_schedule_frame] ++ evs,
        ?_, by simp⟩
      rw [he]
      simp only [damage_call.apply]
      rw [damage_trace_alive st b halive, List.append_assoc]
    · obtain ⟨evs, he, hm⟩ := ih (damage_call.apply st c) (hc.damage_manager.trans halive) h
      obtain ⟨e0, he0, _⟩ := hc.trace
      refine ⟨e0 ++ evs, ?_, List.mem_append_right _ hm⟩
      rw [he, he0, List.append_assoc]

theorem frame_step_run_effects_requesting_fold (hooks : List Nat)
    (type : output_effect_type_t) (requests : Nat → List damage_call) {s0 st : impl}
    (h : impl.frame_step s0 st) :
    impl.frame_step s0 (hooks.foldl
      (fun s hook => (requests hook).foldl damage_call.apply
        (s.log (event.effect_hook type hook))) st) := by
  induction hooks generalizing st with
  | nil => exact h
  | cons hook rest ih =>
    rw [List.foldl_cons]
    exact ih (frame_step_foldl_damage_call_apply _ (frame_step_log h _ rfl))

theorem run_effects_requesting_forwards (hooks : List Nat) (type : output_effect_type_t)
    (requests : Nat → List damage_call) (st : impl) (hook : Nat) (b : wlr_box)
    (halive : st.output_damage.damage_manager = true)
    (hhook : hook ∈ hooks) (hb : damage_call.box b ∈ requests hook) :
    ∃ evs, (hooks.foldl
        (fun s h => (requests h).foldl damage_call.apply (s.log (event.effect_hook type h)))
        st).trace = st.trace ++ evs ∧
      event.wlr_output_damage_add_box b ∈ evs := by
  induction hooks generalizing st with
  | nil => simp at hhook
  | cons h rest ih =>
    rw [List.foldl_cons]
    have hstep : impl.frame_step st
        ((requests h).foldl damage_call.apply (st.log (event.effect_hook type h))) :=
      frame_step_foldl_damage_call_apply _ (frame_step_log (frame_step_refl st) _ rfl)
    rcases List.mem_cons.mp hhook with heq | hin
    · subst heq
      obtain ⟨evs, he, hm⟩ := foldl_damage_call_apply_forwards (requests hook)
        (st.log (event.effect_hook type hook)) b halive hb
      obtain ⟨e2, he2, _⟩ := (frame_step_run_effects_requesting_fold rest type requests
        (frame_step_refl ((requests hook).foldl damage_call.apply
          (st.log (event.effect_hook type hook))))).trace
      refine ⟨[event.effect_hook type hook] ++ evs ++ e2, ?_, ?_⟩
      · rw [he2, he, log_trace]
        simp only [List.append_assoc]
      · exact List.mem_append_left _ (List.mem_append_right _ hm)
    · obtain ⟨evs, he, hm⟩ := ih _ (hstep.damage_manager.trans halive) hin
      obtain ⟨e0, he0, _⟩ := hstep.trace
      refine ⟨e0 ++ evs, ?_, List.mem_append_right _ hm⟩
      rw [he, he0, List.append_assoc]

theorem paint_finalize_swap_regions {s0 st : impl} (h : impl.frame_step s0 st)
    (swap_damage : wf_region) :
    (swap_regions (impl.paint_finalize st swap_damage).trace).length ≤
      (swap_regions s0.trace).length + 1 := by
  cases hdm : st.output_damage.damage_manager
  · have hfs : impl.frame_step s0 (impl.paint_finalize st swap_damage) := by
      unfold impl.paint_finalize
      dsimp only
      generalize (if st.post_effects.length ≠ 0 then
        swap_damage.or_box (output_damage_t.get_damage_box st) else swap_damage) = sd
      have h1 := frame_step_run_post_effects
        (frame_step_log h (event.render_software_cursors sd) rfl)
      generalize postprocessing_manager_t.run_post_effects
        (st.log (event.render_software_cursors sd)) = s1 at h1 ⊢
      have h2 : impl.frame_step s0 (if s1.output_inhibit_counter ≠ 0 then
          s1.log (event.clear_output "inhibit") else s1) := by
        split
        · exact frame_step_log h1 _ rfl
        · exact h1
      generalize (if s1.output_inhibit_counter ≠ 0 then
          s1.log (event.clear_output "inhibit") else s1) = s2 at h2 ⊢
      have h3 := frame_step_log h2 event.unbind_output rfl
      have hd : (s2.log event.unbind_output).output_damage.damage_manager = false := by
        rw [h3.damage_manager, ← h.damage_manager]
        exact hdm
      rw [swap_buffers_dead _ sd hd]
      exact frame_step_post_paint h3
    rw [frame_step_swap_regions hfs]
    exact Nat.le_succ _
  · obtain ⟨before, after, swapped, htrace, hsb, hsa, _, _, _⟩ :=
      paint_finalize_trace st swap_damage hdm
    rw [htrace, swap_regions_append, swap_regions_append, swap_regions_append, hsb, hsa,
      frame_step_swap_regions h]
    simp [swap_regions]

theorem paint_swap_regions_length (st : impl) (backend : Option (Bool × wf_region)) :
    (swap_regions (impl.paint st backend).trace).length ≤
      (swap_regions st.trace).length + 1 := by
  rw [paint_eq_paint_with_overlay_damage, paint_with_overlay_damage_eq]
  have f3 := frame_step_make_current
    (frame_step_run_effects (frame_step_refl st) output_effect_type_t.OUTPUT_EFFECT_PRE)
    backend
  split
  · rw [frame_step_swap_regions f3]
    exact Nat.le_succ _
  · split
    · rw [frame_step_swap_regions (frame_step_post_paint f3)]
      exact Nat.le_succ _
    · exact paint_finalize_swap_regions
        (frame_step_run_effects_requesting
          (frame_step_render_output (frame_step_bind_output f3) ∅).1 _ _) _

/-! ## Claims on the frame protocol -/

/-- C11, counterexample: on a tracker whose backend primitive is gone
(`damage_manager` is null) and whose accumulated region is empty, `damage` of the
box (1, 1, 1, 1) still unites the box into `frame_damage`: the region returned
by `get_scheduled_damage` changes from empty to the pixel (1, 1). -/
theorem damage_after_destroy_accumulates :
    output_damage_t.get_scheduled_damage
        (output_damage_t.damage
          { scenario_impl 4 4 [] with
            output_damage :=
              { frame_damage := ∅, damage_manager := false, idle_redraw := false,
                idle_damage := false } }
          ⟨1, 1, 1, 1⟩) = {(1, 1)} ∧
      output_damage_t.get_scheduled_damage
        { scenario_impl 4 4 [] with
          output_damage :=
            { frame_damage := ∅, damage_manager := false, idle_redraw := false,
              idle_damage := false } } = ∅ := by
  decide

/-- C11, amended: once `damage_manager` is null, `make_current` returns false
and `swap_buffers` returns at once, both leaving the whole state as it was;
`damage(box)` and `damage(region)` make no backend call (they append only the
frame request of `schedule_repaint` to the trace) but still unite their argument
into the accumulated region. -/
theorem calls_after_destroy (st : impl) (h : st.output_damage.damage_manager = false)
    (b : wlr_box) (r swap_damage : wf_region) (backend : Option (Bool × wf_region)) :
    output_damage_t.make_current st backend = (false, false, st) ∧
      output_damage_t.swap_buffers st swap_damage = st ∧
      output_damage_t.get_scheduled_damage (output_damage_t.damage st b) =
        output_damage_t.get_scheduled_damage st ∪ b.pixels ∧
      output_damage_t.get_scheduled_damage (output_damage_t.damage_region st r) =
        output_damage_t.get_scheduled_damage st ∪ r ∧
      (output_damage_t.damage st b).trace = st.trace ++ [event.wlr_output_schedule_frame] ∧
      (output_damage_t.damage_region st r).trace =
        st.trace ++ [event.wlr_output_schedule_frame] :=
  ⟨make_current_dead st backend h, swap_buffers_dead st swap_damage h,
    damage_frame_damage st b, damage_region_frame_damage st r,
    damage_dead_trace st b h, damage_region_dead_trace st r h⟩

/-- C11, witness: the destroyed tracker of `scenario_impl_destroyed`, damaged
with the box (1, 1, 1, 1) and the region of pixel (1, 2). -/
theorem calls_after_destroy_witness :
    (scenario_impl_destroyed 4 4 []).output_damage.damage_manager = false ∧
      output_damage_t.make_current (scenario_impl_destroyed 4 4 []) (some (true, {(3, 3)})) =
        (false, false, scenario_impl_destroyed 4 4 []) ∧
      output_damage_t.swap_buffers (scenario_impl_destroyed 4 4 []) {(2, 2)} =
        scenario_impl_destroyed 4 4 [] ∧
      output_damage_t.get_scheduled_damage
          (output_damage_t.damage (scenario_impl_destroyed 4 4 []) ⟨1, 1, 1, 1⟩) =
        output_damage_t.get_scheduled_damage (scenario_impl_destroyed 4 4 []) ∪
          (wlr_box.mk 1 1 1 1).pixels ∧
      output_damage_t.get_scheduled_damage
          (output_damage_t.damage_region (scenario_impl_destroyed 4 4 []) {(1, 2)}) =
        output_damage_t.get_scheduled_damage (scenario_impl_destroyed 4 4 []) ∪ {(1, 2)} ∧
      (output_damage_t.damage (scenario_impl_destroyed 4 4 []) ⟨1, 1, 1, 1⟩).trace =
        (scenario_impl_destroyed 4 4 []).trace ++ [event.wlr_output_schedule_frame] ∧
      (output_damage_t.damage_region (scenario_impl_destroyed 4 4 []) {(1, 2)}).trace =
        (scenario_impl_destroyed 4 4 []).trace ++ [event.wlr_output_schedule_frame] :=
  ⟨rfl, calls_after_destroy (scenario_impl_destroyed 4 4 []) rfl ⟨1, 1, 1, 1⟩ {(1, 2)}
    {(2, 2)} (some (true, {(3, 3)}))⟩

/-- C12: when the backend primitive is gone or the backend call fails,
`make_current` returns false and leaves the accumulated region unchanged, and
`paint` returns the state it started from with only the PRE hooks (and the
attempted backend call, when there is a backend) added to the trace: no bind,
no render, no OVERLAY hook, no postprocessing, no swap and no POST hook. -/
theorem paint_aborts_when_make_current_fails (st : impl) (backend : Option (Bool × wf_region))
    (h : st.output_damage.damage_manager = false ∨ backend = none) :
    (output_damage_t.make_current st backend).1 = false ∧
      output_damage_t.get_scheduled_damage (output_damage_t.make_current st backend).2.2 =
        output_damage_t.get_scheduled_damage st ∧
      impl.paint st backend =
        { st with trace :=
            (st.trace ++
              (st.effects output_effect_type_t.OUTPUT_EFFECT_PRE).map
                (fun hook => event.effect_hook output_effect_type_t.OUTPUT_EFFECT_PRE hook) ++
              (if st.output_damage.damage_manager then
                [event.wlr_output_damage_make_current false] else [])) } := by
  unfold impl.paint
  dsimp only
  rw [run_effects_eq]
  unfold output_damage_t.make_current output_damage_t.get_scheduled_damage
  cases hdm : st.output_damage.damage_manager
  · simp
  · rcases h with h | h
    · rw [hdm] at h
      exact absurd h (by simp)
    · subst h
      simp [impl.log]

/-- C12, witness: a failing backend call on an output with hooks registered in
every phase; only the PRE hook and the failed call are traced. -/
theorem paint_aborts_when_make_current_fails_witness :
    ((scenario_impl_with_hooks 4 4 []).output_damage.damage_manager = false ∨
        (none : Option (Bool × wf_region)) = none) ∧
      (output_damage_t.make_current (scenario_impl_with_hooks 4 4 []) none).1 = false ∧
      output_damage_t.get_scheduled_damage
          (output_damage_t.make_current (scenario_impl_with_hooks 4 4 []) none).2.2 =
        output_damage_t.get_scheduled_damage (scenario_impl_with_hooks 4 4 []) ∧
      impl.paint (scenario_impl_with_hooks 4 4 []) none =
        { scenario_impl_with_hooks 4 4 [] with
          trace :=
            [event.effect_hook output_effect_type_t.OUTPUT_EFFECT_PRE 1,
             event.wlr_output_damage_make_current false] } :=
  ⟨Or.inr rfl,
    paint_aborts_when_make_current_fails (scenario_impl_with_hooks 4 4 []) none (Or.inr rfl)⟩

/-- C13: on a tracker whose backend primitive is alive, `get_scheduled_damage`
is empty after `swap_buffers`, for every accumulated region and every region
argument. -/
theorem swap_buffers_clears (st : impl) (swap_damage : wf_region)
    (h : st.output_damage.damage_manager = true) :
    output_damage_t.get_scheduled_damage (output_damage_t.swap_buffers st swap_damage) = ∅ := by
  unfold output_damage_t.swap_buffers output_damage_t.get_scheduled_damage
  simp [h]

/-- C13, witness: a live tracker holding the damage of the box (1, 1, 2, 2). -/
theorem swap_buffers_clears_witness :
    (output_damage_t.damage (scenario_impl 4 4 []) ⟨1, 1, 2, 2⟩).output_damage.damage_manager =
        true ∧
      output_damage_t.get_scheduled_damage
          (output_damage_t.swap_buffers
            (output_damage_t.damage (scenario_impl 4 4 []) ⟨1, 1, 2, 2⟩) {(1, 1)}) = ∅ :=
  ⟨rfl, swap_buffers_clears _ {(1, 1)} rfl⟩

/-- C14, counterexample: an OVERLAY hook damages the box (1, 1, 1, 1) during a
rendered frame; when `paint` returns, that is when the following frame begins,
the accumulated region is empty and does not contain the box. -/
theorem overlay_damage_cleared_by_swap :
    output_damage_t.get_scheduled_damage
        (impl.paint_with_overlay_damage
          { scenario_impl 4 4 [] with
            effects := fun type =>
              if type = output_effect_type_t.OUTPUT_EFFECT_OVERLAY then [5] else [] }
          (some (true, ∅))
          (fun hook => if hook = 5 then [damage_call.box ⟨1, 1, 1, 1⟩] else [])) = ∅ ∧
      ¬ ((wlr_box.mk 1 1 1 1).pixels ⊆
        output_damage_t.get_scheduled_damage
          (impl.paint_with_overlay_damage
            { scenario_impl 4 4 [] with
              effects := fun type =>
                if type = output_effect_type_t.OUTPUT_EFFECT_OVERLAY then [5] else [] }
            (some (true, ∅))
            (fun hook => if hook = 5 then [damage_call.box ⟨1, 1, 1, 1⟩] else []))) := by
  decide

/-- C14, amended: a `damage(box)` request of an OVERLAY hook in a rendered frame
is forwarded to the backend (`wlr_output_damage_add_box`) before the single
`swap_buffers` of that frame, but `swap_buffers` clears the accumulated region:
it is empty when `paint` returns, and after the following `make_current` it is
exactly what the backend reports (united with the output box under
`no_damage_track`). -/
theorem overlay_damage_forwarded_not_kept (st : impl) (need_swap : Bool)
    (tmp_region : wf_region) (requests : Nat → List damage_call) (hook : Nat) (b : wlr_box)
    (halive : st.output_damage.damage_manager = true)
    (hrender : need_swap = true ∨ st.constant_redraw_counter ≠ 0)
    (hhook : hook ∈ st.effects output_effect_type_t.OUTPUT_EFFECT_OVERLAY)
    (hb : damage_call.box b ∈ requests hook) :
    (∃ (before after : List event) (swapped : wf_region),
      (impl.paint_with_overlay_damage st (some (need_swap, tmp_region)) requests).trace =
          st.trace ++ before ++ [event.wlr_output_damage_swap_buffers swapped] ++ after ∧
        event.wlr_output_damage_add_box b ∈ before ∧
        swap_regions before = [] ∧ swap_regions after = []) ∧
      output_damage_t.get_scheduled_damage
        (impl.paint_with_overlay_damage st (some (need_swap, tmp_region)) requests) = ∅ ∧
      ∀ (next_swap : Bool) (next_region : wf_region),
        output_damage_t.get_scheduled_damage
            (output_damage_t.make_current
              (impl.paint_with_overlay_damage st (some (need_swap, tmp_region)) requests)
              (some (next_swap, next_region))).2.2 =
          if st.output.no_damage_track then
            next_region ∪ (output_damage_t.get_damage_box st).pixels
          else next_region := by
  obtain ⟨s5, s6, sd, n, hpaint, hs6, f5, f6, _⟩ :=
    paint_with_overlay_damage_rendered st need_swap tmp_region requests halive hrender
  obtain ⟨before, after, swapped, htrace, hsb, hsa, _, hout, hdm⟩ :=
    paint_finalize_trace s6 sd (f6.damage_manager.trans halive)
  have hfd := (paint_finalize_phases s6 sd (f6.damage_manager.trans halive)).2
  obtain ⟨e5, he5, hs5⟩ := f5.trace
  obtain ⟨eov, heov, hmem⟩ := run_effects_requesting_forwards
    (s5.effects output_effect_type_t.OUTPUT_EFFECT_OVERLAY)
    output_effect_type_t.OUTPUT_EFFECT_OVERLAY requests s5 hook b
    (f5.damage_manager.trans halive) (by rw [f5.effects]; exact hhook) hb
  have hs6t : s6.trace = s5.trace ++ eov := by
    rw [hs6]
    exact heov
  have hsov : swap_regions eov = [] := by
    obtain ⟨e6, he6, hs6'⟩ := f6.trace
    have : e6 = e5 ++ eov := by
      have h1 : st.trace ++ e6 = st.trace ++ (e5 ++ eov) := by
        rw [← he6, hs6t, he5, List.append_assoc]
      exact List.append_cancel_left h1
    rw [this, swap_regions_append, hs5] at hs6'
    simpa using hs6'
  rw [hpaint]
  refine ⟨⟨e5 ++ eov ++ before, after, swapped, ?_, ?_, ?_, hsa⟩, hfd, ?_⟩
  · rw [htrace, hs6t, he5]
    simp only [List.append_assoc]
  · exact List.mem_append_left _ (List.mem_append_right _ hmem)
  · rw [swap_regions_append, swap_regions_append, hs5, hsov, hsb]
    rfl
  · intro next_swap next_region
    rw [make_current_eq _ _ _ hdm]
    unfold output_damage_t.get_scheduled_damage output_damage_t.get_damage_box
    dsimp only
    rw [hfd, hout, f6.output]
    split
    · simp [wf_region.or_region, wf_region.or_box]
    · simp [wf_region.or_region]

/-- C14, witness: OVERLAY hook 2 of `scenario_impl_with_hooks` damages the box
(1, 1, 1, 1). -/
theorem overlay_damage_forwarded_not_kept_witness :
    (scenario_impl_with_hooks 4 4 []).output_damage.damage_manager = true ∧
      2 ∈ (scenario_impl_with_hooks 4 4 []).effects output_effect_type_t.OUTPUT_EFFECT_OVERLAY ∧
      (∃ (before after : List event) (swapped : wf_region),
        (impl.paint_with_overlay_damage (scenario_impl_with_hooks 4 4 [])
            (some (true, ∅))
            (fun hook => if hook = 2 then [damage_call.box ⟨1, 1, 1, 1⟩] else [])).trace =
          (scenario_impl_with_hooks 4 4 []).trace ++ before ++
            [event.wlr_output_damage_swap_buffers swapped] ++ after ∧
        event.wlr_output_damage_add_box ⟨1, 1, 1, 1⟩ ∈ before ∧
        swap_regions before = [] ∧ swap_regions after = []) ∧
      output_damage_t.get_scheduled_damage
        (impl.paint_with_overlay_damage (scenario_impl_with_hooks 4 4 [])
          (some (true, ∅))
          (fun hook => if hook = 2 then [damage_call.box ⟨1, 1, 1, 1⟩] else [])) = ∅ :=
  ⟨rfl, by decide,
    (overlay_damage_forwarded_not_kept (scenario_impl_with_hooks 4 4 []) true ∅
      (fun hook => if hook = 2 then [damage_call.box ⟨1, 1, 1, 1⟩] else []) 2 ⟨1, 1, 1, 1⟩
      rfl (Or.inl rfl) (by decide) (by simp)).1,
    (overlay_damage_forwarded_not_kept (scenario_impl_with_hooks 4 4 []) true ∅
      (fun hook => if hook = 2 then [damage_call.box ⟨1, 1, 1, 1⟩] else []) 2 ⟨1, 1, 1, 1⟩
      rfl (Or.inl rfl) (by decide) (by simp)).2.1⟩

/-- C15: `make_current` never removes damage, and whenever it returns true the
backend answered, the second component is the backend's `need_swap`, and the
accumulated region afterwards contains the region accumulated before united with
the damage the backend reported. -/
theorem make_current_keeps_damage (st : impl) (backend : Option (Bool × wf_region)) :
    output_damage_t.get_scheduled_damage st ⊆
        output_damage_t.get_scheduled_damage (output_damage_t.make_current st backend).2.2 ∧
      ((output_damage_t.make_current st backend).1 = true →
        ∃ need_swap tmp_region, backend = some (need_swap, tmp_region) ∧
          (output_damage_t.make_current st backend).2.1 = need_swap ∧
          output_damage_t.get_scheduled_damage st ∪ tmp_region ⊆
            output_damage_t.get_scheduled_damage
              (output_damage_t.make_current st backend).2.2) := by
  refine ⟨(frame_step_make_current (frame_step_refl st) backend).frame_damage, ?_⟩
  intro hok
  unfold output_damage_t.make_current at hok ⊢
  unfold output_damage_t.get_scheduled_damage
  by_cases hdm : st.output_damage.damage_manager = true
  · simp only [hdm, Bool.not_true, Bool.false_eq_true, if_false] at hok ⊢
    cases backend with
    | none => simp at hok
    | some p =>
      obtain ⟨need_swap, tmp_region⟩ := p
      refine ⟨need_swap, tmp_region, rfl, ?_, ?_⟩
      · dsimp only
      · dsimp only
        split
        · exact Finset.subset_union_left
        · exact Finset.Subset.refl _
  · simp [hdm] at hok

/-- C15, witness: the box (1, 1, 1, 1) damaged before the frame and the pixel
(2, 2) reported by the backend. -/
theorem make_current_keeps_damage_witness :
    (output_damage_t.make_current
        (output_damage_t.damage (scenario_impl 4 4 []) ⟨1, 1, 1, 1⟩)
        (some (true, {(2, 2)}))).1 = true ∧
      ∃ need_swap tmp_region,
        some (true, ({(2, 2)} : wf_region)) = some (need_swap, tmp_region) ∧
          (output_damage_t.make_current
            (output_damage_t.damage (scenario_impl 4 4 []) ⟨1, 1, 1, 1⟩)
            (some (true, {(2, 2)}))).2.1 = need_swap ∧
          output_damage_t.get_scheduled_damage
              (output_damage_t.damage (scenario_impl 4 4 []) ⟨1, 1, 1, 1⟩) ∪ tmp_region ⊆
            output_damage_t.get_scheduled_damage
              (output_damage_t.make_current
                (output_damage_t.damage (scenario_impl 4 4 []) ⟨1, 1, 1, 1⟩)
                (some (true, {(2, 2)}))).2.2 :=
  ⟨rfl, (make_current_keeps_damage
    (output_damage_t.damage (scenario_impl 4 4 []) ⟨1, 1, 1, 1⟩)
    (some (true, {(2, 2)}))).2 rfl⟩

/-- C16: when `make_current` succeeds with no swap needed and
`constant_redraw_counter` is 0, the trace of `paint` is the PRE hooks, the
backend call, the POST hooks and the frame-done notifications of the visible
surfaces, nothing else (no bind, render, OVERLAY hook, postprocessing or swap),
and the accumulated damage is kept. -/
theorem paint_skips_undamaged_frame (st : impl) (tmp_region : wf_region)
    (halive : st.output_damage.damage_manager = true)
    (hcounter : st.constant_redraw_counter = 0) :
    (impl.paint st (some (false, tmp_region))).trace =
        st.trace ++
          (st.effects output_effect_type_t.OUTPUT_EFFECT_PRE).map
            (fun hook => event.effect_hook output_effect_type_t.OUTPUT_EFFECT_PRE hook) ++
          [event.wlr_output_damage_make_current true] ++
          (st.effects output_effect_type_t.OUTPUT_EFFECT_POST).map
            (fun hook => event.effect_hook output_effect_type_t.OUTPUT_EFFECT_POST hook) ++
          frame_done_events (impl.frame_done_views st) ∧
      output_damage_t.get_scheduled_damage st ∪ tmp_region ⊆
        output_damage_t.get_scheduled_damage (impl.paint st (some (false, tmp_region))) := by
  have hs1 := run_effects_eq st output_effect_type_t.OUTPUT_EFFECT_PRE
  have hmc := make_current_eq
    (effect_hook_manager_t.run_effects st output_effect_type_t.OUTPUT_EFFECT_PRE)
    false tmp_region (by rw [hs1]; exact halive)
  unfold impl.paint
  dsimp only
  rw [hmc]
  have hc : (effect_hook_manager_t.run_effects st
      output_effect_type_t.OUTPUT_EFFECT_PRE).constant_redraw_counter = 0 := by
    rw [hs1]; exact hcounter
  simp only [Bool.not_true, Bool.false_eq_true, if_false, Bool.not_false, Bool.true_and,
    hc, decide_True, if_true]
  constructor
  · rw [post_paint_trace]
    dsimp only
    rw [hs1]
    simp [hcounter, impl.frame_done_views]
  · unfold output_damage_t.get_scheduled_damage
    rw [post_paint_frame_damage]
    dsimp only
    rw [hs1]
    dsimp only
    split
    · exact Finset.subset_union_left
    · exact Finset.Subset.refl _

/-- C16, witness: an undamaged frame on an output with one mapped view and hooks
in every phase. -/
theorem paint_skips_undamaged_frame_witness :
    (scenario_impl_with_hooks 4 4 [scenario_view 7 ⟨0, 0, 2, 2⟩ 1000 true]
        ).output_damage.damage_manager = true ∧
      (scenario_impl_with_hooks 4 4 [scenario_view 7 ⟨0, 0, 2, 2⟩ 1000 true]
        ).constant_redraw_counter = 0 ∧
      (impl.paint (scenario_impl_with_hooks 4 4 [scenario_view 7 ⟨0, 0, 2, 2⟩ 1000 true])
          (some (false, {(1, 1)}))).trace =
        [event.effect_hook output_effect_type_t.OUTPUT_EFFECT_PRE 1,
         event.wlr_output_damage_make_current true,
         event.effect_hook output_effect_type_t.OUTPUT_EFFECT_POST 4,
         event.send_frame_done 7] ∧
      output_damage_t.get_scheduled_damage
          (scenario_impl_with_hooks 4 4 [scenario_view 7 ⟨0, 0, 2, 2⟩ 1000 true]) ∪ {(1, 1)} ⊆
        output_damage_t.get_scheduled_damage
          (impl.paint (scenario_impl_with_hooks 4 4 [scenario_view 7 ⟨0, 0, 2, 2⟩ 1000 true])
            (some (false, {(1, 1)}))) :=
  ⟨rfl, rfl,
    paint_skips_undamaged_frame
      (scenario_impl_with_hooks 4 4 [scenario_view 7 ⟨0, 0, 2, 2⟩ 1000 true]) {(1, 1)} rfl rfl⟩

/-- C17: `paint` calls `swap_buffers` at most once, and the phases of a rendered
frame are, in this order: the PRE hooks, `make_current`, the output bind, the
render, the OVERLAY hooks, the postprocessing hooks, the swap, the POST hooks. -/
theorem paint_phase_order (st : impl) (backend : Option (Bool × wf_region)) :
    (swap_regions (impl.paint st backend).trace).length ≤
        (swap_regions st.trace).length + 1 ∧
      ∀ (need_swap : Bool) (tmp_region : wf_region),
        backend = some (need_swap, tmp_region) →
        st.output_damage.damage_manager = true →
        (need_swap = true ∨ st.constant_redraw_counter ≠ 0) →
        ∃ n : Nat,
          phases (impl.paint st backend).trace =
            phases st.trace ++
              List.replicate (st.effects output_effect_type_t.OUTPUT_EFFECT_PRE).length
                frame_phase.PRE_HOOKS ++
              [frame_phase.MAKE_CURRENT, frame_phase.BIND] ++
              List.replicate n frame_phase.RENDER ++
              List.replicate (st.effects output_effect_type_t.OUTPUT_EFFECT_OVERLAY).length
                frame_phase.OVERLAY_HOOKS ++
              List.replicate st.post_effects.length frame_phase.POSTPROCESSING ++
              [frame_phase.SWAP] ++
              List.replicate (st.effects output_effect_type_t.OUTPUT_EFFECT_POST).length
                frame_phase.POST_HOOKS := by
  refine ⟨paint_swap_regions_length st backend, ?_⟩
  intro need_swap tmp_region hb halive hrender
  subst hb
  rw [paint_eq_paint_with_overlay_damage]
  exact (paint_with_overlay_damage_phases st need_swap tmp_region (fun _ => [])
    halive hrender).1

/-- C17, witness: a rendered frame on an output with one PRE hook, two OVERLAY
hooks, one postprocessing hook and one POST hook. -/
theorem paint_phase_order_witness :
    (scenario_impl_with_hooks 4 4 [scenario_view 7 ⟨0, 0, 2, 2⟩ 1000 true]
        ).output_damage.damage_manager = true ∧
      ∃ n : Nat,
        phases (impl.paint
            (scenario_impl_with_hooks 4 4 [scenario_view 7 ⟨0, 0, 2, 2⟩ 1000 true])
            (some (true, {(1, 1)}))).trace =
          [frame_phase.PRE_HOOKS, frame_phase.MAKE_CURRENT, frame_phase.BIND] ++
            List.replicate n frame_phase.RENDER ++
            [frame_phase.OVERLAY_HOOKS, frame_phase.OVERLAY_HOOKS, frame_phase.POSTPROCESSING,
             frame_phase.SWAP, frame_phase.POST_HOOKS] :=
  ⟨rfl, by
    obtain ⟨n, hn⟩ := (paint_phase_order
      (scenario_impl_with_hooks 4 4 [scenario_view 7 ⟨0, 0, 2, 2⟩ 1000 true])
      (some (true, {(1, 1)}))).2 true {(1, 1)} rfl rfl (Or.inl rfl)
    exact ⟨n, by simpa [scenario_impl_with_hooks, scenario_impl, phases] using hn⟩⟩

/-- C18: after any sequence of `add_effect` registrations, `run_effects` of a
phase invokes the hooks already in that phase's list followed by the hooks
registered under that phase, once per registration and in registration order,
and no hook registered under another phase. -/
theorem run_effects_registration_order (st : impl)
    (regs : List (Nat × output_effect_type_t)) (type : output_effect_type_t) :
    (effect_hook_manager_t.run_effects
        (regs.foldl (fun s r => effect_hook_manager_t.add_effect s r.1 r.2) st) type).trace =
      st.trace ++
        (st.effects type ++ (regs.filter (fun r => r.2 = type)).map Prod.fst).map
          (fun hook => event.effect_hook type hook) := by
  rw [run_effects_trace, foldl_add_effect_effects, foldl_add_effect_trace]

/-- C19: `rem_effect` of a hook registered in no phase changes no phase list;
applying it twice equals applying it once; afterwards the hook is in no phase
list, every list is a sublist of the one before (relative order preserved), and
every other hook occurs as often as before. -/
theorem rem_effect_removes (st : impl) (hook : Nat) :
    ((∀ type, hook ∉ st.effects type) →
        ∀ type, (effect_hook_manager_t.rem_effect st hook).effects type = st.effects type) ∧
      (∀ type,
        (effect_hook_manager_t.rem_effect
            (effect_hook_manager_t.rem_effect st hook) hook).effects type =
          (effect_hook_manager_t.rem_effect st hook).effects type) ∧
      (∀ type, hook ∉ (effect_hook_manager_t.rem_effect st hook).effects type) ∧
      (∀ type,
        List.Sublist ((effect_hook_manager_t.rem_effect st hook).effects type)
          (st.effects type)) ∧
      (∀ type other, other ≠ hook →
        ((effect_hook_manager_t.rem_effect st hook).effects type).count other =
          (st.effects type).count other) := by
  unfold effect_hook_manager_t.rem_effect
  refine ⟨?_, ?_, ?_, ?_, ?_⟩
  · intro h type
    dsimp only
    rw [List.filter_eq_self]
    intro a ha
    have : a ≠ hook := fun e => h type (e ▸ ha)
    simpa using this
  · intro type
    dsimp only
    rw [List.filter_filter]
    simp
  · intro type
    dsimp only
    simp [List.mem_filter]
  · intro type
    exact List.filter_sublist _
  · intro type other hne
    dsimp only
    rw [List.count_filter]
    simpa using hne

/-- C19, witness: removing the unregistered hook 8 changes nothing, and removing
hook 2 from the OVERLAY list [2, 3] leaves [3]. -/
theorem rem_effect_removes_witness :
    (∀ type, 8 ∉ (scenario_impl_with_hooks 4 4 []).effects type) ∧
      (∀ type,
        (effect_hook_manager_t.rem_effect (scenario_impl_with_hooks 4 4 []) 8).effects type =
          (scenario_impl_with_hooks 4 4 []).effects type) ∧
      (effect_hook_manager_t.rem_effect (scenario_impl_with_hooks 4 4 []) 2).effects
          output_effect_type_t.OUTPUT_EFFECT_OVERLAY = [3] :=
  ⟨fun type => by cases type <;> decide,
    (rem_effect_removes (scenario_impl_with_hooks 4 4 []) 8).1
      (fun type => by cases type <;> decide), by decide⟩

/-- C20: `workspace_stream_start` sets `running` and both scales of the stream
to 1 and touches no other stream; it is the update of that stream after damaging
the whole box of its workspace, and the workspace damage that update computes is
the rectangle (0, 0, w, h) whatever was accumulated before.
`workspace_stream_stop` only clears `running` of that stream. -/
theorem workspace_stream_start_stop (st : impl) (ws : Int × Int) :
    (impl.workspace_stream_start st ws).default_streams ws =
        { st.default_streams ws with running := true, scale_x := 1, scale_y := 1 } ∧
      (∀ other, other ≠ ws →
        (impl.workspace_stream_start st ws).default_streams other = st.default_streams other) ∧
      impl.workspace_stream_start st ws =
        impl.workspace_stream_update
          (output_damage_t.damage
            { st with default_streams := fun c =>
                if c = ws then
                  { st.default_streams ws with running := true, scale_x := 1, scale_y := 1 }
                else st.default_streams c }
            (output_damage_t.get_ws_box st (st.default_streams ws).ws))
          { st.default_streams ws with running := true, scale_x := 1, scale_y := 1 } ∧
      (impl.calculate_repaint_for_stream
          (output_damage_t.damage
            { st with default_streams := fun c =>
                if c = ws then
                  { st.default_streams ws with running := true, scale_x := 1, scale_y := 1 }
                else st.default_streams c }
            (output_damage_t.get_ws_box st (st.default_streams ws).ws))
          { st.default_streams ws with running := true, scale_x := 1, scale_y := 1 }).2.ws_damage =
        (wlr_box.mk 0 0 st.output.transformed_width st.output.transformed_height).pixels ∧
      (impl.workspace_stream_stop st ws).default_streams ws =
        { st.default_streams ws with running := false } ∧
      (∀ other, other ≠ ws →
        (impl.workspace_stream_stop st ws).default_streams other = st.default_streams other) ∧
      impl.workspace_stream_stop st ws =
        { st with default_streams := (impl.workspace_stream_stop st ws).default_streams } := by
  have hstart : impl.workspace_stream_start st ws =
      impl.workspace_stream_update
        (output_damage_t.damage
          { st with default_streams := fun c =>
              if c = ws then
                { st.default_streams ws with running := true, scale_x := 1, scale_y := 1 }
              else st.default_streams c }
          (output_damage_t.get_ws_box st (st.default_streams ws).ws))
        { st.default_streams ws with running := true, scale_x := 1, scale_y := 1 } := rfl
  have hstreams : (impl.workspace_stream_start st ws).default_streams = fun c =>
      if c = ws then
        { st.default_streams ws with running := true, scale_x := 1, scale_y := 1 }
      else st.default_streams c := by
    rw [hstart]
    have h1 := log_only_workspace_stream_update (log_only_refl
      (output_damage_t.damage
          { st with default_streams := fun c =>
              if c = ws then
                { st.default_streams ws with running := true, scale_x := 1, scale_y := 1 }
              else st.default_streams c }
          (output_damage_t.get_ws_box st (st.default_streams ws).ws)))
      { st.default_streams ws with running := true, scale_x := 1, scale_y := 1 }
    unfold impl.log_only at h1
    rw [h1]
    dsimp only
    unfold output_damage_t.damage output_damage_t.schedule_repaint impl.log
    dsimp only
    split <;> split <;> rfl
  refine ⟨?_, ?_, hstart, ?_, ?_, ?_, rfl⟩
  · rw [hstreams]
    simp
  · intro other hne
    rw [hstreams]
    simp [hne]
  · unfold impl.calculate_repaint_for_stream
    dsimp only
    have hd := get_ws_damage_after_damage
      { st with default_streams := fun c =>
          if c = ws then
            { st.default_streams ws with running := true, scale_x := 1, scale_y := 1 }
          else st.default_streams c } (st.default_streams ws).ws
    split <;> exact hd
  · simp [impl.workspace_stream_stop]
  · intro other hne
    simp [impl.workspace_stream_stop, hne]

/-- C20, witness: starting the stream of workspace (0, 0) leaves the stream of
workspace (1, 0) as it was. -/
theorem workspace_stream_start_stop_witness :
    ((1, 0) : Int × Int) ≠ (0, 0) ∧
      (impl.workspace_stream_start (scenario_impl 4 4 []) (0, 0)).default_streams (1, 0) =
        (scenario_impl 4 4 []).default_streams (1, 0) :=
  ⟨by decide,
    (workspace_stream_start_stop (scenario_impl 4 4 []) (0, 0)).2.1 (1, 0) (by decide)⟩

/-! ## Lemmas on the default streams -/

theorem damage_keeps_streams (st : impl) (b : wlr_box) :
    (output_damage_t.damage st b).default_streams = st.default_streams ∧
      (output_damage_t.damage st b).current_ws_stream = st.current_ws_stream ∧
      (output_damage_t.damage st b).output = st.output := by
  unfold output_damage_t.damage output_damage_t.schedule_repaint impl.log
  dsimp only
  split <;> split <;> exact ⟨rfl, rfl, rfl⟩

theorem workspace_stream_update_keeps_state (st : impl) (stream : workspace_stream_t) :
    impl.workspace_stream_update st stream =
      { st with trace := (impl.workspace_stream_update st stream).trace } :=
  log_only_workspace_stream_update (log_only_refl st) stream

theorem workspace_stream_start_streams (st : impl) (ws : Int × Int) :
    (impl.workspace_stream_start st ws).default_streams =
        (fun c =>
          if c = ws then
            { st.default_streams ws with running := true, scale_x := 1, scale_y := 1 }
          else st.default_streams c) ∧
      (impl.workspace_stream_start st ws).current_ws_stream = st.current_ws_stream ∧
      (impl.workspace_stream_start st ws).output = st.output := by
  unfold impl.workspace_stream_start
  dsimp only
  rw [workspace_stream_update_keeps_state]
  dsimp only
  have h := damage_keeps_streams
    { st with default_streams := fun c =>
        if c = ws then
          { st.default_streams ws with running := true, scale_x := 1, scale_y := 1 }
        else st.default_streams c }
    (output_damage_t.get_ws_box
      { st with default_streams := fun c =>
        if c = ws then
          { st.default_streams ws with running := true, scale_x := 1, scale_y := 1 }
        else st.default_streams c }
      (st.default_streams ws).ws)
  exact h

/-- The state in which `default_renderer` looks at the streams: the state it
is called in, after the clear of `damage_debug`. -/
theorem default_renderer_same_stream (st : impl) (swap_damage : wf_region)
    (h : st.current_ws_stream = some st.output.current_workspace) :
    (impl.default_renderer st swap_damage).1 =
      impl.workspace_stream_update
        (if st.output.damage_debug then st.log (event.clear_output "damage_debug") else st)
        (st.default_streams st.output.current_workspace) := by
  unfold impl.default_renderer
  cases hd : st.output.damage_debug
  · simp only [Bool.false_eq_true, if_false]
    rw [if_neg (by rw [h]; exact fun hne => hne rfl)]
    try rfl
  · simp only [if_true]
    have h2 : (st.log (event.clear_output "damage_debug")).current_ws_stream =
        some (st.log (event.clear_output "damage_debug")).output.current_workspace := h
    rw [if_neg (by rw [h2]; exact fun hne => hne rfl)]
    try rfl

theorem default_renderer_other_stream (st : impl) (swap_damage : wf_region)
    (h : st.current_ws_stream ≠ some st.output.current_workspace) :
    (impl.default_renderer st swap_damage).1 =
      impl.workspace_stream_start
        { (match st.current_ws_stream with
            | some current =>
              impl.workspace_stream_stop
                (if st.output.damage_debug then st.log (event.clear_output "damage_debug")
                  else st) current
            | none =>
              (if st.output.damage_debug then st.log (event.clear_output "damage_debug")
                else st)) with
          current_ws_stream := some st.output.current_workspace }
        st.output.current_workspace := by
  unfold impl.default_renderer
  cases hd : st.output.damage_debug
  · simp only [Bool.false_eq_true, if_false]
    rw [if_pos h]
    try rfl
  · simp only [if_true]
    have h2 : (st.log (event.clear_output "damage_debug")).current_ws_stream ≠
        some (st.log (event.clear_output "damage_debug")).output.current_workspace := h
    rw [if_pos h2]
    try rfl

theorem default_renderer_streams (st : impl) (swap_damage : wf_region) :
    (impl.default_renderer st swap_damage).1.current_ws_stream =
        some st.output.current_workspace ∧
      (impl.default_renderer st swap_damage).1.output = st.output ∧
      (impl.default_renderer st swap_damage).1.default_streams =
        (if st.current_ws_stream = some st.output.current_workspace then st.default_streams
          else fun c =>
            if c = st.output.current_workspace then
              { (if st.current_ws_stream = some c then
                    { st.default_streams c with running := false }
                  else st.default_streams c) with
                running := true, scale_x := 1, scale_y := 1 }
            else if st.current_ws_stream = some c then
              { st.default_streams c with running := false }
            else st.default_streams c) := by
  by_cases h : st.current_ws_stream = some st.output.current_workspace
  · rw [default_renderer_same_stream st swap_damage h, workspace_stream_update_keeps_state,
      if_pos h]
    dsimp only
    cases st.output.damage_debug
    · exact ⟨h, rfl, rfl⟩
    · exact ⟨h, rfl, rfl⟩
  · rw [default_renderer_other_stream st swap_damage h, if_neg h,
      (workspace_stream_start_streams _ _).1, (workspace_stream_start_streams _ _).2.1,
      (workspace_stream_start_streams _ _).2.2]
    refine ⟨rfl, ?_, ?_⟩
    · cases st.current_ws_stream <;> cases st.output.damage_debug <;> rfl
    · funext c
      cases hc : st.current_ws_stream with
      | none =>
        by_cases h1 : c = st.output.current_workspace
        · subst h1
          cases st.output.damage_debug <;> simp [impl.log]
        · cases st.output.damage_debug <;> simp [h1, impl.log]
      | some current =>
        have hne : current ≠ st.output.current_workspace := by
          intro he
          apply h
          rw [hc, he]
        by_cases h2 : c = current
        · subst h2
          cases st.output.damage_debug <;>
            simp [impl.workspace_stream_stop, impl.log, hne]
        · have h2b : current ≠ c := fun e => h2 e.symm
          by_cases h1 : c = st.output.current_workspace
          · subst h1
            cases st.output.damage_debug <;>
              simp [impl.workspace_stream_stop, impl.log, h2, h2b]
          · cases st.output.damage_debug <;>
              simp [impl.workspace_stream_stop, impl.log, h1, h2, h2b]

theorem default_renderer_start_state (st : impl) (swap_damage : wf_region)
    (h : st.current_ws_stream ≠ some st.output.current_workspace) :
    ∃ s : impl,
      (impl.default_renderer st swap_damage).1 =
          impl.workspace_stream_start s st.output.current_workspace ∧
        s.output = st.output ∧
        s.output_damage = st.output_damage ∧
        s.default_streams st.output.current_workspace =
          st.default_streams st.output.current_workspace := by
  refine ⟨_, default_renderer_other_stream st swap_damage h, ?_, ?_, ?_⟩
  · cases st.current_ws_stream <;> cases st.output.damage_debug <;> rfl
  · cases st.current_ws_stream <;> cases st.output.damage_debug <;> rfl
  · cases hc : st.current_ws_stream with
    | none => cases st.output.damage_debug <;> rfl
    | some current =>
      have hne : st.output.current_workspace ≠ current := by
        intro he
        apply h
        rw [hc, he]
      cases st.output.damage_debug <;> simp [impl.workspace_stream_stop, impl.log, hne]

theorem default_renderer_running (st : impl) (swap_damage : wf_region)
    (hinv : ∀ c, (st.default_streams c).running = true ↔ st.current_ws_stream = some c) :
    ∀ c, ((impl.default_renderer st swap_damage).1.default_streams c).running = true ↔
      c = st.output.current_workspace := by
  intro c
  rw [(default_renderer_streams st swap_damage).2.2]
  by_cases h : st.current_ws_stream = some st.output.current_workspace
  · rw [if_pos h, hinv c, h]
    constructor
    · intro he
      exact (Option.some.inj he).symm
    · intro he
      rw [he]
  · rw [if_neg h]
    dsimp only
    by_cases h1 : c = st.output.current_workspace
    · simp [h1]
    · rw [if_neg h1]
      by_cases h2 : st.current_ws_stream = some c
      · simp [h2, h1]
      · rw [if_neg h2]
        simp [h1, hinv c, h2]

theorem foldl_stream_step_running (pre : List stream_step) (st : impl)
    (hinv : ∀ c, (st.default_streams c).running = true ↔ st.current_ws_stream = some c) :
    ∀ c, ((pre.foldl stream_step.apply st).default_streams c).running = true ↔
      (pre.foldl stream_step.apply st).current_ws_stream = some c := by
  induction pre generalizing st with
  | nil => exact hinv
  | cons step rest ih =>
    rw [List.foldl_cons]
    apply ih
    cases step with
    | environment output => exact hinv
    | default_renderer swap_damage =>
      intro c
      have h := default_renderer_running st swap_damage hinv c
      have hcur := (default_renderer_streams st swap_damage).1
      simp only [stream_step.apply]
      rw [h, hcur]
      constructor
      · intro he
        rw [he]
      · intro he
        exact (Option.some.inj he).symm

theorem calculate_repaint_after_damage (s : impl) (stream : workspace_stream_t) :
    (impl.calculate_repaint_for_stream
        (output_damage_t.damage s (output_damage_t.get_ws_box s stream.ws)) stream).2.ws_damage =
      (wlr_box.mk 0 0 s.output.transformed_width s.output.transformed_height).pixels := by
  unfold impl.calculate_repaint_for_stream
  dsimp only
  split <;> exact get_ws_damage_after_damage s stream.ws

/-! ## Lemmas on whole-output damage -/

theorem int32_wrap_of_range (n : Int) (hlo : -2147483648 ≤ n) (hhi : n < 2147483648) :
    int32_wrap n = n := by
  unfold int32_wrap
  omega

/-- Along one axis, with the current workspace in the grid, a size that is not
negative and a grid narrower than `2^31` pixels, the products of `damage_whole`
and of `get_ws_box` for the cells of the grid fit a 32-bit `int`. -/
theorem grid_axis_fits (v n s i : Int) (hv : 0 ≤ v ∧ v < n) (hs : 0 ≤ s)
    (hf : n * s < 2147483648) (hi : 0 ≤ i ∧ i < n) :
    int32_wrap ((i - v) * s) = (i - v) * s ∧ int32_wrap (-v * s) = -v * s ∧
      int32_wrap (n * s) = n * s := by
  have e1 : 0 ≤ v * s := mul_nonneg hv.1 hs
  have e2 : 0 ≤ (n - v) * s := mul_nonneg (by omega) hs
  have e3 : (n - v) * s = n * s - v * s := by ring
  have e4 : 0 ≤ i * s := mul_nonneg hi.1 hs
  have e5 : 0 ≤ (n - i) * s := mul_nonneg (by omega) hs
  have e6 : (n - i) * s = n * s - i * s := by ring
  have e7 : (i - v) * s = i * s - v * s := by ring
  have e8 : -v * s = -(v * s) := by ring
  refine ⟨int32_wrap_of_range _ ?_ ?_, int32_wrap_of_range _ ?_ ?_,
    int32_wrap_of_range _ ?_ ?_⟩ <;> omega

theorem damage_whole_frame_damage (st : impl) :
    (output_damage_t.damage_whole st).output_damage.frame_damage =
      st.output_damage.frame_damage ∪
        (wlr_box.mk
          (int32_wrap (-st.output.current_workspace.1 * st.output.transformed_width))
          (int32_wrap (-st.output.current_workspace.2 * st.output.transformed_height))
          (int32_wrap (st.output.workspace_grid_size.1 * st.output.transformed_width))
          (int32_wrap
            (st.output.workspace_grid_size.2 * st.output.transformed_height))).pixels := by
  unfold output_damage_t.damage_whole
  dsimp only
  rw [damage_frame_damage]
  rfl

theorem damage_whole_output (st : impl) :
    (output_damage_t.damage_whole st).output = st.output := by
  unfold output_damage_t.damage_whole
  dsimp only
  exact (frame_step_damage (frame_step_refl (st.log event.damage_whole)) _).output

theorem damage_whole_idle_frame_damage (st : impl) :
    (output_damage_t.damage_whole_idle st).output_damage.frame_damage =
      st.output_damage.frame_damage ∪
        (wlr_box.mk
          (int32_wrap (-st.output.current_workspace.1 * st.output.transformed_width))
          (int32_wrap (-st.output.current_workspace.2 * st.output.transformed_height))
          (int32_wrap (st.output.workspace_grid_size.1 * st.output.transformed_width))
          (int32_wrap
            (st.output.workspace_grid_size.2 * st.output.transformed_height))).pixels := by
  unfold output_damage_t.damage_whole_idle
  dsimp only
  split
  · exact damage_whole_frame_damage (st.log event.damage_whole_idle)
  · exact damage_whole_frame_damage (st.log event.damage_whole_idle)

theorem frame_step_damage_whole {s0 st : impl} (h : impl.frame_step s0 st) :
    impl.frame_step s0 (output_damage_t.damage_whole st) := by
  unfold output_damage_t.damage_whole
  dsimp only
  exact frame_step_damage (frame_step_log h event.damage_whole rfl) _

theorem frame_step_damage_whole_idle {s0 st : impl} (h : impl.frame_step s0 st) :
    impl.frame_step s0 (output_damage_t.damage_whole_idle st) := by
  have h1 := frame_step_damage_whole (frame_step_log h event.damage_whole_idle rfl)
  unfold output_damage_t.damage_whole_idle
  dsimp only
  split
  · exact frame_step_trans h1
      ⟨rfl, rfl, rfl, rfl, rfl, rfl, rfl, Finset.Subset.refl _, [], by simp, rfl⟩
  · exact h1

/-- The box that `damage_whole` damages is the exact box of the grid when the
products fit a 32-bit `int`. -/
theorem damage_whole_box_exact (st : impl)
    (hx : 0 ≤ st.output.current_workspace.1 ∧
      st.output.current_workspace.1 < st.output.workspace_grid_size.1)
    (hy : 0 ≤ st.output.current_workspace.2 ∧
      st.output.current_workspace.2 < st.output.workspace_grid_size.2)
    (hw : 0 ≤ st.output.transformed_width) (hh : 0 ≤ st.output.transformed_height)
    (hfw : st.output.workspace_grid_size.1 * st.output.transformed_width < 2147483648)
    (hfh : st.output.workspace_grid_size.2 * st.output.transformed_height < 2147483648) :
    wlr_box.mk
        (int32_wrap (-st.output.current_workspace.1 * st.output.transformed_width))
        (int32_wrap (-st.output.current_workspace.2 * st.output.transformed_height))
        (int32_wrap (st.output.workspace_grid_size.1 * st.output.transformed_width))
        (int32_wrap (st.output.workspace_grid_size.2 * st.output.transformed_height)) =
      wlr_box.mk (-st.output.current_workspace.1 * st.output.transformed_width)
        (-st.output.current_workspace.2 * st.output.transformed_height)
        (st.output.workspace_grid_size.1 * st.output.transformed_width)
        (st.output.workspace_grid_size.2 * st.output.transformed_height) := by
  obtain ⟨_, a2, a3⟩ := grid_axis_fits _ _ _ _ hx hw hfw hx
  obtain ⟨_, b2, b3⟩ := grid_axis_fits _ _ _ _ hy hh hfh hy
  rw [a2, a3, b2, b3]

/-- The box of a workspace of the grid is its exact box when the products fit a
32-bit `int`. -/
theorem get_ws_box_exact (st : impl) (ws : Int × Int)
    (hx : 0 ≤ st.output.current_workspace.1 ∧
      st.output.current_workspace.1 < st.output.workspace_grid_size.1)
    (hy : 0 ≤ st.output.current_workspace.2 ∧
      st.output.current_workspace.2 < st.output.workspace_grid_size.2)
    (hw : 0 ≤ st.output.transformed_width) (hh : 0 ≤ st.output.transformed_height)
    (hfw : st.output.workspace_grid_size.1 * st.output.transformed_width < 2147483648)
    (hfh : st.output.workspace_grid_size.2 * st.output.transformed_height < 2147483648)
    (hi : 0 ≤ ws.1 ∧ ws.1 < st.output.workspace_grid_size.1)
    (hj : 0 ≤ ws.2 ∧ ws.2 < st.output.workspace_grid_size.2) :
    output_damage_t.get_ws_box st ws =
      wlr_box.mk ((ws.1 - st.output.current_workspace.1) * st.output.transformed_width)
        ((ws.2 - st.output.current_workspace.2) * st.output.transformed_height)
        st.output.transformed_width st.output.transformed_height := by
  obtain ⟨a1, _, _⟩ := grid_axis_fits _ _ _ _ hx hw hfw hi
  obtain ⟨b1, _, _⟩ := grid_axis_fits _ _ _ _ hy hh hfh hj
  unfold output_damage_t.get_ws_box output_damage_t.get_damage_box
  dsimp only
  rw [a1, b1]

/-- The box of the output lies inside the exact box of the grid when the
current workspace is a cell of the grid. -/
theorem output_box_subset_grid_box (vx vy vw vh sw sh : Int)
    (hx : 0 ≤ vx ∧ vx < vw) (hy : 0 ≤ vy ∧ vy < vh) :
    (wlr_box.mk 0 0 sw sh).pixels ⊆
      (wlr_box.mk (-vx * sw) (-vy * sh) (vw * sw) (vh * sh)).pixels := by
  intro p hp
  rw [mem_pixels] at hp ⊢
  simp only [wlr_box.contains, Bool.and_eq_true, decide_eq_true_eq] at hp ⊢
  obtain ⟨⟨⟨h1, h2⟩, h3⟩, h4⟩ := hp
  have hsw : 0 < sw := by omega
  have hsh : 0 < sh := by omega
  have e1 : 0 ≤ vx * sw := mul_nonneg hx.1 hsw.le
  have e2 : 0 ≤ vy * sh := mul_nonneg hy.1 hsh.le
  have e3 : 0 ≤ (vw - vx - 1) * sw := mul_nonneg (by omega) hsw.le
  have e4 : 0 ≤ (vh - vy - 1) * sh := mul_nonneg (by omega) hsh.le
  have e5 : (vw - vx - 1) * sw = vw * sw - vx * sw - sw := by ring
  have e6 : (vh - vy - 1) * sh = vh * sh - vy * sh - sh := by ring
  have e7 : -vx * sw = -(vx * sw) := by ring
  have e8 : -vy * sh = -(vy * sh) := by ring
  rw [e7, e8]
  omega

/-- Along one axis, the cells of the grid tile the exact span of the grid. -/
theorem grid_axis_cover (v n s x : Int) (hn : 1 ≤ n) :
    (-v * s ≤ x ∧ x < -v * s + n * s) ↔
      ∃ i, (0 ≤ i ∧ i < n) ∧ (i - v) * s ≤ x ∧ x < (i - v) * s + s := by
  constructor
  · rintro ⟨h1, h2⟩
    have hs : 0 < s := by
      by_contra hle
      have : n * s ≤ 0 := mul_nonpos_of_nonneg_of_nonpos (by omega) (by omega)
      omega
    have hy : 0 ≤ x + v * s := by
      have : -v * s = -(v * s) := by ring
      omega
    have hy2 : x + v * s < n * s := by
      have : -v * s = -(v * s) := by ring
      omega
    refine ⟨(x + v * s) / s, ⟨Int.ediv_nonneg hy hs.le, ?_⟩, ?_, ?_⟩
    · exact Int.ediv_lt_of_lt_mul hs hy2
    · have h := Int.ediv_mul_le (x + v * s) (ne_of_gt hs)
      have e : ((x + v * s) / s - v) * s = (x + v * s) / s * s - v * s := by ring
      rw [e]
      omega
    · have h := Int.lt_ediv_add_one_mul_self (x + v * s) hs
      have e : ((x + v * s) / s - v) * s = (x + v * s) / s * s - v * s := by ring
      have e2 : ((x + v * s) / s + 1) * s = (x + v * s) / s * s + s := by ring
      rw [e]
      rw [e2] at h
      omega
  · rintro ⟨i, ⟨hi0, hin⟩, h1, h2⟩
    have hs : 0 < s := by omega
    have e1 : 0 ≤ i * s := mul_nonneg hi0 hs.le
    have e2 : 0 ≤ (n - i - 1) * s := mul_nonneg (by omega) hs.le
    have e3 : (n - i - 1) * s = n * s - i * s - s := by ring
    have e4 : (i - v) * s = i * s - v * s := by ring
    have e5 : -v * s = -(v * s) := by ring
    rw [e4] at h1 h2
    rw [e5]
    constructor <;> omega

/-- When the products fit a 32-bit `int`, the box that `damage_whole` damages is
tiled by the boxes of the workspaces of the grid. -/
theorem grid_box_eq_union (st : impl)
    (hx : 0 ≤ st.output.current_workspace.1 ∧
      st.output.current_workspace.1 < st.output.workspace_grid_size.1)
    (hy : 0 ≤ st.output.current_workspace.2 ∧
      st.output.current_workspace.2 < st.output.workspace_grid_size.2)
    (hw : 0 ≤ st.output.transformed_width) (hh : 0 ≤ st.output.transformed_height)
    (hfw : st.output.workspace_grid_size.1 * st.output.transformed_width < 2147483648)
    (hfh : st.output.workspace_grid_size.2 * st.output.transformed_height < 2147483648) :
    (wlr_box.mk
        (int32_wrap (-st.output.current_workspace.1 * st.output.transformed_width))
        (int32_wrap (-st.output.current_workspace.2 * st.output.transformed_height))
        (int32_wrap (st.output.workspace_grid_size.1 * st.output.transformed_width))
        (int32_wrap
          (st.output.workspace_grid_size.2 * st.output.transformed_height))).pixels =
      (Finset.Ico 0 st.output.workspace_grid_size.1 ×ˢ
          Finset.Ico 0 st.output.workspace_grid_size.2).biUnion
        (fun ws => (output_damage_t.get_ws_box st ws).pixels) := by
  rw [damage_whole_box_exact st hx hy hw hh hfw hfh]
  ext p
  rw [Finset.mem_biUnion]
  have hX := grid_axis_cover st.output.current_workspace.1 st.output.workspace_grid_size.1
    st.output.transformed_width p.1 (by omega)
  have hY := grid_axis_cover st.output.current_workspace.2 st.output.workspace_grid_size.2
    st.output.transformed_height p.2 (by omega)
  rw [mem_pixels]
  simp only [wlr_box.contains, Bool.and_eq_true, decide_eq_true_eq]
  constructor
  · rintro ⟨⟨⟨h1, h2⟩, h3⟩, h4⟩
    obtain ⟨i, hi, hi1, hi2⟩ := hX.1 ⟨h1, h2⟩
    obtain ⟨j, hj, hj1, hj2⟩ := hY.1 ⟨h3, h4⟩
    refine ⟨(i, j), by simp [hi, hj], ?_⟩
    rw [get_ws_box_exact st (i, j) hx hy hw hh hfw hfh hi hj, mem_pixels]
    simp only [wlr_box.contains, Bool.and_eq_true, decide_eq_true_eq]
    exact ⟨⟨⟨hi1, hi2⟩, hj1⟩, hj2⟩
  · rintro ⟨ws, hws, hp⟩
    rw [Finset.mem_product, Finset.mem_Ico, Finset.mem_Ico] at hws
    rw [get_ws_box_exact st ws hx hy hw hh hfw hfh hws.1 hws.2, mem_pixels] at hp
    simp only [wlr_box.contains, Bool.and_eq_true, decide_eq_true_eq] at hp
    obtain ⟨⟨⟨hi1, hi2⟩, hj1⟩, hj2⟩ := hp
    obtain ⟨h1, h2⟩ := hX.2 ⟨ws.1, hws.1, hi1, hi2⟩
    obtain ⟨h3, h4⟩ := hY.2 ⟨ws.2, hws.2, hj1, hj2⟩
    exact ⟨⟨⟨h1, h2⟩, h3⟩, h4⟩

theorem ws_damage_of_covered_box (frame_damage : wf_region) (box : wlr_box)
    (h : box.pixels ⊆ frame_damage) :
    (frame_damage.and_box box).translate ⟨-box.x, -box.y⟩ =
      (wlr_box.mk 0 0 box.width box.height).pixels := by
  have e : frame_damage = frame_damage ∪ box.pixels := (Finset.union_eq_left.2 h).symm
  rw [e]
  exact ws_damage_of_damaged_box frame_damage box

theorem box_pixels_not_subset_empty (b : wlr_box) (hw : 0 < b.width) (hh : 0 < b.height) :
    ¬ (b.pixels ⊆ (∅ : wf_region)) := by
  intro h
  have hp : (b.x, b.y) ∈ b.pixels := by
    rw [mem_pixels]
    simp only [wlr_box.contains, Bool.and_eq_true, decide_eq_true_eq]
    omega
  exact Finset.not_mem_empty _ (Finset.mem_of_subset h hp)

theorem get_ws_damage_of_empty (st : impl) (ws : Int × Int)
    (h : st.output_damage.frame_damage = ∅) : output_damage_t.get_ws_damage st ws = ∅ := by
  unfold output_damage_t.get_ws_damage wf_region.and_box wf_region.translate
  dsimp only
  rw [h]
  simp

/-! ## Lemmas on the damage of a workspace stream -/

theorem calculate_repaint_ws_damage (st : impl) (stream : workspace_stream_t) :
    (impl.calculate_repaint_for_stream st stream).2.ws_damage =
      output_damage_t.get_ws_damage st stream.ws := by
  unfold impl.calculate_repaint_for_stream
  dsimp only
  split <;> rfl

theorem get_ws_damage_subset (st : impl) (ws : Int × Int) :
    output_damage_t.get_ws_damage st ws ⊆
      (wlr_box.mk 0 0 st.output.transformed_width st.output.transformed_height).pixels := by
  intro p hp
  unfold output_damage_t.get_ws_damage at hp
  dsimp only at hp
  rw [mem_translate, mem_and_box, mem_pixels] at hp
  rw [mem_pixels]
  have h := hp.2
  simp only [wlr_box.contains, output_damage_t.get_ws_box, output_damage_t.get_damage_box,
    Bool.and_eq_true, decide_eq_true_eq] at h ⊢
  omega

theorem workspace_stream_update_of_empty (st : impl) (stream : workspace_stream_t)
    (h : output_damage_t.get_ws_damage st stream.ws = ∅) :
    impl.workspace_stream_update st stream = st := by
  have he : (output_damage_t.get_ws_damage st stream.ws).empty = true := (empty_iff _).2 h
  unfold impl.workspace_stream_update impl.calculate_repaint_for_stream
  dsimp only
  rw [if_pos he]
  dsimp only
  rw [if_pos he]

/-! ## Lemmas on the render list -/

theorem render_views_trace (st : impl) (repaint : workspace_stream_repaint_t) :
    (impl.render_views st repaint).trace =
      st.trace ++ repaint.to_render.reverse.map
        (fun ds => event.render_fb ds.surface ds.x ds.y ds.damage) := by
  unfold impl.render_views
  exact foldl_log_trace (fun ds : damaged_surface_t =>
    event.render_fb ds.surface ds.x ds.y ds.damage) _ st

theorem clear_area_calls_append (t u : List event) :
    clear_area_calls (t ++ u) = clear_area_calls t ++ clear_area_calls u := by
  simp [clear_area_calls, List.filterMap_append]

theorem schedule_drag_icon_clear_area_calls (st : impl) (repaint : workspace_stream_repaint_t) :
    clear_area_calls (impl.schedule_drag_icon st repaint).1.trace =
      clear_area_calls st.trace := by
  unfold impl.schedule_drag_icon
  split
  · rfl
  · rfl
  · split
    · rfl
    · simp [impl.log, clear_area_calls_append, clear_area_calls]

theorem unschedule_drag_icon_clear_area_calls (st : impl) :
    clear_area_calls (impl.unschedule_drag_icon st).trace = clear_area_calls st.trace := by
  unfold impl.unschedule_drag_icon
  split
  · simp [impl.log, clear_area_calls_append, clear_area_calls]
  · rfl

theorem render_views_clear_area_calls (st : impl) (repaint : workspace_stream_repaint_t) :
    clear_area_calls (impl.render_views st repaint).trace = clear_area_calls st.trace := by
  unfold impl.render_views
  rw [foldl_log_trace (fun ds : damaged_surface_t =>
    event.render_fb ds.surface ds.x ds.y ds.damage), clear_area_calls_append]
  have h : clear_area_calls (repaint.to_render.reverse.map
      (fun ds : damaged_surface_t => event.render_fb ds.surface ds.x ds.y ds.damage)) = [] := by
    induction repaint.to_render.reverse with
    | nil => rfl
    | cons ds rest ih =>
      simp only [List.map_cons, clear_area_calls, List.filterMap_cons] at ih ⊢
      exact ih
  rw [h, List.append_nil]

/-- `workspace_stream_update` clears once, and what it clears is the damage that
the scan leaves; with no workspace damage it clears nothing. -/
theorem workspace_stream_update_clear_area_calls (st : impl) (stream : workspace_stream_t) :
    clear_area_calls (impl.workspace_stream_update st stream).trace =
      clear_area_calls st.trace ++
        (if (output_damage_t.get_ws_damage st stream.ws).empty then []
          else [(impl.scheduled_repaint st stream).ws_damage]) := by
  have hws : (impl.calculate_repaint_for_stream st stream).2.ws_damage =
      output_damage_t.get_ws_damage st stream.ws := by
    unfold impl.calculate_repaint_for_stream
    dsimp only
    split <;> rfl
  unfold impl.workspace_stream_update impl.scheduled_repaint
  dsimp only
  rw [hws]
  by_cases hempty : (output_damage_t.get_ws_damage st stream.ws).empty = true
  · rw [if_pos hempty, if_pos hempty]
    have hc : (impl.calculate_repaint_for_stream st stream).1 = st := by
      unfold impl.calculate_repaint_for_stream
      dsimp only
      rw [if_pos hempty]
    rw [hc, List.append_nil]
  · rw [if_neg hempty, if_neg hempty]
    unfold impl.check_schedule_surfaces impl.clear_empty_areas
    dsimp only
    have hc : (impl.calculate_repaint_for_stream st stream).1 =
        st.log (event.allocate_stream stream.ws st.output.handle_width
          st.output.handle_height) := by
      unfold impl.calculate_repaint_for_stream
      dsimp only
      rw [if_neg hempty]
    rw [log_trace, clear_area_calls_append, unschedule_drag_icon_clear_area_calls,
      render_views_clear_area_calls, log_trace, clear_area_calls_append,
      schedule_drag_icon_clear_area_calls, schedule_drag_icon_log, log_trace,
      clear_area_calls_append, hc, log_trace, clear_area_calls_append]
    simp [clear_area_calls, impl.log]

theorem schedule_surface_ws_damage (r : workspace_stream_repaint_t) (s : wayfire_surface_t)
    (x y dx dy : Int) :
    (impl.schedule_surface r s x y dx dy).ws_damage =
      r.ws_damage \ impl.schedule_surface_subtracted r s x y dx dy := by
  unfold impl.schedule_surface impl.schedule_surface_subtracted subtract_opaque
  dsimp only
  split
  · simp
  · split
    · simp
    · split
      · split <;> simp
      · simp

theorem schedule_surfaces_ws_damage (surfaces : List (wayfire_surface_t × Int × Int))
    (r : workspace_stream_repaint_t) (dx dy : Int) :
    (impl.schedule_surfaces r surfaces dx dy).ws_damage =
      r.ws_damage \ impl.schedule_surfaces_subtracted r surfaces dx dy := by
  induction surfaces generalizing r with
  | nil => simp [impl.schedule_surfaces, impl.schedule_surfaces_subtracted]
  | cons s rest ih =>
    have hcons : impl.schedule_surfaces r (s :: rest) dx dy =
        impl.schedule_surfaces (impl.schedule_surface r s.1 s.2.1 s.2.2 dx dy) rest dx dy := rfl
    have hsub : impl.schedule_surfaces_subtracted r (s :: rest) dx dy =
        impl.schedule_surface_subtracted r s.1 s.2.1 s.2.2 dx dy ∪
          impl.schedule_surfaces_subtracted
            (impl.schedule_surface r s.1 s.2.1 s.2.2 dx dy) rest dx dy := rfl
    rw [hcons, hsub, ih, schedule_surface_ws_damage]
    ext p
    simp only [Finset.mem_sdiff, Finset.mem_union]
    tauto

theorem schedule_snapshotted_view_ws_damage (r : workspace_stream_repaint_t)
    (view : wayfire_view_t) (dx dy : Int) :
    (impl.schedule_snapshotted_view r view dx dy).ws_damage = r.ws_damage := by
  unfold impl.schedule_snapshotted_view
  dsimp only
  split <;> rfl

theorem check_schedule_view_ws_damage (r : workspace_stream_repaint_t) (view : wayfire_view_t) :
    (impl.check_schedule_view r view).ws_damage =
      r.ws_damage \ impl.check_schedule_view_subtracted r view := by
  unfold impl.check_schedule_view impl.check_schedule_view_subtracted
  dsimp only
  split
  · simp
  · split
    · rw [schedule_snapshotted_view_ws_damage]
      simp
    · exact schedule_surfaces_ws_damage _ _ _ _

theorem check_schedule_views_ws_damage (views : List wayfire_view_t)
    (r : workspace_stream_repaint_t) :
    (impl.check_schedule_views r views).ws_damage =
      r.ws_damage \ impl.check_schedule_views_subtracted r views := by
  induction views generalizing r with
  | nil => simp [impl.check_schedule_views, impl.check_schedule_views_subtracted]
  | cons view rest ih =>
    unfold impl.check_schedule_views impl.check_schedule_views_subtracted
    split
    · simp
    · rw [ih, check_schedule_view_ws_damage]
      ext p
      simp only [Finset.mem_sdiff, Finset.mem_union]
      tauto

theorem check_schedule_surfaces_ws_damage (st : impl) (r : workspace_stream_repaint_t)
    (stream : workspace_stream_t) :
    (impl.check_schedule_surfaces st r stream).2.ws_damage =
      r.ws_damage \ impl.check_schedule_surfaces_subtracted st r stream := by
  unfold impl.check_schedule_surfaces impl.check_schedule_surfaces_subtracted
  dsimp only
  rw [check_schedule_views_ws_damage]
  have hicon : (impl.schedule_drag_icon st r).2.ws_damage =
      r.ws_damage \
        (match st.renderer, st.output.drag_icon with
          | some _, _ => ∅
          | none, none => ∅
          | none, some (is_mapped, surfaces) =>
            if !is_mapped then ∅ else impl.schedule_surfaces_subtracted r surfaces 0 0) := by
    unfold impl.schedule_drag_icon
    cases st.renderer with
    | some hook => simp
    | none =>
      cases st.output.drag_icon with
      | none => simp
      | some icon =>
        obtain ⟨is_mapped, surfaces⟩ := icon
        cases is_mapped
        · simp
        · simp only [Bool.not_true, Bool.false_eq_true, if_false]
          exact schedule_surfaces_ws_damage _ _ _ _
  rw [hicon]
  ext p
  simp only [Finset.mem_sdiff, Finset.mem_union]
  tauto

theorem scheduled_repaint_ws_damage (st : impl) (stream : workspace_stream_t) :
    (impl.scheduled_repaint st stream).ws_damage =
      output_damage_t.get_ws_damage st stream.ws \ impl.scan_subtracted st stream := by
  have hws : (impl.calculate_repaint_for_stream st stream).2.ws_damage =
      output_damage_t.get_ws_damage st stream.ws := by
    unfold impl.calculate_repaint_for_stream
    dsimp only
    split <;> rfl
  unfold impl.scheduled_repaint impl.scan_subtracted
  dsimp only
  rw [check_schedule_surfaces_ws_damage, hws]

/-- A call of `schedule_surface` takes the opaque area of the surface out of the
remaining damage exactly when it appends an entry for the surface and the alpha
of the surface is at or above the threshold. -/
theorem schedule_surface_subtracted_eq (r : workspace_stream_repaint_t)
    (s : wayfire_surface_t) (x y dx dy : Int) :
    impl.schedule_surface_subtracted r s x y dx dy =
      if (impl.schedule_surface r s x y dx dy).to_render ≠ r.to_render ∧
          s.alpha ≥ opaque_alpha_threshold then
        s.opaque_area (x - dx) (y - dy)
      else ∅ := by
  unfold impl.schedule_surface impl.schedule_surface_subtracted
  dsimp only
  split
  · simp
  · split
    · simp
    · split
      · split
        · simp_all
        · rename_i hlt
          rw [if_neg (fun h => hlt h.2)]
      · simp

/-! ## Lemmas on the buffers of the postprocessing chain -/

theorem xor_three_alternates (k : Nat) : (1 + k % 2) ^^^ 3 = 1 + (k + 1) % 2 := by
  rcases Nat.mod_two_eq_zero_or_one k with h | h
  · have h2 : (k + 1) % 2 = 1 := by omega
    rw [h, h2]
    rfl
  · have h2 : (k + 1) % 2 = 0 := by omega
    rw [h, h2]
    rfl

/-- The `j`-th hook invocation of the loop of `run_post_effects` when the loop
starts at chain position `k` with source buffer `last`. -/
theorem post_chain_calls_getElem (back : Option Nat) (chain : List Nat) (k last j : Nat) :
    (post_chain_calls back chain last (1 + k % 2))[j]? =
      (chain[j]?).map (fun post =>
        (post,
          (if j = 0 then fb_target.post_buffers last
            else fb_target.post_buffers (1 + (k + j - 1) % 2)),
          (if some post = back then fb_target.default_framebuffer
            else fb_target.post_buffers (1 + (k + j) % 2)))) := by
  induction chain generalizing k last j with
  | nil => simp [post_chain_calls]
  | cons post rest ih =>
    cases j with
    | zero => simp [post_chain_calls]
    | succ j =>
      simp only [post_chain_calls, List.getElem?_cons_succ]
      rw [xor_three_alternates, ih (k + 1) (1 + k % 2) j]
      cases hj : rest[j]? with
      | none => rfl
      | some p =>
        simp only [Option.map_some']
        have e1 : k + 1 + j = k + (j + 1) := by omega
        have e2 : k + (j + 1) - 1 = k + j := by omega
        rw [e1, e2]
        cases j with
        | zero => simp
        | succ j =>
          have e3 : k + 1 + (j + 1) - 1 = k + (j + 1) := by omega
          simp [e3]

/-- No hook invocation writes `post_buffers[0]` or writes the buffer it reads,
whatever the chain. -/
theorem post_chain_calls_buffers (back : Option Nat) (chain : List Nat) (last next : Nat)
    (hnext : next = 1 ∨ next = 2) (hlast : last ≠ next)
    (c : Nat × fb_target × fb_target) (hc : c ∈ post_chain_calls back chain last next) :
    c.2.2 ≠ fb_target.post_buffers 0 ∧ c.2.1 ≠ c.2.2 := by
  induction chain generalizing last next with
  | nil => simp [post_chain_calls] at hc
  | cons post rest ih =>
    simp only [post_chain_calls, List.mem_cons] at hc
    rcases hc with hc | hc
    · rw [hc]
      dsimp only
      split
      · simp
      · constructor
        · rcases hnext with h | h <;> simp [h]
        · simp [hlast]
    · have hx : next ^^^ 3 = 1 ∨ next ^^^ 3 = 2 := by
        rcases hnext with h | h
        · right
          rw [h]
          rfl
        · left
          rw [h]
          rfl
      have hne : next ≠ next ^^^ 3 := by
        rcases hnext with h | h
        · rw [h]
          decide
        · rw [h]
          decide
      exact ih next (next ^^^ 3) hx hne hc

/-- For a chain without repeated hooks, the buffers follow the ping-pong scheme:
invocation 0 reads `post_buffers[0]`, invocation `i > 0` reads what invocation
`i - 1` wrote, every invocation but the last writes `post_buffers[1 + i % 2]`,
and the last writes the screen. -/
theorem run_post_effects_ping_pong (st : impl) (hnd : st.post_effects.Nodup) :
    ∃ calls : List (Nat × fb_target × fb_target),
      post_hook_calls (postprocessing_manager_t.run_post_effects st).trace =
          post_hook_calls st.trace ++ calls ∧
        calls.length = st.post_effects.length ∧
        ∀ (i : Nat) (hi : i < st.post_effects.length),
          calls[i]? = some (st.post_effects.get ⟨i, hi⟩,
            (if i = 0 then fb_target.post_buffers 0
              else fb_target.post_buffers (1 + (i - 1) % 2)),
            (if i + 1 = st.post_effects.length then fb_target.default_framebuffer
              else fb_target.post_buffers (1 + i % 2))) := by
  have hlen : (post_chain_calls st.post_effects.getLast? st.post_effects 0 1).length =
      st.post_effects.length := by
    rw [← List.length_map _ Prod.fst, post_chain_calls_map_fst]
  refine ⟨post_chain_calls st.post_effects.getLast? st.post_effects 0 1,
    (run_post_effects_step_fold st.post_effects st 0 1).2, hlen, ?_⟩
  intro i hi
  have h := post_chain_calls_getElem st.post_effects.getLast? st.post_effects 0 0 i
  have h1 : (1 + 0 % 2 : Nat) = 1 := rfl
  rw [h1] at h
  rw [h, List.getElem?_eq_getElem hi]
  simp only [Option.map_some', Nat.zero_add, List.get_eq_getElem]
  have hl := nodup_get_eq_getLast st.post_effects hnd i hi
  simp only [List.get_eq_getElem] at hl
  by_cases hlast : i + 1 = st.post_effects.length
  · rw [if_pos (hl.2 hlast), if_pos hlast]
  · rw [if_neg (fun h => hlast (hl.1 h)), if_neg hlast]

/-- Every chain: no invocation writes the scene buffer or its own source. -/
theorem run_post_effects_never_writes_source (st : impl) :
    ∃ calls : List (Nat × fb_target × fb_target),
      post_hook_calls (postprocessing_manager_t.run_post_effects st).trace =
          post_hook_calls st.trace ++ calls ∧
        ∀ c ∈ calls, c.2.2 ≠ fb_target.post_buffers 0 ∧ c.2.1 ≠ c.2.2 :=
  ⟨post_chain_calls st.post_effects.getLast? st.post_effects 0 1,
    (run_post_effects_step_fold st.post_effects st 0 1).2,
    fun c hc => post_chain_calls_buffers _ _ 0 1 (Or.inl rfl) (by decide) c hc⟩

/-! ## Lemmas on the layer focus requests -/

theorem focus_request_lt_trans {a b c : Nat × Int} (hab : focus_request_lt a b)
    (hbc : focus_request_lt b c) : focus_request_lt a c := by
  unfold focus_request_lt at *
  omega

theorem focus_request_lt_of_not {a b : Nat × Int} (hne : a ≠ b) (hlt : ¬ focus_request_lt a b) :
    focus_request_lt b a := by
  unfold focus_request_lt at *
  have h : a.1 ≠ b.1 ∨ a.2 ≠ b.2 := by
    by_contra hc
    push_neg at hc
    exact hne (Prod.ext hc.1 hc.2)
  omega

theorem mem_focus_requests_insert (a x : Nat × Int) (l : List (Nat × Int)) :
    x ∈ focus_requests_insert a l ↔ x = a ∨ x ∈ l := by
  induction l with
  | nil => simp [focus_requests_insert]
  | cons b rest ih =>
    unfold focus_requests_insert
    split
    · rename_i hab
      rw [hab]
      simp
    · split
      · simp
      · rw [List.mem_cons, ih, List.mem_cons]
        tauto

theorem focus_requests_insert_sorted (a : Nat × Int) (l : List (Nat × Int))
    (h : l.Pairwise focus_request_lt) :
    (focus_requests_insert a l).Pairwise focus_request_lt := by
  induction l with
  | nil => simp [focus_requests_insert]
  | cons b rest ih =>
    rw [List.pairwise_cons] at h
    unfold focus_requests_insert
    split
    · exact List.pairwise_cons.2 h
    · rename_i hne
      split
      · rename_i hlt
        refine List.pairwise_cons.2 ⟨?_, List.pairwise_cons.2 h⟩
        intro x hx
        rw [List.mem_cons] at hx
        rcases hx with hx | hx
        · rw [hx]
          exact hlt
        · exact focus_request_lt_trans hlt (h.1 x hx)
      · rename_i hlt
        refine List.pairwise_cons.2 ⟨?_, ih h.2⟩
        intro x hx
        rw [mem_focus_requests_insert] at hx
        rcases hx with hx | hx
        · rw [hx]
          exact focus_request_lt_of_not hne hlt
        · exact h.1 x hx

theorem focus_requests_insert_perm (a : Nat × Int) (l : List (Nat × Int)) (h : a ∉ l) :
    (focus_requests_insert a l).Perm (a :: l) := by
  induction l with
  | nil => simp [focus_requests_insert]
  | cons b rest ih =>
    rw [List.mem_cons, not_or] at h
    unfold focus_requests_insert
    rw [if_neg h.1]
    split
    · exact List.Perm.refl _
    · exact ((ih h.2).cons b).trans (List.Perm.swap a b rest)

/-- The loop of `focus_layer` that looks for the request with the id of the
hint: without a match it leaves the initial value. -/
theorem focus_lookup_none (l : List (Nat × Int)) (hint : Int) (init : Nat)
    (h : ∀ req ∈ l, req.2 ≠ hint) :
    l.foldl (fun old_layer req => if req.2 = hint then req.1 else old_layer) init = init := by
  induction l generalizing init with
  | nil => rfl
  | cons b rest ih =>
    rw [List.foldl_cons, if_neg (h b (List.mem_cons_self _ _))]
    exact ih init (fun req hreq => h req (List.mem_cons_of_mem _ hreq))

theorem focus_lookup_some (l : List (Nat × Int)) (hint : Int) (init : Nat) (req : Nat × Int)
    (hreq : req ∈ l) (hid : req.2 = hint) (hnd : (l.map Prod.snd).Nodup) :
    l.foldl (fun old_layer req => if req.2 = hint then req.1 else old_layer) init = req.1 := by
  induction l generalizing init with
  | nil => simp at hreq
  | cons b rest ih =>
    rw [List.map_cons, List.nodup_cons] at hnd
    rw [List.foldl_cons]
    rw [List.mem_cons] at hreq
    rcases hreq with hreq | hreq
    · rw [← hreq, if_pos hid]
      apply focus_lookup_none
      intro r hr he
      apply hnd.1
      rw [← hreq, hid, ← he]
      exact List.mem_map_of_mem _ hr
    · exact ih _ hreq hnd.2

theorem focus_requests_uid_unique (l : List (Nat × Int)) (hnd : (l.map Prod.snd).Nodup)
    (a b : Nat × Int) (ha : a ∈ l) (hb : b ∈ l) (h : a.2 = b.2) : a = b :=
  List.inj_on_of_nodup_map hnd ha hb h

theorem focus_layer_invalid_hint (core : compositor_core_impl_t) (layer : Nat) (hint : Int)
    (hhint : 0 ≤ hint) (hnone : ∀ req ∈ core.layer_focus_requests, req.2 ≠ hint) :
    core.focus_layer layer hint = (-1, core) := by
  unfold compositor_core_impl_t.focus_layer
  dsimp only
  rw [focus_lookup_none _ _ _ hnone, if_pos ⟨hhint, rfl⟩]

theorem focus_layer_valid_hint (core : compositor_core_impl_t) (layer : Nat) (hint : Int)
    (hhint : 0 ≤ hint) (req : Nat × Int) (hreq : req ∈ core.layer_focus_requests)
    (hid : req.2 = hint) (hnd : (core.layer_focus_requests.map Prod.snd).Nodup)
    (hlayer : req.1 ≠ UINT32_MAX) :
    (core.focus_layer layer hint).1 = hint ∧
      (core.focus_layer layer hint).2.layer_focus_requests =
        focus_requests_insert (layer, hint) (core.layer_focus_requests.erase req) ∧
      (core.focus_layer layer hint).2.last_request_uid = core.last_request_uid := by
  have hreq2 : req = (req.1, hint) := Prod.ext rfl hid
  unfold compositor_core_impl_t.focus_layer
  dsimp only
  rw [focus_lookup_some _ _ _ req hreq hid hnd, if_neg (fun h => hlayer h.2)]
  have hn : ¬ hint < 0 := by omega
  simp only [ge_iff_le, hhint, if_true, hn, if_false]
  rw [← hreq2]
  refine ⟨?_, ?_, ?_⟩ <;> first | rfl | trivial

theorem focus_layer_new_request (core : compositor_core_impl_t) (layer : Nat) (hint : Int)
    (hhint : hint < 0) :
    (core.focus_layer layer hint).1 = core.last_request_uid + 1 ∧
      (core.focus_layer layer hint).2.layer_focus_requests =
        focus_requests_insert (layer, core.last_request_uid + 1) core.layer_focus_requests ∧
      (core.focus_layer layer hint).2.last_request_uid = core.last_request_uid + 1 := by
  unfold compositor_core_impl_t.focus_layer
  dsimp only
  have hn : ¬ (hint ≥ 0) := by omega
  rw [if_neg (fun h => hn h.1)]
  simp only [hn, hhint, if_true, if_false]
  refine ⟨?_, ?_, ?_⟩ <;> first | rfl | trivial

theorem focus_requests_nodup (l : List (Nat × Int)) (h : (l.map Prod.snd).Nodup) : l.Nodup :=
  List.Nodup.of_map _ h

theorem focus_requests_ok_erase (core : compositor_core_impl_t) (hok : focus_requests_ok core)
    (req : Nat × Int) (last : Int) (hlast : core.last_request_uid ≤ last)
    (trace : List core_event) :
    focus_requests_ok ⟨core.layer_focus_requests.erase req, last, trace⟩ := by
  have hsub := List.erase_sublist req core.layer_focus_requests
  refine ⟨hok.sorted.sublist hsub, hok.uids.sublist (hsub.map _), ?_, ?_, ?_⟩
  · intro x hx
    have h := hok.range x (hsub.subset hx)
    dsimp only
    omega
  · intro x hx
    exact hok.layers x (hsub.subset hx)
  · have h := hok.last
    dsimp only
    omega

theorem focus_requests_ok_insert (core : compositor_core_impl_t) (hok : focus_requests_ok core)
    (a : Nat × Int) (hfresh : a.2 ∉ core.layer_focus_requests.map Prod.snd)
    (hrange : 0 ≤ a.2 ∧ a.2 ≤ core.last_request_uid) (hlayer : a.1 < UINT32_MAX)
    (trace : List core_event) :
    focus_requests_ok
      ⟨focus_requests_insert a core.layer_focus_requests, core.last_request_uid, trace⟩ := by
  have hnot : a ∉ core.layer_focus_requests :=
    fun h => hfresh (List.mem_map_of_mem _ h)
  have hperm := focus_requests_insert_perm a core.layer_focus_requests hnot
  refine ⟨focus_requests_insert_sorted a _ hok.sorted, ?_, ?_, ?_, hok.last⟩
  · dsimp only
    rw [(hperm.map Prod.snd).nodup_iff, List.map_cons, List.nodup_cons]
    exact ⟨hfresh, hok.uids⟩
  · intro x hx
    dsimp only at hx
    rw [mem_focus_requests_insert] at hx
    rcases hx with hx | hx
    · rw [hx]
      exact hrange
    · exact hok.range x hx
  · intro x hx
    dsimp only at hx
    rw [mem_focus_requests_insert] at hx
    rcases hx with hx | hx
    · rw [hx]
      exact hlayer
    · exact hok.layers x hx

theorem focus_layer_keeps_ok (core : compositor_core_impl_t) (hok : focus_requests_ok core)
    (layer : Nat) (hint : Int) (hlayer : layer < UINT32_MAX) :
    focus_requests_ok (core.focus_layer layer hint).2 := by
  by_cases hhint : hint < 0
  · obtain ⟨_, h2, h3⟩ := focus_layer_new_request core layer hint hhint
    have hok1 : focus_requests_ok
        ⟨core.layer_focus_requests, core.last_request_uid + 1, core.trace⟩ := by
      have h := focus_requests_ok_erase core hok (layer, core.last_request_uid + 1)
        (core.last_request_uid + 1) (by omega) core.trace
      rw [List.erase_of_not_mem] at h
      · exact h
      · intro hm
        have := (hok.range _ hm).2
        dsimp only at this
        omega
    have hok2 := focus_requests_ok_insert _ hok1 (layer, core.last_request_uid + 1)
      (by
        intro hm
        rw [List.mem_map] at hm
        obtain ⟨x, hx, hx2⟩ := hm
        have := (hok.range x hx).2
        dsimp only at hx2
        omega)
      (by
        have := hok.last
        dsimp only
        omega) hlayer (core.focus_layer layer hint).2.trace
    have he : (core.focus_layer layer hint).2 =
        ⟨focus_requests_insert (layer, core.last_request_uid + 1) core.layer_focus_requests,
          core.last_request_uid + 1, (core.focus_layer layer hint).2.trace⟩ := by
      rw [← h2, ← h3]
    rw [he]
    exact hok2
  · have hge : 0 ≤ hint := by omega
    by_cases hmatch : ∃ req ∈ core.layer_focus_requests, req.2 = hint
    · obtain ⟨req, hreq, hid⟩ := hmatch
      obtain ⟨_, h2, h3⟩ := focus_layer_valid_hint core layer hint hge req hreq hid hok.uids
        (Nat.ne_of_lt (hok.layers req hreq))
      have hok1 := focus_requests_ok_erase core hok req core.last_request_uid (le_refl _)
        core.trace
      have hok2 := focus_requests_ok_insert _ hok1 (layer, hint)
        (by
          intro hm
          rw [List.mem_map] at hm
          obtain ⟨x, hx, hx2⟩ := hm
          dsimp only at hx hx2
          have hx3 := (List.Nodup.mem_erase_iff (focus_requests_nodup _ hok.uids)).1 hx
          exact hx3.1 (focus_requests_uid_unique _ hok.uids x req hx3.2 hreq (hx2.trans hid.symm)))
        (by
          have := hok.range req hreq
          dsimp only
          omega) hlayer (core.focus_layer layer hint).2.trace
      have he : (core.focus_layer layer hint).2 =
          ⟨focus_requests_insert (layer, hint) (core.layer_focus_requests.erase req),
            core.last_request_uid, (core.focus_layer layer hint).2.trace⟩ := by
        rw [← h2, ← h3]
      rw [he]
      exact hok2
    · push_neg at hmatch
      rw [focus_layer_invalid_hint core layer hint hge hmatch]
      exact hok

theorem unfocus_layer_keeps_ok (core : compositor_core_impl_t) (hok : focus_requests_ok core)
    (request : Int) : focus_requests_ok (core.unfocus_layer request) := by
  unfold compositor_core_impl_t.unfocus_layer
  split
  · exact hok
  · exact focus_requests_ok_erase core hok _ core.last_request_uid (le_refl _) _

theorem focus_calls_keep_ok (calls : List focus_call) (core : compositor_core_impl_t)
    (hok : focus_requests_ok core)
    (hlayers : ∀ layer hint, focus_call.focus_layer layer hint ∈ calls → layer < UINT32_MAX) :
    focus_requests_ok (calls.foldl focus_call.apply core) := by
  induction calls generalizing core with
  | nil => exact hok
  | cons call rest ih =>
    rw [List.foldl_cons]
    apply ih
    · cases call with
      | focus_layer layer hint =>
        exact focus_layer_keeps_ok core hok layer hint
          (hlayers layer hint (List.mem_cons_self _ _))
      | unfocus_layer request => exact unfocus_layer_keeps_ok core hok request
    · intro layer hint hm
      exact hlayers layer hint (List.mem_cons_of_mem _ hm)

theorem focus_requests_ok_initial : focus_requests_ok compositor_core_impl_t.initial :=
  ⟨List.Pairwise.nil, List.nodup_nil, by simp [compositor_core_impl_t.initial],
    by simp [compositor_core_impl_t.initial], le_refl _⟩

theorem get_focused_layer_largest (core : compositor_core_impl_t)
    (hsorted : core.layer_focus_requests.Pairwise focus_request_lt) :
    (core.layer_focus_requests = [] → core.get_focused_layer = 0) ∧
      (∀ req ∈ core.layer_focus_requests, req.1 ≤ core.get_focused_layer) ∧
      (core.layer_focus_requests ≠ [] →
        ∃ req ∈ core.layer_focus_requests, req.1 = core.get_focused_layer) := by
  unfold compositor_core_impl_t.get_focused_layer
  rcases List.eq_nil_or_concat core.layer_focus_requests with h | ⟨L, b, h⟩
  · rw [h]
    simp
  · rw [List.concat_eq_append] at h
    rw [h] at hsorted ⊢
    rw [List.pairwise_append] at hsorted
    have hl : (L ++ [b]).getLast? = some b := by simp
    rw [hl]
    refine ⟨by simp, ?_, fun _ => ⟨b, by simp, rfl⟩⟩
    intro req hreq
    rw [List.mem_append, List.mem_singleton] at hreq
    rcases hreq with hreq | hreq
    · have hlt := hsorted.2.2 req hreq b (List.mem_singleton_self b)
      unfold focus_request_lt at hlt
      show req.1 ≤ b.1
      omega
    · rw [hreq]

theorem focus_calls_last_uid_bound (calls : List focus_call) (core : compositor_core_impl_t) :
    core.last_request_uid ≤ (calls.foldl focus_call.apply core).last_request_uid ∧
      (calls.foldl focus_call.apply core).last_request_uid ≤
        core.last_request_uid + calls.length := by
  induction calls generalizing core with
  | nil => simp
  | cons call rest ih =>
    rw [List.foldl_cons]
    have h := ih (focus_call.apply core call)
    have hstep : core.last_request_uid ≤ (focus_call.apply core call).last_request_uid ∧
        (focus_call.apply core call).last_request_uid ≤ core.last_request_uid + 1 := by
      cases call with
      | focus_layer layer hint =>
        simp only [focus_call.apply, compositor_core_impl_t.focus_layer]
        split
        · constructor <;> dsimp only <;> omega
        · dsimp only
          split <;> constructor <;> omega
      | unfocus_layer request =>
        simp only [focus_call.apply, compositor_core_impl_t.unfocus_layer]
        split <;> constructor <;> dsimp only <;> omega
    rw [List.length_cons]
    push_cast
    omega

/-- The claim about `focus_layer` holds as long as no request is for the layer
`(uint32_t)-1`, the value that the lookup uses for "not found". -/
theorem focus_layer_without_sentinel (calls : List focus_call) (layer : Nat) (hint : Int)
    (hlayers : ∀ layer hint, focus_call.focus_layer layer hint ∈ calls → layer < UINT32_MAX)
    (hlayer : layer < UINT32_MAX) :
    ((calls.foldl focus_call.apply compositor_core_impl_t.initial).layer_focus_requests.map
        Prod.snd).Nodup ∧
      ((0 ≤ hint ∧
          ∀ req ∈ (calls.foldl focus_call.apply
            compositor_core_impl_t.initial).layer_focus_requests, req.2 ≠ hint) →
        (calls.foldl focus_call.apply compositor_core_impl_t.initial).focus_layer layer hint =
          (-1, calls.foldl focus_call.apply compositor_core_impl_t.initial)) ∧
      (¬ (0 ≤ hint ∧
          ∀ req ∈ (calls.foldl focus_call.apply
            compositor_core_impl_t.initial).layer_focus_requests, req.2 ≠ hint) →
        0 ≤ ((calls.foldl focus_call.apply compositor_core_impl_t.initial).focus_layer
            layer hint).1 ∧
          ∀ req ∈ ((calls.foldl focus_call.apply compositor_core_impl_t.initial).focus_layer
              layer hint).2.layer_focus_requests,
            (req.2 = ((calls.foldl focus_call.apply compositor_core_impl_t.initial).focus_layer
              layer hint).1 ↔
              req = (layer, ((calls.foldl focus_call.apply
                compositor_core_impl_t.initial).focus_layer layer hint).1))) ∧
      ((layer, ((calls.foldl focus_call.apply compositor_core_impl_t.initial).focus_layer
            layer hint).1) ∈
          ((calls.foldl focus_call.apply compositor_core_impl_t.initial).focus_layer
            layer hint).2.layer_focus_requests ∨
        ((calls.foldl focus_call.apply compositor_core_impl_t.initial).focus_layer
            layer hint).1 = -1) := by
  have hok := focus_calls_keep_ok calls _ focus_requests_ok_initial hlayers
  have hok2 := focus_layer_keeps_ok _ hok layer hint hlayer
  generalize calls.foldl focus_call.apply compositor_core_impl_t.initial = core at hok hok2 ⊢
  have hres : (0 ≤ hint ∧ ∀ req ∈ core.layer_focus_requests, req.2 ≠ hint) ∨
      (0 ≤ (core.focus_layer layer hint).1 ∧
        (layer, (core.focus_layer layer hint).1) ∈
          (core.focus_layer layer hint).2.layer_focus_requests) := by
    by_cases hhint : hint < 0
    · right
      obtain ⟨h1, h2, _⟩ := focus_layer_new_request core layer hint hhint
      rw [h1, h2, mem_focus_requests_insert]
      have := hok.last
      exact ⟨by omega, Or.inl rfl⟩
    · have hge : 0 ≤ hint := by omega
      by_cases hmatch : ∃ req ∈ core.layer_focus_requests, req.2 = hint
      · right
        obtain ⟨req, hreq, hid⟩ := hmatch
        obtain ⟨h1, h2, _⟩ := focus_layer_valid_hint core layer hint hge req hreq hid hok.uids
          (Nat.ne_of_lt (hok.layers req hreq))
        rw [h1, h2, mem_focus_requests_insert]
        exact ⟨hge, Or.inl rfl⟩
      · left
        push_neg at hmatch
        exact ⟨hge, hmatch⟩
  refine ⟨hok.uids, fun h => focus_layer_invalid_hint core layer hint h.1 h.2, ?_, ?_⟩
  · intro hn
    rcases hres with h | h
    · exact absurd h hn
    · refine ⟨h.1, ?_⟩
      intro req hreq
      constructor
      · intro he
        exact focus_requests_uid_unique _ hok2.uids req _ hreq h.2 he
      · intro he
        rw [he]
  · rcases hres with h | h
    · right
      rw [focus_layer_invalid_hint core layer hint h.1 h.2]
    · left
      exact h.2

/-! ## Claims on the streams, the scan and the focus requests -/

/-- C21: start with every default stream stopped and no current stream, and
let frames (`default_renderer`) alternate with arbitrary changes of what the
output answers, the current workspace among them. After each `default_renderer`
call a default stream is running exactly when it is the stream of the workspace
that was current at that call, so at most one is. -/
theorem default_streams_one_running (st : impl) (pre : List stream_step)
    (swap_damage : wf_region)
    (hstopped : ∀ c, (st.default_streams c).running = false)
    (hnone : st.current_ws_stream = none) :
    ∀ c,
      ((impl.default_renderer (pre.foldl stream_step.apply st)
          swap_damage).1.default_streams c).running = true ↔
        c = (pre.foldl stream_step.apply st).output.current_workspace := by
  apply default_renderer_running
  apply foldl_stream_step_running
  intro c
  rw [hstopped c, hnone]
  simp

/-- C21, witness: a first frame on workspace (0, 0), a switch to workspace
(1, 0), and the frame after it. -/
theorem default_streams_one_running_witness :
    (∀ c, ((scenario_impl_unstarted 4 4 []).default_streams c).running = false) ∧
      (scenario_impl_unstarted 4 4 []).current_ws_stream = none ∧
      ∀ c,
        ((impl.default_renderer
            ([stream_step.default_renderer ∅,
              stream_step.environment (scenario_impl_switched 4 4 []).output].foldl
                stream_step.apply (scenario_impl_unstarted 4 4 []))
            ∅).1.default_streams c).running = true ↔ c = (1, 0) :=
  ⟨fun _ => rfl, rfl,
    default_streams_one_running (scenario_impl_unstarted 4 4 [])
      [stream_step.default_renderer ∅,
        stream_step.environment (scenario_impl_switched 4 4 []).output] ∅ (fun _ => rfl) rfl⟩

/-- C22: when `default_renderer` finds the current workspace different from the
workspace of the current stream, the accumulated damage afterwards contains the
box of the new workspace, the update that the start of the new stream performs
works on the full rectangle (0, 0, w, h), the new stream is running and current,
the previous stream differs from before in `running = false` only (its buffer
is untouched), and the other streams are as before. -/
theorem workspace_switch_redamages (st : impl) (swap_damage : wf_region)
    (hswitch : st.current_ws_stream ≠ some st.output.current_workspace)
    (hws : (st.default_streams st.output.current_workspace).ws = st.output.current_workspace) :
    (output_damage_t.get_ws_box st st.output.current_workspace).pixels ⊆
        output_damage_t.get_scheduled_damage (impl.default_renderer st swap_damage).1 ∧
      (∃ s : impl,
        (impl.default_renderer st swap_damage).1 =
            impl.workspace_stream_update s
              { st.default_streams st.output.current_workspace with
                running := true, scale_x := 1, scale_y := 1 } ∧
          (impl.calculate_repaint_for_stream s
              { st.default_streams st.output.current_workspace with
                running := true, scale_x := 1, scale_y := 1 }).2.ws_damage =
            (wlr_box.mk 0 0 st.output.transformed_width
              st.output.transformed_height).pixels) ∧
      (impl.default_renderer st swap_damage).1.current_ws_stream =
        some st.output.current_workspace ∧
      (impl.default_renderer st swap_damage).1.default_streams st.output.current_workspace =
        { st.default_streams st.output.current_workspace with
          running := true, scale_x := 1, scale_y := 1 } ∧
      (∀ previous, st.current_ws_stream = some previous →
        (impl.default_renderer st swap_damage).1.default_streams previous =
          { st.default_streams previous with running := false }) ∧
      (∀ other, other ≠ st.output.current_workspace → st.current_ws_stream ≠ some other →
        (impl.default_renderer st swap_damage).1.default_streams other =
          st.default_streams other) := by
  obtain ⟨s, hs, hout, hdmg, hstream⟩ := default_renderer_start_state st swap_damage hswitch
  have hstreams := (default_renderer_streams st swap_damage).2.2
  rw [if_neg hswitch] at hstreams
  have hstart : impl.workspace_stream_start s st.output.current_workspace =
      impl.workspace_stream_update
        (output_damage_t.damage
          { s with default_streams := fun c =>
              if c = st.output.current_workspace then
                { s.default_streams st.output.current_workspace with
                  running := true, scale_x := 1, scale_y := 1 }
              else s.default_streams c }
          (output_damage_t.get_ws_box s (s.default_streams st.output.current_workspace).ws))
        { s.default_streams st.output.current_workspace with
          running := true, scale_x := 1, scale_y := 1 } := rfl
  rw [hstream] at hstart
  have hbox : output_damage_t.get_ws_box s st.output.current_workspace =
      output_damage_t.get_ws_box st st.output.current_workspace :=
    get_ws_box_congr _ _ hout _
  refine ⟨?_, ⟨_, hs.trans hstart, ?_⟩, (default_renderer_streams st swap_damage).1, ?_, ?_, ?_⟩
  · rw [hs, hstart, workspace_stream_update_keeps_state]
    unfold output_damage_t.get_scheduled_damage
    dsimp only
    rw [damage_frame_damage, hws, hbox]
    exact Finset.subset_union_right
  · have hw : s.output.transformed_width = st.output.transformed_width := by rw [hout]
    have hh : s.output.transformed_height = st.output.transformed_height := by rw [hout]
    rw [← hw, ← hh]
    exact calculate_repaint_after_damage
      { s with default_streams := fun c =>
          if c = st.output.current_workspace then
            { st.default_streams st.output.current_workspace with
              running := true, scale_x := 1, scale_y := 1 }
          else s.default_streams c }
      { st.default_streams st.output.current_workspace with
        running := true, scale_x := 1, scale_y := 1 }
  · rw [hstreams]
    simp [hswitch]
  · intro previous hprev
    have hne : previous ≠ st.output.current_workspace := by
      intro he
      apply hswitch
      rw [hprev, he]
    rw [hstreams]
    simp [hne, hprev]
  · intro other hne hnp
    rw [hstreams]
    simp [hne, hnp]

/-- C22, witness: a switch from workspace (0, 0) to (1, 0); the stream of
(0, 0) keeps its buffer (fb 3, tex 4) and is stopped. -/
theorem workspace_switch_redamages_witness :
    (scenario_impl_switched 4 4 []).current_ws_stream ≠
        some (scenario_impl_switched 4 4 []).output.current_workspace ∧
      ((scenario_impl_switched 4 4 []).default_streams
          (scenario_impl_switched 4 4 []).output.current_workspace).ws =
        (scenario_impl_switched 4 4 []).output.current_workspace ∧
      (impl.default_renderer (scenario_impl_switched 4 4 []) ∅).1.default_streams (0, 0) =
        { ws := (0, 0), buffer := { fb := 3, tex := 4 }, running := false,
          scale_x := 1, scale_y := 1 } :=
  ⟨by decide, rfl,
    (workspace_switch_redamages (scenario_impl_switched 4 4 []) ∅ (by decide) rfl).2.2.2.2.1
      (0, 0) rfl⟩

/-- C23 as stated fails: on a grid of 65536 x 1 workspaces of 65536 x 1 pixels
the current workspace is a cell of the grid, the chain is empty, and `add_post`
of the first hook leaves the accumulated damage empty: the width `vw * sw = 2^32`
of the box that `damage_whole` damages wraps to 0 in 32-bit arithmetic, so the
box (0, 0, 65536, 1) of the output is not in the accumulated damage. -/
theorem add_post_wide_grid_misses_output :
    scenario_impl_wide_grid.post_effects = [] ∧
      (0 ≤ scenario_impl_wide_grid.output.current_workspace.1 ∧
        scenario_impl_wide_grid.output.current_workspace.1 <
          scenario_impl_wide_grid.output.workspace_grid_size.1) ∧
      (0 ≤ scenario_impl_wide_grid.output.current_workspace.2 ∧
        scenario_impl_wide_grid.output.current_workspace.2 <
          scenario_impl_wide_grid.output.workspace_grid_size.2) ∧
      output_damage_t.get_damage_box scenario_impl_wide_grid = ⟨0, 0, 65536, 1⟩ ∧
      output_damage_t.get_scheduled_damage
        (postprocessing_manager_t.add_post scenario_impl_wide_grid 7) = ∅ ∧
      ¬ ((wlr_box.mk 0 0 65536 1).pixels ⊆
        output_damage_t.get_scheduled_damage
          (postprocessing_manager_t.add_post scenario_impl_wide_grid 7)) := by
  have hd : output_damage_t.get_scheduled_damage
      (postprocessing_manager_t.add_post scenario_impl_wide_grid 7) = ∅ := by
    have hbox : wlr_box.mk
        (int32_wrap (-scenario_impl_wide_grid.output.current_workspace.1 *
          scenario_impl_wide_grid.output.transformed_width))
        (int32_wrap (-scenario_impl_wide_grid.output.current_workspace.2 *
          scenario_impl_wide_grid.output.transformed_height))
        (int32_wrap (scenario_impl_wide_grid.output.workspace_grid_size.1 *
          scenario_impl_wide_grid.output.transformed_width))
        (int32_wrap (scenario_impl_wide_grid.output.workspace_grid_size.2 *
          scenario_impl_wide_grid.output.transformed_height)) = ⟨0, 0, 0, 1⟩ := by decide
    have hempty : (wlr_box.mk 0 0 0 1).pixels = ∅ := by decide
    unfold output_damage_t.get_scheduled_damage postprocessing_manager_t.add_post
    dsimp only
    rw [damage_whole_idle_frame_damage]
    dsimp only
    rw [hbox, hempty]
    rfl
  refine ⟨rfl, by decide, by decide, rfl, hd, ?_⟩
  rw [hd]
  exact box_pixels_not_subset_empty _ (by decide) (by decide)

/-- C23 amended: with the current workspace a cell of the workspace grid, sizes
of the output that are not negative and a grid less than `2^31` pixels wide and
high (the products of `damage_whole` fit a 32-bit `int`), `add_post` and
`rem_post` leave the whole box (0, 0, w, h) of the output in the accumulated
damage, whatever the chain was: in particular when the first hook is added and
when the last one is removed. -/
theorem post_chain_change_damages_output (st : impl) (hook : Nat)
    (hx : 0 ≤ st.output.current_workspace.1 ∧
      st.output.current_workspace.1 < st.output.workspace_grid_size.1)
    (hy : 0 ≤ st.output.current_workspace.2 ∧
      st.output.current_workspace.2 < st.output.workspace_grid_size.2)
    (hw : 0 ≤ st.output.transformed_width) (hh : 0 ≤ st.output.transformed_height)
    (hfw : st.output.workspace_grid_size.1 * st.output.transformed_width < 2147483648)
    (hfh : st.output.workspace_grid_size.2 * st.output.transformed_height < 2147483648) :
    (postprocessing_manager_t.add_post st hook).post_effects = st.post_effects ++ [hook] ∧
      (wlr_box.mk 0 0 st.output.transformed_width st.output.transformed_height).pixels ⊆
        output_damage_t.get_scheduled_damage (postprocessing_manager_t.add_post st hook) ∧
      (postprocessing_manager_t.rem_post st hook).post_effects =
        st.post_effects.filter (fun h => h ≠ hook) ∧
      (wlr_box.mk 0 0 st.output.transformed_width st.output.transformed_height).pixels ⊆
        output_damage_t.get_scheduled_damage (postprocessing_manager_t.rem_post st hook) := by
  have hadd := damage_whole_idle_frame_damage { st with post_effects := st.post_effects ++ [hook] }
  have hrem := damage_whole_idle_frame_damage
    { st with post_effects := st.post_effects.filter (fun h => h ≠ hook) }
  have hsub := output_box_subset_grid_box st.output.current_workspace.1
    st.output.current_workspace.2 st.output.workspace_grid_size.1
    st.output.workspace_grid_size.2 st.output.transformed_width st.output.transformed_height hx hy
  rw [← damage_whole_box_exact st hx hy hw hh hfw hfh] at hsub
  refine ⟨?_, ?_, ?_, ?_⟩
  · exact (frame_step_damage_whole_idle
      (frame_step_refl { st with post_effects := st.post_effects ++ [hook] })).post_effects
  · unfold output_damage_t.get_scheduled_damage postprocessing_manager_t.add_post
    dsimp only
    rw [hadd]
    exact hsub.trans Finset.subset_union_right
  · exact (frame_step_damage_whole_idle
      (frame_step_refl
        { st with post_effects := st.post_effects.filter (fun h => h ≠ hook) })).post_effects
  · unfold output_damage_t.get_scheduled_damage postprocessing_manager_t.rem_post
    dsimp only
    rw [hrem]
    exact hsub.trans Finset.subset_union_right

/-- C23, witness: the first hook is added to an empty chain, and removed
again. -/
theorem post_chain_change_damages_output_witness :
    (0 ≤ (scenario_impl 4 4 []).output.current_workspace.1 ∧
        (scenario_impl 4 4 []).output.current_workspace.1 <
          (scenario_impl 4 4 []).output.workspace_grid_size.1) ∧
      (0 ≤ (scenario_impl 4 4 []).output.current_workspace.2 ∧
        (scenario_impl 4 4 []).output.current_workspace.2 <
          (scenario_impl 4 4 []).output.workspace_grid_size.2) ∧
      0 ≤ (scenario_impl 4 4 []).output.transformed_width ∧
      0 ≤ (scenario_impl 4 4 []).output.transformed_height ∧
      (scenario_impl 4 4 []).output.workspace_grid_size.1 *
          (scenario_impl 4 4 []).output.transformed_width < 2147483648 ∧
      (scenario_impl 4 4 []).output.workspace_grid_size.2 *
          (scenario_impl 4 4 []).output.transformed_height < 2147483648 ∧
      (wlr_box.mk 0 0 4 4).pixels ⊆
        output_damage_t.get_scheduled_damage
          (postprocessing_manager_t.add_post (scenario_impl 4 4 []) 7) ∧
      (wlr_box.mk 0 0 4 4).pixels ⊆
        output_damage_t.get_scheduled_damage
          (postprocessing_manager_t.rem_post
            (postprocessing_manager_t.add_post (scenario_impl 4 4 []) 7) 7) :=
  ⟨by decide, by decide, by decide, by decide, by decide, by decide,
    (post_chain_change_damages_output (scenario_impl 4 4 []) 7 (by decide) (by decide)
      (by decide) (by decide) (by decide) (by decide)).2.1,
    (post_chain_change_damages_output
      (postprocessing_manager_t.add_post (scenario_impl 4 4 []) 7) 7
      (by decide) (by decide) (by decide) (by decide) (by decide) (by decide)).2.2.2⟩

/-- C24, failing input: with the chain [7, 8, 7] (the hook 7 registered twice),
invocation 0 is not the last and writes the screen instead of `post_buffers[1]`,
and invocation 1 reads `post_buffers[1]`, which invocation 0 did not write. -/
theorem run_post_effects_reads_unwritten_buffer :
    post_hook_calls (postprocessing_manager_t.run_post_effects
        (postprocessing_manager_t.add_post
          (postprocessing_manager_t.add_post
            (postprocessing_manager_t.add_post (scenario_impl 2 2 []) 7) 8) 7)).trace =
      [(7, fb_target.post_buffers 0, fb_target.default_framebuffer),
       (8, fb_target.post_buffers 1, fb_target.post_buffers 2),
       (7, fb_target.post_buffers 2, fb_target.default_framebuffer)] := by
  decide

/-- C25: the damage that `workspace_stream_update` works on is the accumulated
damage intersected with the box of the workspace of the stream and translated by
minus the corner of that box; it lies inside the rectangle (0, 0, w, h); and
when it is empty the update returns the state it was given, trace included: no
allocation, no signal, no scan, no clear, no render. -/
theorem workspace_stream_update_damage (st : impl) (stream : workspace_stream_t) :
    (impl.calculate_repaint_for_stream st stream).2.ws_damage =
        ((output_damage_t.get_scheduled_damage st).and_box
            (output_damage_t.get_ws_box st stream.ws)).translate
          ⟨-(output_damage_t.get_ws_box st stream.ws).x,
            -(output_damage_t.get_ws_box st stream.ws).y⟩ ∧
      (impl.calculate_repaint_for_stream st stream).2.ws_damage ⊆
        (wlr_box.mk 0 0 st.output.transformed_width st.output.transformed_height).pixels ∧
      ((impl.calculate_repaint_for_stream st stream).2.ws_damage = ∅ →
        (impl.calculate_repaint_for_stream st stream).1 = st ∧
          impl.workspace_stream_update st stream = st) := by
  refine ⟨?_, ?_, ?_⟩
  · rw [calculate_repaint_ws_damage]
    rfl
  · rw [calculate_repaint_ws_damage]
    exact get_ws_damage_subset st stream.ws
  · rw [calculate_repaint_ws_damage]
    intro h
    refine ⟨?_, workspace_stream_update_of_empty st stream h⟩
    have he : (output_damage_t.get_ws_damage st stream.ws).empty = true := (empty_iff _).2 h
    unfold impl.calculate_repaint_for_stream
    dsimp only
    rw [if_pos he]

/-- C25, witness: an update with nothing damaged. -/
theorem workspace_stream_update_damage_witness :
    (impl.calculate_repaint_for_stream (scenario_impl 4 4 [])
        ((scenario_impl 4 4 []).default_streams (0, 0))).2.ws_damage = ∅ ∧
      impl.workspace_stream_update (scenario_impl 4 4 [])
        ((scenario_impl 4 4 []).default_streams (0, 0)) = scenario_impl 4 4 [] :=
  ⟨by decide,
    ((workspace_stream_update_damage (scenario_impl 4 4 [])
      ((scenario_impl 4 4 []).default_streams (0, 0))).2.2 (by decide)).2⟩

/-- C26: `workspace_stream_update` clears once (not at all without workspace
damage), and what it clears is the damage that the scan leaves: the initial
workspace damage minus the areas taken out by the scan, so every damaged pixel
outside those areas is cleared. An area is taken out by a surface exactly when
the surface is scheduled with alpha at or above the threshold, and then it is
the opaque area of the surface. -/
theorem cleared_area_is_remaining_damage (st : impl) (stream : workspace_stream_t) :
    clear_area_calls (impl.workspace_stream_update st stream).trace =
        clear_area_calls st.trace ++
          (if (output_damage_t.get_ws_damage st stream.ws).empty then []
            else [output_damage_t.get_ws_damage st stream.ws \
              impl.scan_subtracted st stream]) ∧
      (impl.scheduled_repaint st stream).ws_damage =
        output_damage_t.get_ws_damage st stream.ws \ impl.scan_subtracted st stream ∧
      (∀ p, p ∈ output_damage_t.get_ws_damage st stream.ws →
        p ∉ impl.scan_subtracted st stream →
        ∃ area, area ∈ clear_area_calls (impl.workspace_stream_update st stream).trace ∧
          p ∈ area) ∧
      (∀ (r : workspace_stream_repaint_t) (s : wayfire_surface_t) (x y dx dy : Int),
        (impl.schedule_surface r s x y dx dy).ws_damage =
            r.ws_damage \ impl.schedule_surface_subtracted r s x y dx dy ∧
          impl.schedule_surface_subtracted r s x y dx dy =
            if (impl.schedule_surface r s x y dx dy).to_render ≠ r.to_render ∧
                s.alpha ≥ opaque_alpha_threshold then
              s.opaque_area (x - dx) (y - dy)
            else ∅) := by
  have hcalls := workspace_stream_update_clear_area_calls st stream
  rw [scheduled_repaint_ws_damage] at hcalls
  refine ⟨hcalls, scheduled_repaint_ws_damage st stream, ?_,
    fun r s x y dx dy => ⟨schedule_surface_ws_damage r s x y dx dy,
      schedule_surface_subtracted_eq r s x y dx dy⟩⟩
  intro p hp hnp
  have hne : (output_damage_t.get_ws_damage st stream.ws).empty = false := by
    rw [← Bool.not_eq_true, empty_iff]
    intro he
    rw [he] at hp
    simp at hp
  refine ⟨output_damage_t.get_ws_damage st stream.ws \ impl.scan_subtracted st stream, ?_, ?_⟩
  · rw [hcalls, hne]
    simp
  · rw [Finset.mem_sdiff]
    exact ⟨hp, hnp⟩

/-- C26, witness: pixel (1, 1) is damaged on an output without views, and is
cleared. -/
theorem cleared_area_is_remaining_damage_witness :
    ((1, 1) : Int × Int) ∈ output_damage_t.get_ws_damage
        (output_damage_t.damage (scenario_impl 2 2 []) ⟨1, 1, 1, 1⟩) (0, 0) ∧
      ((1, 1) : Int × Int) ∉ impl.scan_subtracted
        (output_damage_t.damage (scenario_impl 2 2 []) ⟨1, 1, 1, 1⟩)
        ((scenario_impl 2 2 []).default_streams (0, 0)) ∧
      ∃ area,
        area ∈ clear_area_calls
            (impl.workspace_stream_update
              (output_damage_t.damage (scenario_impl 2 2 []) ⟨1, 1, 1, 1⟩)
              ((scenario_impl 2 2 []).default_streams (0, 0))).trace ∧
          ((1, 1) : Int × Int) ∈ area :=
  ⟨by decide, by decide,
    (cleared_area_is_remaining_damage
      (output_damage_t.damage (scenario_impl 2 2 []) ⟨1, 1, 1, 1⟩)
      ((scenario_impl 2 2 []).default_streams (0, 0))).2.2.1 (1, 1) (by decide) (by decide)⟩

/-- C27: `render_views` changes only the trace, by one `render_fb` call for each
entry of the render list with the damage of the entry, in reverse order: call
`i` is for entry `n - 1 - i`. The `render_fb` calls of `workspace_stream_update`
are the render list of the scan, reversed. -/
theorem render_views_back_to_front (st : impl) (repaint : workspace_stream_repaint_t)
    (stream : workspace_stream_t) :
    (impl.render_views st repaint).trace =
        st.trace ++ repaint.to_render.reverse.map
          (fun ds => event.render_fb ds.surface ds.x ds.y ds.damage) ∧
      impl.render_views st repaint =
        { st with trace := (impl.render_views st repaint).trace } ∧
      (∀ i, i < repaint.to_render.length →
        (repaint.to_render.reverse.map
            (fun ds => event.render_fb ds.surface ds.x ds.y ds.damage))[i]? =
          (repaint.to_render[repaint.to_render.length - 1 - i]?).map
            (fun ds => event.render_fb ds.surface ds.x ds.y ds.damage)) ∧
      render_fb_calls (impl.workspace_stream_update st stream).trace =
        render_fb_calls st.trace ++ (impl.scheduled_repaint st stream).to_render.reverse := by
  refine ⟨render_views_trace st repaint, ?_, ?_,
    workspace_stream_update_render_fb_calls st stream⟩
  · unfold impl.render_views
    exact log_only_foldl_log (fun ds : damaged_surface_t =>
      event.render_fb ds.surface ds.x ds.y ds.damage) _ (log_only_refl st)
  · intro i hi
    rw [List.getElem?_map, List.getElem?_reverse hi]

/-- C27, witness: of two entries the one appended last is rendered first. -/
theorem render_views_back_to_front_witness :
    0 < ([⟨1, 0, 0, {(0, 0)}⟩, ⟨2, 0, 0, {(1, 1)}⟩] : List damaged_surface_t).length ∧
      (([⟨1, 0, 0, {(0, 0)}⟩, ⟨2, 0, 0, {(1, 1)}⟩] : List damaged_surface_t).reverse.map
          (fun ds => event.render_fb ds.surface ds.x ds.y ds.damage))[0]? =
        some (event.render_fb 2 0 0 {(1, 1)}) :=
  ⟨by decide,
    (render_views_back_to_front (scenario_impl 4 4 [])
      ⟨[⟨1, 0, 0, {(0, 0)}⟩, ⟨2, 0, 0, {(1, 1)}⟩], ∅,
        impl.get_target_framebuffer (scenario_impl 4 4 []), 0, 0⟩
      ((scenario_impl 4 4 []).default_streams (0, 0))).2.2.1 0 (by decide)⟩

/-- C29 as stated fails: on a grid of 65536 x 1 workspaces of 65536 x 1 pixels,
with current workspace (0, 0), the width `vw * sw = 2^32` of the box that
`damage_whole` damages wraps to 0 and the box of workspace (32768, 0) starts at
`-2^31`: after `damage_whole` nothing is damaged, the box of workspace (0, 0)
is not in the accumulated damage, and its workspace damage is not its full
box. -/
theorem damage_whole_wide_grid_overflow :
    (1 ≤ scenario_impl_wide_grid.output.workspace_grid_size.1 ∧
        1 ≤ scenario_impl_wide_grid.output.workspace_grid_size.2) ∧
      (0 ≤ scenario_impl_wide_grid.output.current_workspace.1 ∧
        scenario_impl_wide_grid.output.current_workspace.1 <
          scenario_impl_wide_grid.output.workspace_grid_size.1) ∧
      (0 ≤ scenario_impl_wide_grid.output.current_workspace.2 ∧
        scenario_impl_wide_grid.output.current_workspace.2 <
          scenario_impl_wide_grid.output.workspace_grid_size.2) ∧
      output_damage_t.get_ws_box scenario_impl_wide_grid (0, 0) = ⟨0, 0, 65536, 1⟩ ∧
      output_damage_t.get_ws_box scenario_impl_wide_grid (32768, 0) =
        ⟨-2147483648, 0, 65536, 1⟩ ∧
      output_damage_t.get_scheduled_damage
        (output_damage_t.damage_whole scenario_impl_wide_grid) = ∅ ∧
      ¬ ((output_damage_t.get_ws_box scenario_impl_wide_grid (0, 0)).pixels ⊆
        output_damage_t.get_scheduled_damage
          (output_damage_t.damage_whole scenario_impl_wide_grid)) ∧
      output_damage_t.get_ws_damage
          (output_damage_t.damage_whole scenario_impl_wide_grid) (0, 0) ≠
        (wlr_box.mk 0 0 65536 1).pixels := by
  have hd : output_damage_t.get_scheduled_damage
      (output_damage_t.damage_whole scenario_impl_wide_grid) = ∅ := by
    have hbox : wlr_box.mk
        (int32_wrap (-scenario_impl_wide_grid.output.current_workspace.1 *
          scenario_impl_wide_grid.output.transformed_width))
        (int32_wrap (-scenario_impl_wide_grid.output.current_workspace.2 *
          scenario_impl_wide_grid.output.transformed_height))
        (int32_wrap (scenario_impl_wide_grid.output.workspace_grid_size.1 *
          scenario_impl_wide_grid.output.transformed_width))
        (int32_wrap (scenario_impl_wide_grid.output.workspace_grid_size.2 *
          scenario_impl_wide_grid.output.transformed_height)) = ⟨0, 0, 0, 1⟩ := by decide
    have hempty : (wlr_box.mk 0 0 0 1).pixels = ∅ := by decide
    unfold output_damage_t.get_scheduled_damage
    rw [damage_whole_frame_damage, hbox, hempty]
    rfl
  have hb : output_damage_t.get_ws_box scenario_impl_wide_grid (0, 0) = ⟨0, 0, 65536, 1⟩ := by
    decide
  refine ⟨by decide, by decide, by decide, hb, by decide, hd, ?_, ?_⟩
  · rw [hd, hb]
    exact box_pixels_not_subset_empty _ (by decide) (by decide)
  · rw [get_ws_damage_of_empty _ _ hd]
    intro h
    exact box_pixels_not_subset_empty (wlr_box.mk 0 0 65536 1) (by decide) (by decide)
      (Finset.subset_of_eq h.symm)

/-- C29 amended: with the current workspace a cell of the grid, sizes of the
output that are not negative and a grid less than `2^31` pixels wide and high
(the products of `damage_whole` and `get_ws_box` fit a 32-bit `int`),
`damage_whole` adds to the accumulated damage the union of the boxes of all
workspaces of the grid; the box of the current workspace is `get_damage_box`,
that is (0, 0, sw, sh); and after `damage_whole` the workspace damage of every
workspace of the grid is its full box. -/
theorem damage_whole_covers_grid (st : impl)
    (hx : 0 ≤ st.output.current_workspace.1 ∧
      st.output.current_workspace.1 < st.output.workspace_grid_size.1)
    (hy : 0 ≤ st.output.current_workspace.2 ∧
      st.output.current_workspace.2 < st.output.workspace_grid_size.2)
    (hw : 0 ≤ st.output.transformed_width) (hh : 0 ≤ st.output.transformed_height)
    (hfw : st.output.workspace_grid_size.1 * st.output.transformed_width < 2147483648)
    (hfh : st.output.workspace_grid_size.2 * st.output.transformed_height < 2147483648) :
    output_damage_t.get_scheduled_damage (output_damage_t.damage_whole st) =
        output_damage_t.get_scheduled_damage st ∪
          (Finset.Ico 0 st.output.workspace_grid_size.1 ×ˢ
              Finset.Ico 0 st.output.workspace_grid_size.2).biUnion
            (fun ws => (output_damage_t.get_ws_box st ws).pixels) ∧
      output_damage_t.get_ws_box st st.output.current_workspace =
        output_damage_t.get_damage_box st ∧
      output_damage_t.get_damage_box st =
        wlr_box.mk 0 0 st.output.transformed_width st.output.transformed_height ∧
      ∀ i j, 0 ≤ i → i < st.output.workspace_grid_size.1 →
        0 ≤ j → j < st.output.workspace_grid_size.2 →
        output_damage_t.get_ws_damage (output_damage_t.damage_whole st) (i, j) =
          (wlr_box.mk 0 0 st.output.transformed_width st.output.transformed_height).pixels := by
  have hfd : (output_damage_t.damage_whole st).output_damage.frame_damage =
      st.output_damage.frame_damage ∪
        (Finset.Ico 0 st.output.workspace_grid_size.1 ×ˢ
            Finset.Ico 0 st.output.workspace_grid_size.2).biUnion
          (fun ws => (output_damage_t.get_ws_box st ws).pixels) := by
    rw [damage_whole_frame_damage, grid_box_eq_union st hx hy hw hh hfw hfh]
  refine ⟨hfd, ?_, rfl, ?_⟩
  · simp [output_damage_t.get_ws_box, output_damage_t.get_damage_box, int32_wrap]
  · intro i j hi0 hi hj0 hj
    have hbox : output_damage_t.get_ws_box (output_damage_t.damage_whole st) (i, j) =
        output_damage_t.get_ws_box st (i, j) :=
      get_ws_box_congr _ _ (damage_whole_output st) _
    unfold output_damage_t.get_ws_damage
    dsimp only
    rw [hbox, hfd]
    apply ws_damage_of_covered_box
    intro p hp
    rw [Finset.mem_union, Finset.mem_biUnion]
    refine Or.inr ⟨(i, j), ?_, hp⟩
    simp [hi0, hi, hj0, hj]

/-- C29, witness: on a 2x1 grid with current workspace (1, 0), workspace (0, 0)
is fully damaged after `damage_whole`. -/
theorem damage_whole_covers_grid_witness :
    (0 ≤ (scenario_impl_switched 4 4 []).output.current_workspace.1 ∧
        (scenario_impl_switched 4 4 []).output.current_workspace.1 <
          (scenario_impl_switched 4 4 []).output.workspace_grid_size.1) ∧
      (0 ≤ (scenario_impl_switched 4 4 []).output.current_workspace.2 ∧
        (scenario_impl_switched 4 4 []).output.current_workspace.2 <
          (scenario_impl_switched 4 4 []).output.workspace_grid_size.2) ∧
      0 ≤ (scenario_impl_switched 4 4 []).output.transformed_width ∧
      0 ≤ (scenario_impl_switched 4 4 []).output.transformed_height ∧
      (scenario_impl_switched 4 4 []).output.workspace_grid_size.1 *
          (scenario_impl_switched 4 4 []).output.transformed_width < 2147483648 ∧
      (scenario_impl_switched 4 4 []).output.workspace_grid_size.2 *
          (scenario_impl_switched 4 4 []).output.transformed_height < 2147483648 ∧
      output_damage_t.get_ws_damage
          (output_damage_t.damage_whole (scenario_impl_switched 4 4 [])) (0, 0) =
        (wlr_box.mk 0 0 4 4).pixels :=
  ⟨by decide, by decide, by decide, by decide, by decide, by decide,
    (damage_whole_covers_grid (scenario_impl_switched 4 4 []) (by decide) (by decide)
      (by decide) (by decide) (by decide) (by decide)).2.2.2 0 0
      (by decide) (by decide) (by decide) (by decide)⟩

/-- C30, failing input: after `focus_layer(4294967295, -1)` has returned the id
0, `focus_layer(1, 0)` runs with a hint that matches the active request and
still returns -1 and changes nothing, because the layer of that request equals
the value `(uint32_t)-1` that the lookup uses for "not found". With a request
for layer 1 in its place the same call returns 0 and moves the request. -/
theorem focus_layer_sentinel_layer :
    (compositor_core_impl_t.initial.focus_layer 4294967295 (-1)).1 = 0 ∧
      (compositor_core_impl_t.initial.focus_layer 4294967295 (-1)).2.layer_focus_requests =
        [(4294967295, 0)] ∧
      (compositor_core_impl_t.initial.focus_layer 4294967295 (-1)).2.focus_layer 1 0 =
        (-1, (compositor_core_impl_t.initial.focus_layer 4294967295 (-1)).2) ∧
      (compositor_core_impl_t.initial.focus_layer 1 (-1)).2.focus_layer 2 0 =
        (0, ⟨[(2, 0)], 0,
          [core_event.log_debug_focusing_layer 1, core_event.refocus,
           core_event.log_debug_focusing_layer 2, core_event.refocus]⟩) := by
  decide

end wf
